import Mathlib

/-!
# chaoseq: fixed-step RK4 integration of chaotic attractors

A shallow embedding of the simulation core of the repository
(`include/Integrator.hpp`, `include/ODESystems.hpp`, `src/simulation.cpp`,
and the step-size handler of `src/ui.cpp`).

Modelling conventions.

* `float` is modelled by an arbitrary linearly ordered field `F` (exact
  arithmetic); definitions are executable at `F = ℚ`, and statements that
  mention `exp` are read at `F = ℝ`.  Decimal literals stand for their decimal
  value.  Rounding, NaN and infinities are outside this model, with two
  exceptions: `compute_particle_bounds_of` takes its comparison as a
  parameter and is read on `float_value` (NaN and the infinities), and the
  clock of `step_simulation` is given a second time with every result rounded,
  `step_simulation_rounded`, read with the single-precision rounding
  `float32_round`.
* `std::vector<float>` is `List F`.  A read `v[i]` is `v.getD i 0` and a write
  `v[i] = a` is `v.set i a`; in the source an out-of-range index is undefined
  behaviour, and the theorems about the integrator carry the length
  hypotheses under which no index is out of range.
* A `void` function that mutates its arguments returns the new values.
* `std::sin` (used by the Thomas system) and
  `std::thread::hardware_concurrency()` are library functions: they are
  parameters `sin` and `hardware_concurrency` of the definitions that reach
  them.
* Fields of `simulation_state` that only serve rendering (OpenGL handles,
  camera mode, axes, colours) are omitted.
-/

namespace Chaoseq

/-! ## glm -/

/-- Three floats, `glm::vec3`. -/
structure vec3 (F : Type) where
  x : F
  y : F
  z : F
deriving DecidableEq, Repr

section Glm

variable {F : Type} [LinearOrderedField F]

/-- Componentwise sum, `operator+(vec3, vec3)`. -/
instance : Add (vec3 F) := ⟨fun a b => ⟨a.x + b.x, a.y + b.y, a.z + b.z⟩⟩

/-- Scalar times vector, `operator*(float, vec3)`. -/
instance : HMul F (vec3 F) (vec3 F) := ⟨fun c a => ⟨c * a.x, c * a.y, c * a.z⟩⟩

/-- The function `glm::min(x, y)`, which is `(y < x) ? y : x`. -/
def glm_min (x y : F) : F := if y < x then y else x

/-- The function `glm::max(x, y)`, which is `(x < y) ? y : x`. -/
def glm_max (x y : F) : F := if x < y then y else x

/-- The function `glm::clamp(x, minVal, maxVal)`, which is
`min(max(x, minVal), maxVal)`. -/
def glm_clamp (x minVal maxVal : F) : F := glm_min (glm_max x minVal) maxVal

end Glm

/-! ## Integrator.hpp -/

/-- The struct `ODESystem`: a dimension and a derivative callable.  The callable
`deriv(state, derivative, t)` writes into `derivative`; here it maps the state,
the previous contents of the output vector and the time to the new contents
of the output vector. -/
structure ODESystem (F : Type) where
  dim : Nat
  deriv : List F → List F → F → List F

/-- The class `IntegratorRK4`: its five private scratch vectors, empty on
construction. -/
structure IntegratorRK4 (F : Type) where
  k1 : List F := []
  k2 : List F := []
  k3 : List F := []
  k4 : List F := []
  tmp : List F := []
deriving DecidableEq, Repr

section Integrator

variable {F : Type} [LinearOrderedField F]

/-- The call `v.resize(n)` of `std::vector<float>`: keeps the first `n` elements
and pads with zeros. -/
def vector_resize (v : List F) (n : Nat) : List F :=
  v.take n ++ List.replicate (n - v.length) 0

/-- The three loops `for (i < n) tmp[i] = state[i] + c * k[i]` of
`IntegratorRK4::step`, with `c` being `0.5f * dt` or `dt`. -/
def stage_loop (n : Nat) (state : List F) (c : F) (k : List F) (tmp : List F) : List F :=
  (List.range n).foldl
    (fun tmp i => tmp.set i (state.getD i 0 + c * k.getD i 0)) tmp

/-- The last loop of `IntegratorRK4::step`:
`state[i] += (dt / 6.0f) * (k1[i] + 2.0f * k2[i] + 2.0f * k3[i] + k4[i])`. -/
def update_loop (n : Nat) (dt : F) (k1 k2 k3 k4 : List F) (state : List F) : List F :=
  (List.range n).foldl
    (fun state i => state.set i (state.getD i 0 +
      (dt / 6.0) * (k1.getD i 0 + 2.0 * k2.getD i 0 + 2.0 * k3.getD i 0 + k4.getD i 0)))
    state

/-- The method `IntegratorRK4::step(sys, state, t, dt)`; returns the integrator
with its updated scratch vectors and the new state. -/
def IntegratorRK4.step (self : IntegratorRK4 F) (sys : ODESystem F) (state : List F)
    (t dt : F) : IntegratorRK4 F × List F :=
  let n := sys.dim
  let self : IntegratorRK4 F :=
    if self.k1.length ≠ n then
      { k1 := vector_resize self.k1 n, k2 := vector_resize self.k2 n,
        k3 := vector_resize self.k3 n, k4 := vector_resize self.k4 n,
        tmp := vector_resize self.tmp n }
    else self
  let k1 := sys.deriv state self.k1 t
  let tmp := stage_loop n state (0.5 * dt) k1 self.tmp
  let k2 := sys.deriv tmp self.k2 (t + 0.5 * dt)
  let tmp := stage_loop n state (0.5 * dt) k2 tmp
  let k3 := sys.deriv tmp self.k3 (t + 0.5 * dt)
  let tmp := stage_loop n state dt k3 tmp
  let k4 := sys.deriv tmp self.k4 (t + dt)
  let state := update_loop n dt k1 k2 k3 k4 state
  ({ k1 := k1, k2 := k2, k3 := k3, k4 := k4, tmp := tmp }, state)

end Integrator

/-! ## ODESystems.hpp -/

section Systems

variable {F : Type} [LinearOrderedField F]

/-- The helper `resize_deriv(dxdt, dimension)`: resizes the output vector when
its size differs from `dimension`. -/
def resize_deriv (dxdt : List F) (dimension : Nat) : List F :=
  if dxdt.length ≠ dimension then vector_resize dxdt dimension else dxdt

/-- The body shared by the twelve bound callables: resize the output to 3,
read `state[0..2]`, evaluate `f` there and store the three components. -/
def bound_deriv (f : vec3 F → vec3 F) (state derivative : List F) : List F :=
  let derivative := resize_deriv derivative 3
  let value : vec3 F := ⟨state.getD 0 0, state.getD 1 0, state.getD 2 0⟩
  let delta := f value
  ((derivative.set 0 delta.x).set 1 delta.y).set 2 delta.z

end Systems

/-- The parameter record `LorenzArgs` with its default values. -/
structure LorenzArgs (F : Type) [LinearOrderedField F] where
  sigma : F := 10.0
  rho : F := 28.0
  beta : F := 8.0 / 3.0

/-- The parameter record `RosslerArgs` with its default values. -/
structure RosslerArgs (F : Type) [LinearOrderedField F] where
  a : F := 0.2
  b : F := 0.2
  c : F := 5.7

/-- The parameter record `ThomasArgs` with its default values. -/
structure ThomasArgs (F : Type) [LinearOrderedField F] where
  b : F := 0.208186

/-- The parameter record `AizawaArgs` with its default values. -/
structure AizawaArgs (F : Type) [LinearOrderedField F] where
  a : F := 0.95
  b : F := 0.7
  c : F := 0.6
  d : F := 3.5
  e : F := 0.25
  f : F := 0.1

/-- The parameter record `DadrasArgs` with its default values. -/
structure DadrasArgs (F : Type) [LinearOrderedField F] where
  a : F := 3.0
  b : F := 2.7
  c : F := 1.7
  d : F := 2.0
  e : F := 9.0

/-- The parameter record `ChenArgs` with its default values. -/
structure ChenArgs (F : Type) [LinearOrderedField F] where
  alpha : F := 5.0
  beta : F := -10.0
  delta : F := -0.38

/-- The parameter record `Lorenz83Args` with its default values. -/
structure Lorenz83Args (F : Type) [LinearOrderedField F] where
  a : F := 0.95
  b : F := 7.91
  f : F := 4.83
  g : F := 4.66

/-- The parameter record `HalvorsenArgs` with its default values. -/
structure HalvorsenArgs (F : Type) [LinearOrderedField F] where
  a : F := 1.4

/-- The parameter record `RabinovichArgs` with its default values. -/
structure RabinovichArgs (F : Type) [LinearOrderedField F] where
  alpha : F := 0.14
  gamma : F := 0.1

/-- The parameter record `ThreeScrollArgs` with its default values. -/
structure ThreeScrollArgs (F : Type) [LinearOrderedField F] where
  a : F := 32.48
  b : F := 45.84
  c : F := 1.18
  d : F := 0.13
  e : F := 0.57
  f : F := 14.7

/-- The parameter record `SprottArgs` with its default values. -/
structure SprottArgs (F : Type) [LinearOrderedField F] where
  a : F := 2.07
  b : F := 1.79

/-- The parameter record `FourWingArgs` with its default values. -/
structure FourWingArgs (F : Type) [LinearOrderedField F] where
  a : F := 0.2
  b : F := 0.01
  c : F := -0.4

section Systems

variable {F : Type} [LinearOrderedField F]

/-- The derivative `deriv_lorenz(args, value)`. -/
def deriv_lorenz (args : LorenzArgs F) (value : vec3 F) : vec3 F :=
  ⟨args.sigma * (value.y - value.x),
    value.x * (args.rho - value.z) - value.y,
    value.x * value.y - args.beta * value.z⟩

/-- The factory `make_lorenz_system(args)`: dimension 3 and the callable that
captures `args`. -/
def make_lorenz_system (args : LorenzArgs F) : ODESystem F where
  dim := 3
  deriv := fun state derivative _ => bound_deriv (deriv_lorenz args) state derivative

/-- The derivative `deriv_rossler(args, value)`. -/
def deriv_rossler (args : RosslerArgs F) (value : vec3 F) : vec3 F :=
  ⟨-(value.y + value.z),
    value.x + args.a * value.y,
    args.b + value.z * (value.x - args.c)⟩

/-- The factory `make_rossler_system(args)`: dimension 3 and the callable that
captures `args`. -/
def make_rossler_system (args : RosslerArgs F) : ODESystem F where
  dim := 3
  deriv := fun state derivative _ => bound_deriv (deriv_rossler args) state derivative

/-- The derivative `deriv_thomas(args, value)`. -/
def deriv_thomas (sin : F → F) (args : ThomasArgs F) (value : vec3 F) : vec3 F :=
  ⟨sin value.y - args.b * value.x,
    sin value.z - args.b * value.y,
    sin value.x - args.b * value.z⟩

/-- The factory `make_thomas_system(args)`: dimension 3 and the callable that
captures `args`. -/
def make_thomas_system (sin : F → F) (args : ThomasArgs F) : ODESystem F where
  dim := 3
  deriv := fun state derivative _ => bound_deriv (deriv_thomas sin args) state derivative

/-- The derivative `deriv_aizawa(args, value)`. -/
def deriv_aizawa (args : AizawaArgs F) (value : vec3 F) : vec3 F :=
  let radius_squared := value.x * value.x + value.y * value.y
  ⟨(value.z - args.b) * value.x - args.d * value.y,
    args.d * value.x + (value.z - args.b) * value.y,
    args.c + args.a * value.z - (value.z * value.z * value.z) / 3.0 -
      radius_squared * (1.0 + args.e * value.z) +
      args.f * value.z * value.x * value.x * value.x⟩

/-- The factory `make_aizawa_system(args)`: dimension 3 and the callable that
captures `args`. -/
def make_aizawa_system (args : AizawaArgs F) : ODESystem F where
  dim := 3
  deriv := fun state derivative _ => bound_deriv (deriv_aizawa args) state derivative

/-- The derivative `deriv_dadras(args, value)`. -/
def deriv_dadras (args : DadrasArgs F) (value : vec3 F) : vec3 F :=
  ⟨value.y - args.a * value.x + args.b * value.y * value.z,
    args.c * value.y - value.x * value.z + value.z,
    args.d * value.x * value.y - args.e * value.z⟩

/-- The factory `make_dadras_system(args)`: dimension 3 and the callable that
captures `args`. -/
def make_dadras_system (args : DadrasArgs F) : ODESystem F where
  dim := 3
  deriv := fun state derivative _ => bound_deriv (deriv_dadras args) state derivative

/-- The derivative `deriv_chen(args, value)`. -/
def deriv_chen (args : ChenArgs F) (value : vec3 F) : vec3 F :=
  ⟨args.alpha * value.x - value.y * value.z,
    args.beta * value.y + value.x * value.z,
    args.delta * value.z + (value.x * value.y) / 3.0⟩

/-- The factory `make_chen_system(args)`: dimension 3 and the callable that
captures `args`. -/
def make_chen_system (args : ChenArgs F) : ODESystem F where
  dim := 3
  deriv := fun state derivative _ => bound_deriv (deriv_chen args) state derivative

/-- The derivative `deriv_lorenz83(args, value)`. -/
def deriv_lorenz83 (args : Lorenz83Args F) (value : vec3 F) : vec3 F :=
  ⟨-args.a * value.x - value.y * value.y - value.z * value.z + args.a * args.f,
    -value.y + value.x * value.y - args.b * value.x * value.z + args.g,
    -value.z + args.b * value.x * value.y + value.x * value.z⟩

/-- The factory `make_lorenz83_system(args)`: dimension 3 and the callable that
captures `args`. -/
def make_lorenz83_system (args : Lorenz83Args F) : ODESystem F where
  dim := 3
  deriv := fun state derivative _ => bound_deriv (deriv_lorenz83 args) state derivative

/-- The derivative `deriv_halvorsen(args, value)`. -/
def deriv_halvorsen (args : HalvorsenArgs F) (value : vec3 F) : vec3 F :=
  ⟨-args.a * value.x - 4.0 * value.y - 4.0 * value.z - value.y * value.y,
    -args.a * value.y - 4.0 * value.z - 4.0 * value.x - value.z * value.z,
    -args.a * value.z - 4.0 * value.x - 4.0 * value.y - value.x * value.x⟩

/-- The factory `make_halvorsen_system(args)`: dimension 3 and the callable that
captures `args`. -/
def make_halvorsen_system (args : HalvorsenArgs F) : ODESystem F where
  dim := 3
  deriv := fun state derivative _ => bound_deriv (deriv_halvorsen args) state derivative

/-- The derivative `deriv_rabinovich(args, value)`. -/
def deriv_rabinovich (args : RabinovichArgs F) (value : vec3 F) : vec3 F :=
  ⟨value.y * (value.z - 1.0 + value.x * value.x) + args.gamma * value.x,
    value.x * (3.0 * value.z + 1.0 - value.x * value.x) + args.gamma * value.y,
    -2.0 * value.z * (args.alpha + value.x * value.y)⟩

/-- The factory `make_rabinovich_system(args)`: dimension 3 and the callable that
captures `args`. -/
def make_rabinovich_system (args : RabinovichArgs F) : ODESystem F where
  dim := 3
  deriv := fun state derivative _ => bound_deriv (deriv_rabinovich args) state derivative

/-- The derivative `deriv_three_scroll(args, value)`. -/
def deriv_three_scroll (args : ThreeScrollArgs F) (value : vec3 F) : vec3 F :=
  ⟨args.a * (value.y - value.x) + args.d * value.x * value.z,
    args.b * value.x + args.f * value.y - value.x * value.z,
    args.c * value.z + args.e * value.x * value.y + args.e * value.y * value.z⟩

/-- The factory `make_three_scroll_system(args)`: dimension 3 and the callable that
captures `args`. -/
def make_three_scroll_system (args : ThreeScrollArgs F) : ODESystem F where
  dim := 3
  deriv := fun state derivative _ => bound_deriv (deriv_three_scroll args) state derivative

/-- The derivative `deriv_sprott(args, value)`. -/
def deriv_sprott (args : SprottArgs F) (value : vec3 F) : vec3 F :=
  ⟨-args.a * value.x + value.y,
    -value.z + value.x * value.y,
    args.b + value.z * (value.x - 14.0)⟩

/-- The factory `make_sprott_system(args)`: dimension 3 and the callable that
captures `args`. -/
def make_sprott_system (args : SprottArgs F) : ODESystem F where
  dim := 3
  deriv := fun state derivative _ => bound_deriv (deriv_sprott args) state derivative

/-- The derivative `deriv_four_wing(args, value)`. -/
def deriv_four_wing (args : FourWingArgs F) (value : vec3 F) : vec3 F :=
  ⟨value.y * value.z + args.b,
    value.x * value.z + args.c,
    -value.x * value.y + args.a⟩

/-- The factory `make_four_wing_system(args)`: dimension 3 and the callable that
captures `args`. -/
def make_four_wing_system (args : FourWingArgs F) : ODESystem F where
  dim := 3
  deriv := fun state derivative _ => bound_deriv (deriv_four_wing args) state derivative

end Systems

/-! ## simulation.hpp -/

/-- The enumeration `system_type`. -/
inductive system_type where
  | lorenz
  | rossler
  | thomas
  | aizawa
  | dadras
  | chen
  | lorenz83
  | halvorsen
  | rabinovich
  | three_scroll
  | sprott
  | four_wing
deriving DecidableEq, Repr

/-- The struct `simulation_state`, without its rendering-only fields.  The
member `system` is left uninitialised by the source's constructor, so it has
no default here. -/
structure simulation_state (F : Type) [LinearOrderedField F] where
  current_system : system_type := system_type.lorenz
  lorenz_args : LorenzArgs F := {}
  rossler_args : RosslerArgs F := {}
  thomas_args : ThomasArgs F := {}
  aizawa_args : AizawaArgs F := {}
  dadras_args : DadrasArgs F := {}
  chen_args : ChenArgs F := {}
  lorenz83_args : Lorenz83Args F := {}
  halvorsen_args : HalvorsenArgs F := {}
  rabinovich_args : RabinovichArgs F := {}
  three_scroll_args : ThreeScrollArgs F := {}
  sprott_args : SprottArgs F := {}
  four_wing_args : FourWingArgs F := {}
  system : ODESystem F
  integrator : IntegratorRK4 F := {}
  state : List F := []
  t : F := 0.0
  base_dt : F := 0.01
  time_accumulator : F := 0.0
  paused : Bool := false
  particle_count : Nat := 10000
  particle_spawn_radius : F := 1.5
  particle_positions : List (vec3 F) := []
  particle_phases : List F := []
  particle_spawn_from_origin : Bool := false
  particle_origin_jitter : F := 0.02

/-! ## simulation.cpp -/

section Simulation

variable {F : Type} [LinearOrderedField F]

/-- The function `evaluate_derivative(state, position)`: dispatch on the current
system, each case with that system's own parameter record. -/
def evaluate_derivative (sin : F → F) (state : simulation_state F) (position : vec3 F) :
    vec3 F :=
  match state.current_system with
  | system_type.lorenz => deriv_lorenz state.lorenz_args position
  | system_type.rossler => deriv_rossler state.rossler_args position
  | system_type.thomas => deriv_thomas sin state.thomas_args position
  | system_type.aizawa => deriv_aizawa state.aizawa_args position
  | system_type.dadras => deriv_dadras state.dadras_args position
  | system_type.chen => deriv_chen state.chen_args position
  | system_type.lorenz83 => deriv_lorenz83 state.lorenz83_args position
  | system_type.halvorsen => deriv_halvorsen state.halvorsen_args position
  | system_type.rabinovich => deriv_rabinovich state.rabinovich_args position
  | system_type.three_scroll => deriv_three_scroll state.three_scroll_args position
  | system_type.sprott => deriv_sprott state.sprott_args position
  | system_type.four_wing => deriv_four_wing state.four_wing_args position

/-- The function `integrate_particle_rk4(state, position, dt)`. -/
def integrate_particle_rk4 (sin : F → F) (state : simulation_state F) (position : vec3 F)
    (dt : F) : vec3 F :=
  let k1 := evaluate_derivative sin state position
  let k2 := evaluate_derivative sin state (position + (0.5 * dt) * k1)
  let k3 := evaluate_derivative sin state (position + (0.5 * dt) * k2)
  let k4 := evaluate_derivative sin state (position + dt * k3)
  position + (dt / 6.0) * (k1 + (2.0 : F) * k2 + (2.0 : F) * k3 + k4)

/-- The lambda `integrate_range(begin, end)` of `advance_particles`: for each
index of the range in increasing order, replace the position by its RK4
image. -/
def integrate_range (sin : F → F) (state : simulation_state F) (dt : F)
    (begin end_ : Nat) (positions : List (vec3 F)) : List (vec3 F) :=
  (List.range' begin (end_ - begin)).foldl
    (fun positions index =>
      positions.set index
        (integrate_particle_rk4 sin state (positions.getD index ⟨0, 0, 0⟩) dt))
    positions

/-- The constant `k_min_per_thread` of `advance_particles`. -/
def k_min_per_thread : Nat := 4096

/-- The multi-threaded branch of `advance_particles` for a given
`thread_count`: worker `t` gets the range `[start, start + chunk)` with
`chunk = base_chunk + (t < remainder ? 1 : 0)`.  The workers write disjoint
slices and are all joined before the function returns, so they are run here
one after the other in the order of the loop.  Returns the positions and the
final value of `start`. -/
def advance_particles_workers (sin : F → F) (state : simulation_state F) (dt : F)
    (thread_count : Nat) : List (vec3 F) × Nat :=
  let particle_total := state.particle_positions.length
  let base_chunk := particle_total / thread_count
  let remainder := particle_total % thread_count
  (List.range thread_count).foldl
    (fun acc t =>
      let chunk := base_chunk + (if t < remainder then 1 else 0)
      let end_ := acc.2 + chunk
      (integrate_range sin state dt acc.2 end_ acc.1, end_))
    (state.particle_positions, 0)

/-- The value `thread_count` computed by `advance_particles`; sizes are
`size_t` (64 bits) and thread numbers are `unsigned int` (32 bits). -/
def advance_particles_thread_count (hardware_concurrency : Nat) (particle_total : Nat) :
    Nat :=
  let hardware_threads := max 1 hardware_concurrency
  let max_threads :=
    (((particle_total + k_min_per_thread - 1) % 2 ^ 64) / k_min_per_thread) % 2 ^ 32
  min (max 1 max_threads) hardware_threads

/-- The function `advance_particles(state, dt)`. -/
def advance_particles (sin : F → F) (hardware_concurrency : Nat)
    (state : simulation_state F) (dt : F) : simulation_state F :=
  let particle_total := state.particle_positions.length
  if particle_total = 0 then state
  else
    let thread_count := advance_particles_thread_count hardware_concurrency particle_total
    if thread_count ≤ 1 then
      { state with
        particle_positions :=
          integrate_range sin state dt 0 particle_total state.particle_positions }
    else
      { state with
        particle_positions := (advance_particles_workers sin state dt thread_count).1 }

/-- The constant `max_iterations` of `step_simulation`. -/
def max_iterations : Nat := 4096

/-- The constant `max_accumulator` of `step_simulation`. -/
def max_accumulator : F := 2.0

/-- The local `step_dt` of `step_simulation`:
`glm::clamp(state.base_dt, 1e-6f, 0.2f)`. -/
def step_dt (state : simulation_state F) : F := glm_clamp state.base_dt 1e-6 0.2

/-- The body of the `while` loop of `step_simulation`, without the increment of
the local counter. -/
def step_simulation_body (sin : F → F) (hardware_concurrency : Nat) (step_dt : F)
    (state : simulation_state F) : simulation_state F :=
  let r := state.integrator.step state.system state.state state.t step_dt
  let state := { state with integrator := r.1, state := r.2 }
  let state := advance_particles sin hardware_concurrency state step_dt
  let state := { state with t := state.t + step_dt }
  { state with time_accumulator := state.time_accumulator - step_dt }

/-- The `while` loop of `step_simulation`,
`while (state.time_accumulator >= step_dt && iterations < max_iterations)`,
unrolled at most `fuel` times; returns the state and the local `iterations`. -/
def step_simulation_loop (sin : F → F) (hardware_concurrency : Nat) (step_dt : F) :
    Nat → simulation_state F → Nat → simulation_state F × Nat
  | 0, state, iterations => (state, iterations)
  | fuel + 1, state, iterations =>
    if step_dt ≤ state.time_accumulator ∧ iterations < max_iterations then
      step_simulation_loop sin hardware_concurrency step_dt fuel
        (step_simulation_body sin hardware_concurrency step_dt state) (iterations + 1)
    else (state, iterations)

/-- The function `step_simulation(state, frame_dt)`; returns the new state and
the final value of the local `iterations`, the number of integration steps
performed.  The loop is given `max_iterations` units of fuel, which it cannot
exhaust before its own guard `iterations < max_iterations` fails. -/
def step_simulation (sin : F → F) (hardware_concurrency : Nat)
    (state : simulation_state F) (frame_dt : F) : simulation_state F × Nat :=
  if state.paused then (state, 0)
  else
    let state := { state with time_accumulator := state.time_accumulator + frame_dt }
    let state :=
      if max_accumulator < state.time_accumulator then
        { state with time_accumulator := max_accumulator }
      else state
    let step_dt := step_dt state
    let r := step_simulation_loop sin hardware_concurrency step_dt max_iterations state 0
    if r.2 = max_iterations then ({ r.1 with time_accumulator := 0.0 }, r.2)
    else r

end Simulation

/-! ## Single-precision arithmetic -/

/-- The value of type `float` (IEEE-754 binary32) that a real result is rounded to,
for rationals: round to nearest with ties to even, a 24-bit significand and
exponents from `-126` (so the subnormal range has the fixed quantum `2^-149`).
Results of magnitude `2^128` and above, which a `float` turns into an infinity,
are outside this function. -/
def float32_round (x : ℚ) : ℚ :=
  if x = 0 then 0
  else
    let e : ℤ := max (Int.log 2 |x|) (-126)
    let q : ℚ := 2 ^ (e - 23)
    let n : ℚ := x / q
    let f : ℤ := ⌊n⌋
    let k : ℤ :=
      if n - f < 1 / 2 then f
      else if 1 / 2 < n - f then f + 1
      else if f % 2 = 0 then f else f + 1
    k * q

section RoundedClock

variable {F : Type} [LinearOrderedField F]

/-- The `while` loop of `step_simulation` on the two variables of its guard,
`state.time_accumulator` and `iterations`, with the result of the subtraction
`state.time_accumulator -= step_dt` rounded by `rnd`; unrolled at most `fuel`
times. -/
def step_simulation_rounded_loop (rnd : F → F) (step_dt : F) : Nat → F → Nat → F × Nat
  | 0, time_accumulator, iterations => (time_accumulator, iterations)
  | fuel + 1, time_accumulator, iterations =>
    if step_dt ≤ time_accumulator ∧ iterations < max_iterations then
      step_simulation_rounded_loop rnd step_dt fuel (rnd (time_accumulator - step_dt))
        (iterations + 1)
    else (time_accumulator, iterations)

/-- The clock of `step_simulation(state, frame_dt)` when every arithmetic result is
rounded by `rnd`: the final `state.time_accumulator` and the final `iterations`.
The literals `1e-6f` and `0.2f` are the roundings of `1e-6` and `0.2`; `2.0f` and
`0.0f` are exact.  With `rnd` the identity this is the clock of `step_simulation`. -/
def step_simulation_rounded (rnd : F → F) (state : simulation_state F) (frame_dt : F) :
    F × Nat :=
  if state.paused then (state.time_accumulator, 0)
  else
    let time_accumulator := rnd (state.time_accumulator + frame_dt)
    let time_accumulator :=
      if max_accumulator < time_accumulator then max_accumulator else time_accumulator
    let step_dt := glm_clamp state.base_dt (rnd 1e-6) (rnd 0.2)
    let r := step_simulation_rounded_loop rnd step_dt max_iterations time_accumulator 0
    if r.2 = max_iterations then (0.0, r.2) else r

end RoundedClock

/-! ## ui.cpp -/

section Ui

variable {F : Type} [LinearOrderedField F]

/-- The handler of the slider "dt (sim step)" in `draw_ui`, run when the slider
reports the new value `base_dt`:
`state.base_dt = glm::clamp(base_dt, 1e-6f, 0.2f); state.time_accumulator = 0.0f;`. -/
def draw_ui_dt_slider (state : simulation_state F) (base_dt : F) : simulation_state F :=
  let state := { state with base_dt := glm_clamp base_dt 1e-6 0.2 }
  { state with time_accumulator := 0.0 }

end Ui

/-! ## Library functions of the spawn code -/

/-- The library functions that the spawn code calls, `std::sqrt` (through
`glm::length` and `glm::normalize`), `std::atan2`, `std::acos`,
`std::isfinite`, and the constant `glm::two_pi<float>()`; they are parameters of
the definitions that reach them. -/
structure cmath (F : Type) where
  sqrt : F → F
  atan2 : F → F → F
  acos : F → F
  isfinite : F → Bool
  two_pi : F

section Spawn

variable {F : Type} [LinearOrderedField F]

/-- Vector times scalar, `operator*(vec3, float)`. -/
instance : HMul (vec3 F) F (vec3 F) := ⟨fun a c => ⟨a.x * c, a.y * c, a.z * c⟩⟩

/-- Vector divided by scalar, `operator/=(vec3, float)`. -/
instance : HDiv (vec3 F) F (vec3 F) := ⟨fun a c => ⟨a.x / c, a.y / c, a.z / c⟩⟩

/-- The function `glm::dot(a, b)`. -/
def glm_dot (a b : vec3 F) : F := a.x * b.x + a.y * b.y + a.z * b.z

/-- The function `glm::length(v)`, which is `sqrt(dot(v, v))`. -/
def glm_length (m : cmath F) (v : vec3 F) : F := m.sqrt (glm_dot v v)

/-- The function `glm::normalize(v)`, which is `v * inversesqrt(dot(v, v))`. -/
def glm_normalize (m : cmath F) (v : vec3 F) : vec3 F := v * (1 / m.sqrt (glm_dot v v))

/-- The exact value of `std::fmod(x, y)`: `x - n * y` with `n` the quotient `x / y`
truncated toward zero. -/
def fmod [FloorRing F] (x y : F) : F :=
  x - (if 0 ≤ x / y then ((⌊x / y⌋ : Int) : F) else ((⌈x / y⌉ : Int) : F)) * y

/-- The function `compute_spawn_phase(position)`. -/
def compute_spawn_phase [FloorRing F] (m : cmath F) (position : vec3 F) : F :=
  let direction := position
  let distance := glm_length m direction
  let direction : vec3 F :=
    if (!m.isfinite distance) || decide (distance < 1e-6) then ⟨1.0, 0.0, 0.0⟩
    else direction / distance
  let azimuth := m.atan2 direction.y direction.x
  let elevation := m.acos (glm_clamp direction.z (-1.0) 1.0)
  let phase := azimuth + elevation
  let phase := fmod phase m.two_pi
  if phase < 0.0 then phase + m.two_pi else phase

/-- The call `v.resize(n)` of `std::vector<glm::vec3>`: keeps the first `n`
elements and pads with zero vectors. -/
def vec3_resize (v : List (vec3 F)) (n : Nat) : List (vec3 F) :=
  v.take n ++ List.replicate (n - v.length) ⟨0, 0, 0⟩

/-- The position computed by one round of the loop of
`initialize_particle_field` from the four values `d0 d1 d2 d3` that
`normal_dist(rng)` returns in that round: three for the direction, one for the
radius. -/
def spawn_position (m : cmath F) (state : simulation_state F) (d0 d1 d2 d3 : F) : vec3 F :=
  let direction : vec3 F := ⟨d0, d1, d2⟩
  let direction : vec3 F :=
    if glm_dot direction direction < 1e-6 then ⟨1.0, 0.0, 0.0⟩ else direction
  let direction := glm_normalize m direction
  if state.particle_spawn_from_origin then
    let jitter_scale := glm_max state.particle_origin_jitter 1e-4
    let radius := |d3| * jitter_scale
    let radius := glm_clamp radius 1e-5 (jitter_scale * 2.0)
    direction * radius
  else
    let radius := |d3| * 0.5 + 0.5
    direction * radius * state.particle_spawn_radius

/-- The function `initialize_particle_field(state)`.  The sequence `draws` lists
the values returned by the successive calls of `normal_dist(rng)`, four per
particle; the OpenGL buffer calls are omitted. -/
def initialize_particle_field [FloorRing F] (m : cmath F) (draws : Nat → F)
    (state : simulation_state F) : simulation_state F :=
  let state := if state.particle_count = 0 then { state with particle_count := 1 } else state
  let state :=
    { state with particle_positions := vec3_resize state.particle_positions state.particle_count }
  let state :=
    { state with particle_phases := vector_resize state.particle_phases state.particle_count }
  let r := (List.range state.particle_count).foldl
    (fun (acc : List (vec3 F) × List F) index =>
      let position := spawn_position m state (draws (4 * index)) (draws (4 * index + 1))
        (draws (4 * index + 2)) (draws (4 * index + 3))
      (acc.1.set index position, acc.2.set index (compute_spawn_phase m position)))
    (state.particle_positions, state.particle_phases)
  { state with particle_positions := r.1, particle_phases := r.2 }

/-- The `switch` of `reset_simulation`: the field bound from the current
parameters and the initial state of the current system. -/
def reset_simulation_switch (sin : F → F) (state : simulation_state F) :
    ODESystem F × List F :=
  let initial_state : List F := [0.1, 0.0, 0.0]
  match state.current_system with
  | system_type.lorenz => (make_lorenz_system state.lorenz_args, [1.0, 1.0, 1.0])
  | system_type.rossler => (make_rossler_system state.rossler_args, initial_state)
  | system_type.thomas => (make_thomas_system sin state.thomas_args, [0.2, 0.0, -0.2])
  | system_type.aizawa => (make_aizawa_system state.aizawa_args, initial_state)
  | system_type.dadras => (make_dadras_system state.dadras_args, [0.1, 0.1, 0.1])
  | system_type.chen => (make_chen_system state.chen_args, initial_state)
  | system_type.lorenz83 => (make_lorenz83_system state.lorenz83_args, initial_state)
  | system_type.halvorsen => (make_halvorsen_system state.halvorsen_args, initial_state)
  | system_type.rabinovich => (make_rabinovich_system state.rabinovich_args, initial_state)
  | system_type.three_scroll =>
    (make_three_scroll_system state.three_scroll_args, initial_state)
  | system_type.sprott => (make_sprott_system state.sprott_args, [0.1, 0.1, 0.1])
  | system_type.four_wing => (make_four_wing_system state.four_wing_args, [0.1, 0.1, 0.1])

/-- The function `reset_simulation(state)`; returns the new state and the
returned vector.  The upload to the GPU is omitted. -/
def reset_simulation [FloorRing F] (sin : F → F) (m : cmath F) (draws : Nat → F)
    (state : simulation_state F) : simulation_state F × vec3 F :=
  let r := reset_simulation_switch sin state
  let state := { state with system := r.1 }
  let state := { state with state := r.2 }
  let state := { state with t := 0.0 }
  let state := { state with time_accumulator := 0.0 }
  let state := { state with integrator := {} }
  let state := initialize_particle_field m draws state
  (state, ⟨state.state.getD 0 0, state.state.getD 1 0, state.state.getD 2 0⟩)

/-- The `(start, end)` pairs that the multi-threaded branch of `advance_particles`
hands to `integrate_range`, in the order of its loop, and the final `start`. -/
def advance_particles_ranges (particle_total thread_count : Nat) :
    List (Nat × Nat) × Nat :=
  let base_chunk := particle_total / thread_count
  let remainder := particle_total % thread_count
  (List.range thread_count).foldl
    (fun acc t =>
      let chunk := base_chunk + (if t < remainder then 1 else 0)
      let end_ := acc.2 + chunk
      (acc.1 ++ [(acc.2, end_)], end_))
    ([], 0)

end Spawn

/-! ## Bounds of the ensemble -/

/-- A `float` together with its non-finite values: NaN, the two infinities, and
the finite values. -/
inductive float_value (F : Type) where
  | nan
  | neg_infinity
  | finite (x : F)
  | infinity
deriving DecidableEq, Repr

section Bounds

/-- The comparison `a < b` of two floats: false whenever an operand is NaN,
otherwise the order with `-infinity` below and `+infinity` above the finite
values. -/
def float_value.lt {F : Type} [LinearOrder F] : float_value F → float_value F → Bool
  | float_value.nan, _ => false
  | _, float_value.nan => false
  | float_value.infinity, _ => false
  | _, float_value.neg_infinity => false
  | float_value.neg_infinity, _ => true
  | float_value.finite _, float_value.infinity => true
  | float_value.finite a, float_value.finite b => decide (a < b)

variable {α : Type}

/-- The function `glm::min(a, b)` on vectors, componentwise `(b < a) ? b : a`, for
the comparison `lt` of the component type. -/
def vec3_min (lt : α → α → Bool) (a b : vec3 α) : vec3 α :=
  ⟨if lt b.x a.x then b.x else a.x, if lt b.y a.y then b.y else a.y,
    if lt b.z a.z then b.z else a.z⟩

/-- The function `glm::max(a, b)` on vectors, componentwise `(a < b) ? b : a`, for
the comparison `lt` of the component type. -/
def vec3_max (lt : α → α → Bool) (a b : vec3 α) : vec3 α :=
  ⟨if lt a.x b.x then b.x else a.x, if lt a.y b.y then b.y else a.y,
    if lt a.z b.z then b.z else a.z⟩

/-- The body of `compute_particle_bounds` on a position sequence, for the
comparison `lt` of the component type; returns the result and the new
contents of `out_min` and `out_max`. -/
def compute_particle_bounds_of (lt : α → α → Bool) (positions : List (vec3 α))
    (out_min out_max : vec3 α) : Bool × vec3 α × vec3 α :=
  match positions with
  | [] => (false, out_min, out_max)
  | front :: _ =>
    let out_min := front
    let out_max := out_min
    let r := positions.foldl
      (fun (acc : vec3 α × vec3 α) position =>
        (vec3_min lt acc.1 position, vec3_max lt acc.2 position))
      (out_min, out_max)
    (true, r.1, r.2)

/-- The function `compute_particle_bounds(state, out_min, out_max)`. -/
def compute_particle_bounds {F : Type} [LinearOrderedField F] (state : simulation_state F)
    (out_min out_max : vec3 F) : Bool × vec3 F × vec3 F :=
  compute_particle_bounds_of (fun a b => decide (a < b)) state.particle_positions
    out_min out_max

end Bounds

/-! ## ui.cpp: the widgets of `draw_ui` -/

/-- What the ImGui widgets report in one frame; ImGui is library code, taken as
a parameter.  A widget that edits a value through a pointer and returns
`true` when it changed it is modelled by `some` of the value it wrote, and
`none` when it returns `false` and leaves the value alone.  The arguments are
the label and the current value, and for sliders the two bounds. -/
structure imgui (F : Type) where
  Combo : String → Nat → Option Nat
  SliderFloat : String → F → F → F → Option F
  SliderInt : String → Int → Int → Int → Option Int
  Checkbox : String → Bool → Option Bool
  Button : String → Bool

/-- The cast `static_cast<int>(system_type)`. -/
def system_type.index : system_type → Nat
  | system_type.lorenz => 0
  | system_type.rossler => 1
  | system_type.thomas => 2
  | system_type.aizawa => 3
  | system_type.dadras => 4
  | system_type.chen => 5
  | system_type.lorenz83 => 6
  | system_type.halvorsen => 7
  | system_type.rabinovich => 8
  | system_type.three_scroll => 9
  | system_type.sprott => 10
  | system_type.four_wing => 11

/-- The cast `static_cast<system_type>(system_index)`; `ImGui::Combo` reports an
index below the number of its twelve items. -/
def system_type_of_index : Nat → system_type
  | 0 => system_type.lorenz
  | 1 => system_type.rossler
  | 2 => system_type.thomas
  | 3 => system_type.aizawa
  | 4 => system_type.dadras
  | 5 => system_type.chen
  | 6 => system_type.lorenz83
  | 7 => system_type.halvorsen
  | 8 => system_type.rabinovich
  | 9 => system_type.three_scroll
  | 10 => system_type.sprott
  | _ => system_type.four_wing

/-- The cast `static_cast<int>(size_t)`, to a 32-bit signed integer. -/
def int_of_size_t (n : Nat) : Int :=
  if n % 2 ^ 32 < 2 ^ 31 then ((n % 2 ^ 32 : Nat) : Int) else ((n % 2 ^ 32 : Nat) : Int) - 2 ^ 32

/-- The cast `static_cast<size_t>(int)`, to a 64-bit unsigned integer. -/
def size_t_of_int (i : Int) : Nat := (i % 2 ^ 64).toNat

section Widgets

variable {F : Type} [LinearOrderedField F]

/-- The call `ImGui::SliderFloat(label, &v, v_min, v_max)`: the value of `v`
afterwards and the returned flag. -/
def slider_float (io : imgui F) (label : String) (v v_min v_max : F) : F × Bool :=
  match io.SliderFloat label v v_min v_max with
  | some w => (w, true)
  | none => (v, false)

/-- The `switch` of `draw_ui` over the current system: the sliders of the active
system write its parameter record, and when one of them reports a change the
field is bound again from the record; returns the state and `args_changed`. -/
def draw_ui_switch (sin : F → F) (io : imgui F) (state : simulation_state F) :
    simulation_state F × Bool :=
  match state.current_system with
  | system_type.lorenz =>
    let s0 := slider_float io "sigma" state.lorenz_args.sigma 0.1 50.0
    let s1 := slider_float io "rho" state.lorenz_args.rho 0.1 60.0
    let s2 := slider_float io "beta" state.lorenz_args.beta 0.1 10.0
    let state := { state with lorenz_args := { sigma := s0.1, rho := s1.1, beta := s2.1 } }
    let args_changed := (((false || s0.2) || s1.2) || s2.2)
    let state :=
      if args_changed then { state with system := make_lorenz_system state.lorenz_args }
      else state
    (state, args_changed)
  | system_type.rossler =>
    let s0 := slider_float io "a" state.rossler_args.a (-1.0) 1.0
    let s1 := slider_float io "b" state.rossler_args.b (-1.0) 1.0
    let s2 := slider_float io "c" state.rossler_args.c 1.0 20.0
    let state := { state with rossler_args := { a := s0.1, b := s1.1, c := s2.1 } }
    let args_changed := (((false || s0.2) || s1.2) || s2.2)
    let state :=
      if args_changed then { state with system := make_rossler_system state.rossler_args }
      else state
    (state, args_changed)
  | system_type.thomas =>
    let s0 := slider_float io "b" state.thomas_args.b 0.01 1.0
    let state := { state with thomas_args := { b := s0.1 } }
    let args_changed := (false || s0.2)
    let state :=
      if args_changed then { state with system := make_thomas_system sin state.thomas_args }
      else state
    (state, args_changed)
  | system_type.aizawa =>
    let s0 := slider_float io "a" state.aizawa_args.a 0.0 2.0
    let s1 := slider_float io "b" state.aizawa_args.b 0.0 2.0
    let s2 := slider_float io "c" state.aizawa_args.c 0.0 2.0
    let s3 := slider_float io "d" state.aizawa_args.d 0.0 5.0
    let s4 := slider_float io "e" state.aizawa_args.e 0.0 1.0
    let s5 := slider_float io "f" state.aizawa_args.f 0.0 1.0
    let state := { state with aizawa_args := { a := s0.1, b := s1.1, c := s2.1, d := s3.1, e := s4.1, f := s5.1 } }
    let args_changed := ((((((false || s0.2) || s1.2) || s2.2) || s3.2) || s4.2) || s5.2)
    let state :=
      if args_changed then { state with system := make_aizawa_system state.aizawa_args }
      else state
    (state, args_changed)
  | system_type.dadras =>
    let s0 := slider_float io "a" state.dadras_args.a 0.0 5.0
    let s1 := slider_float io "b" state.dadras_args.b 0.0 5.0
    let s2 := slider_float io "c" state.dadras_args.c 0.0 5.0
    let s3 := slider_float io "d" state.dadras_args.d 0.0 5.0
    let s4 := slider_float io "e" state.dadras_args.e 0.0 15.0
    let state := { state with dadras_args := { a := s0.1, b := s1.1, c := s2.1, d := s3.1, e := s4.1 } }
    let args_changed := (((((false || s0.2) || s1.2) || s2.2) || s3.2) || s4.2)
    let state :=
      if args_changed then { state with system := make_dadras_system state.dadras_args }
      else state
    (state, args_changed)
  | system_type.chen =>
    let s0 := slider_float io "alpha" state.chen_args.alpha (-20.0) 20.0
    let s1 := slider_float io "beta" state.chen_args.beta (-20.0) 0.0
    let s2 := slider_float io "delta" state.chen_args.delta (-5.0) 5.0
    let state := { state with chen_args := { alpha := s0.1, beta := s1.1, delta := s2.1 } }
    let args_changed := (((false || s0.2) || s1.2) || s2.2)
    let state :=
      if args_changed then { state with system := make_chen_system state.chen_args }
      else state
    (state, args_changed)
  | system_type.lorenz83 =>
    let s0 := slider_float io "a" state.lorenz83_args.a 0.0 5.0
    let s1 := slider_float io "b" state.lorenz83_args.b 0.0 15.0
    let s2 := slider_float io "f" state.lorenz83_args.f 0.0 10.0
    let s3 := slider_float io "g" state.lorenz83_args.g 0.0 10.0
    let state := { state with lorenz83_args := { a := s0.1, b := s1.1, f := s2.1, g := s3.1 } }
    let args_changed := ((((false || s0.2) || s1.2) || s2.2) || s3.2)
    let state :=
      if args_changed then { state with system := make_lorenz83_system state.lorenz83_args }
      else state
    (state, args_changed)
  | system_type.halvorsen =>
    let s0 := slider_float io "a" state.halvorsen_args.a 0.0 5.0
    let state := { state with halvorsen_args := { a := s0.1 } }
    let args_changed := (false || s0.2)
    let state :=
      if args_changed then { state with system := make_halvorsen_system state.halvorsen_args }
      else state
    (state, args_changed)
  | system_type.rabinovich =>
    let s0 := slider_float io "alpha" state.rabinovich_args.alpha 0.0 1.0
    let s1 := slider_float io "gamma" state.rabinovich_args.gamma 0.0 1.0
    let state := { state with rabinovich_args := { alpha := s0.1, gamma := s1.1 } }
    let args_changed := ((false || s0.2) || s1.2)
    let state :=
      if args_changed then { state with system := make_rabinovich_system state.rabinovich_args }
      else state
    (state, args_changed)
  | system_type.three_scroll =>
    let s0 := slider_float io "a" state.three_scroll_args.a 0.0 60.0
    let s1 := slider_float io "b" state.three_scroll_args.b 0.0 60.0
    let s2 := slider_float io "c" state.three_scroll_args.c 0.0 5.0
    let s3 := slider_float io "d" state.three_scroll_args.d 0.0 2.0
    let s4 := slider_float io "e" state.three_scroll_args.e 0.0 5.0
    let s5 := slider_float io "f" state.three_scroll_args.f 0.0 30.0
    let state := { state with three_scroll_args := { a := s0.1, b := s1.1, c := s2.1, d := s3.1, e := s4.1, f := s5.1 } }
    let args_changed := ((((((false || s0.2) || s1.2) || s2.2) || s3.2) || s4.2) || s5.2)
    let state :=
      if args_changed then { state with system := make_three_scroll_system state.three_scroll_args }
      else state
    (state, args_changed)
  | system_type.sprott =>
    let s0 := slider_float io "a" state.sprott_args.a 0.0 5.0
    let s1 := slider_float io "b" state.sprott_args.b 0.0 5.0
    let state := { state with sprott_args := { a := s0.1, b := s1.1 } }
    let args_changed := ((false || s0.2) || s1.2)
    let state :=
      if args_changed then { state with system := make_sprott_system state.sprott_args }
      else state
    (state, args_changed)
  | system_type.four_wing =>
    let s0 := slider_float io "a" state.four_wing_args.a (-1.0) 1.0
    let s1 := slider_float io "b" state.four_wing_args.b (-0.5) 0.5
    let s2 := slider_float io "c" state.four_wing_args.c (-1.0) 0.5
    let state := { state with four_wing_args := { a := s0.1, b := s1.1, c := s2.1 } }
    let args_changed := (((false || s0.2) || s1.2) || s2.2)
    let state :=
      if args_changed then { state with system := make_four_wing_system state.four_wing_args }
      else state
    (state, args_changed)

/-- The parameter part of `draw_ui`: the `switch` over the current system, then
`if (args_changed) { state.integrator = IntegratorRK4{}; state.time_accumulator = 0.0f; }`;
returns the state and `args_changed`. -/
def draw_ui_parameters (sin : F → F) (io : imgui F) (state : simulation_state F) :
    simulation_state F × Bool :=
  let r := draw_ui_switch sin io state
  let state := r.1
  let args_changed := r.2
  let state :=
    if args_changed then
      let state := { state with integrator := {} }
      { state with time_accumulator := 0.0 }
    else state
  (state, args_changed)

/-- The function `draw_ui(state, ...)` on the simulation state; the camera
widgets, the axes and the text output are omitted.  Each call of
`initialize_particle_field` seeds a new generator, so the call sites get their
own sequences of draws `rng 0`, ..., `rng 5`. -/
def draw_ui [FloorRing F] (sin : F → F) (m : cmath F) (io : imgui F) (rng : Nat → Nat → F)
    (state : simulation_state F) : simulation_state F :=
  let state :=
    match io.Combo "System" state.current_system.index with
    | some system_index =>
      let state := { state with current_system := system_type_of_index system_index }
      (reset_simulation sin m (rng 0) state).1
    | none => state
  let state := (draw_ui_parameters sin io state).1
  let state :=
    if io.Button "Reset Args / Initial State" then (reset_simulation sin m (rng 1) state).1
    else state
  let state :=
    match io.Checkbox "Paused" state.paused with
    | some b => { state with paused := b }
    | none => state
  let state :=
    match io.SliderFloat "dt (sim step)" state.base_dt 0.0001 0.2 with
    | some base_dt => draw_ui_dt_slider state base_dt
    | none => state
  let state :=
    match io.SliderInt "Particle Count" (int_of_size_t state.particle_count) 1000 500000 with
    | some particle_count =>
      initialize_particle_field m (rng 2)
        { state with particle_count := size_t_of_int particle_count }
    | none => state
  let state :=
    match io.Checkbox "Spawn From Origin" state.particle_spawn_from_origin with
    | some b =>
      initialize_particle_field m (rng 3) { state with particle_spawn_from_origin := b }
    | none => state
  let state :=
    if state.particle_spawn_from_origin then
      match io.SliderFloat "Origin Jitter" state.particle_origin_jitter 0.0001 0.5 with
      | some v =>
        initialize_particle_field m (rng 4)
          { state with particle_origin_jitter := glm_clamp v 1e-5 1.0 }
      | none => state
    else
      match io.SliderFloat "Spawn Radius" state.particle_spawn_radius 0.1 10.0 with
      | some v => initialize_particle_field m (rng 4) { state with particle_spawn_radius := v }
      | none => state
  let state :=
    if io.Button "Reseed Particles" then initialize_particle_field m (rng 5) state else state
  state

/-- The states of a run of the program: `main` calls `reset_simulation` once, and
then every frame calls `step_simulation` and `draw_ui`, with any frame time,
any widget reports and any random draws. -/
inductive reachable [FloorRing F] (sin : F → F) (m : cmath F) : simulation_state F → Prop
  | reset (draws : Nat → F) (state : simulation_state F) :
    reachable sin m (reset_simulation sin m draws state).1
  | step (hardware_concurrency : Nat) (frame_dt : F) (state : simulation_state F) :
    reachable sin m state →
    reachable sin m (step_simulation sin hardware_concurrency state frame_dt).1
  | ui (io : imgui F) (rng : Nat → Nat → F) (state : simulation_state F) :
    reachable sin m state → reachable sin m (draw_ui sin m io rng state)

end Widgets

/-! ## The RK4 formula of the specification -/

section Formula

variable {F : Type} [LinearOrderedField F]

/-- Componentwise sum of two state vectors. -/
def vec_add (a b : List F) : List F := List.zipWith (fun x y => x + y) a b

/-- A state vector scaled by `c`. -/
def vec_scale (c : F) (a : List F) : List F := a.map (fun x => c * x)

/-- The classical Runge-Kutta step as the specification writes it, for a
derivative `f(state, t)`:
`k1 = f(state, t)`, `k2 = f(state + dt/2 * k1, t + dt/2)`,
`k3 = f(state + dt/2 * k2, t + dt/2)`, `k4 = f(state + dt * k3, t + dt)`,
result `state + dt/6 * (k1 + 2 k2 + 2 k3 + k4)`. -/
def rk4_formula (f : List F → F → List F) (state : List F) (t dt : F) : List F :=
  let k1 := f state t
  let k2 := f (vec_add state (vec_scale (dt / 2) k1)) (t + dt / 2)
  let k3 := f (vec_add state (vec_scale (dt / 2) k2)) (t + dt / 2)
  let k4 := f (vec_add state (vec_scale dt k3)) (t + dt)
  vec_add state
    (vec_scale (dt / 6) (vec_add (vec_add (vec_add k1 (vec_scale 2 k2)) (vec_scale 2 k3)) k4))

end Formula

/-! ## The linear test system -/

section TestSystem

variable {F : Type} [LinearOrderedField F]

/-- The one-dimensional linear system `dx/dt = -x` named by the specification as
the test system of the integrator, bound the way the factories of
`ODESystems.hpp` bind theirs: resize the output to the dimension, then store
the derivative. -/
def decay_system : ODESystem F where
  dim := 1
  deriv := fun state derivative _ => (resize_deriv derivative 1).set 0 (-(state.getD 0 0))

/-- One round of stepping a reference trajectory as `step_simulation` does it:
`integrator.step(system, state, t, dt); t += dt`, on the triple of integrator,
state and time. -/
def reference_step (sys : ODESystem F) (dt : F) (p : IntegratorRK4 F × List F × F) :
    IntegratorRK4 F × List F × F :=
  ((p.1.step sys p.2.1 p.2.2 dt).1, (p.1.step sys p.2.1 p.2.2 dt).2, p.2.2 + dt)

end TestSystem

/-! ## Concrete inputs -/

section Examples

/-- A concrete running state over `ℚ`: the Lorenz system with its default
parameters, the reference state `(1, 1, 1)` and one particle. -/
def lorenz_example : simulation_state ℚ :=
  { system := make_lorenz_system {}, state := [1, 1, 1],
    particle_positions := [⟨1, 1, 1⟩], particle_phases := [0], particle_count := 1 }

/-- The state `lorenz_example` with the pause flag set. -/
def lorenz_example_paused : simulation_state ℚ :=
  { lorenz_example with paused := true }

/-- The state `lorenz_example` with the step size `0.0001`. -/
def lorenz_example_fine : simulation_state ℚ :=
  { lorenz_example with base_dt := 0.0001 }

end Examples

/-! # Theorems -/

/-! ## The clock of `step_simulation` -/

section ClockLemmas

variable {F : Type} [LinearOrderedField F]

theorem advance_particles_clock (sin : F → F) (hw : Nat) (s : simulation_state F) (dt : F) :
    (advance_particles sin hw s dt).time_accumulator = s.time_accumulator ∧
    (advance_particles sin hw s dt).t = s.t ∧
    (advance_particles sin hw s dt).base_dt = s.base_dt ∧
    (advance_particles sin hw s dt).paused = s.paused := by
  unfold advance_particles
  simp only []
  split_ifs <;> exact ⟨rfl, rfl, rfl, rfl⟩

theorem step_simulation_body_time_accumulator (sin : F → F) (hw : Nat) (h : F)
    (s : simulation_state F) :
    (step_simulation_body sin hw h s).time_accumulator = s.time_accumulator - h := by
  unfold step_simulation_body
  simp only [(advance_particles_clock sin hw _ h).1]

theorem step_simulation_loop_zero (sin : F → F) (hw : Nat) (h : F) (s : simulation_state F)
    (it : Nat) : step_simulation_loop sin hw h 0 s it = (s, it) := rfl

theorem step_simulation_loop_succ (sin : F → F) (hw : Nat) (h : F) (fuel : Nat)
    (s : simulation_state F) (it : Nat) :
    step_simulation_loop sin hw h (fuel + 1) s it =
      if h ≤ s.time_accumulator ∧ it < max_iterations then
        step_simulation_loop sin hw h fuel (step_simulation_body sin hw h s) (it + 1)
      else (s, it) := rfl

/-- What the loop does to the clock: it runs `k` times, for some `k` within the fuel, each time
with the guard true, subtracting `h` each time, and stops because the fuel is used up or the
guard is false. The state is the `k`-fold iterate of the body. -/
theorem step_simulation_loop_spec (sin : F → F) (hw : Nat) (h : F) (fuel : Nat) :
    ∀ (s : simulation_state F) (it : Nat),
      ∃ k : Nat, k ≤ fuel ∧
        (step_simulation_loop sin hw h fuel s it).2 = it + k ∧
        (step_simulation_loop sin hw h fuel s it).1 = (step_simulation_body sin hw h)^[k] s ∧
        (step_simulation_loop sin hw h fuel s it).1.time_accumulator
          = s.time_accumulator - k * h ∧
        (∀ j : Nat, j < k → h ≤ s.time_accumulator - j * h ∧ it + j < max_iterations) ∧
        (k = fuel ∨ ¬ (h ≤ s.time_accumulator - k * h ∧ it + k < max_iterations)) := by
  induction fuel with
  | zero =>
    intro s it
    exact ⟨0, le_refl _, rfl, rfl, by simp [step_simulation_loop_zero], by simp, Or.inl rfl⟩
  | succ fuel ih =>
    intro s it
    rw [step_simulation_loop_succ]
    by_cases hg : h ≤ s.time_accumulator ∧ it < max_iterations
    · rw [if_pos hg]
      obtain ⟨k, hk, h2, hs, hacc, hall, hstop⟩ :=
        ih (step_simulation_body sin hw h s) (it + 1)
      rw [step_simulation_body_time_accumulator] at hacc hall hstop
      refine ⟨k + 1, by omega, by omega, ?_, ?_, ?_, ?_⟩
      · rw [hs, Function.iterate_succ_apply]
      · rw [hacc]; push_cast; ring
      · intro j hj
        cases j with
        | zero => simpa using hg
        | succ j =>
          have := hall j (by omega)
          refine ⟨?_, by omega⟩
          have h1 := this.1
          push_cast
          linarith
      · rcases hstop with hstop | hstop
        · exact Or.inl (by omega)
        · refine Or.inr (fun hc => hstop ⟨?_, by omega⟩)
          have h1 := hc.1
          push_cast at h1
          linarith
    · rw [if_neg hg]
      exact ⟨0, by omega, rfl, rfl, by simp, by simp, Or.inr (by simpa using hg)⟩

end ClockLemmas

section ClockLemmas2

variable {F : Type} [LinearOrderedField F]

theorem glm_max_eq (x y : F) : glm_max x y = max x y := by
  unfold glm_max
  split_ifs with h
  · exact (max_eq_right h.le).symm
  · exact (max_eq_left (not_lt.mp h)).symm

theorem glm_min_eq (x y : F) : glm_min x y = min x y := by
  unfold glm_min
  split_ifs with h
  · exact (min_eq_right h.le).symm
  · exact (min_eq_left (not_lt.mp h)).symm

theorem glm_clamp_eq (x lo hi : F) : glm_clamp x lo hi = min (max x lo) hi := by
  unfold glm_clamp
  rw [glm_min_eq, glm_max_eq]

theorem glm_clamp_bounds (x : F) {lo hi : F} (h : lo ≤ hi) :
    lo ≤ glm_clamp x lo hi ∧ glm_clamp x lo hi ≤ hi := by
  rw [glm_clamp_eq]
  exact ⟨le_min (le_max_right _ _) h, min_le_right _ _⟩

theorem glm_clamp_of_mem {x lo hi : F} (h1 : lo ≤ x) (h2 : x ≤ hi) : glm_clamp x lo hi = x := by
  rw [glm_clamp_eq, max_eq_left h1, min_eq_left h2]

theorem step_dt_bounds (s : simulation_state F) : 1e-6 ≤ step_dt s ∧ step_dt s ≤ 0.2 :=
  glm_clamp_bounds _ (by norm_num)

theorem step_dt_pos (s : simulation_state F) : 0 < step_dt s :=
  lt_of_lt_of_le (by norm_num) (step_dt_bounds s).1

theorem step_simulation_loop_fuel (sin : F → F) (hw : Nat) (h : F) (extra fuel : Nat) :
    ∀ (s : simulation_state F) (it : Nat), max_iterations ≤ it + fuel →
      step_simulation_loop sin hw h (fuel + extra) s it = step_simulation_loop sin hw h fuel s it := by
  induction fuel with
  | zero =>
    intro s it hit
    cases extra with
    | zero => rfl
    | succ e =>
      rw [Nat.zero_add, step_simulation_loop_succ, step_simulation_loop_zero, if_neg]
      intro hc
      omega
  | succ fuel ih =>
    intro s it hit
    rw [Nat.add_right_comm, step_simulation_loop_succ, step_simulation_loop_succ]
    split_ifs with hg
    · exact ih _ _ (by omega)
    · rfl

/-- The non-paused path of `step_simulation` in one piece. -/
theorem step_simulation_running (sin : F → F) (hw : Nat) (s : simulation_state F) (frame_dt : F)
    (hp : s.paused = false) :
    step_simulation sin hw s frame_dt =
      if (step_simulation_loop sin hw (step_dt s) max_iterations
            { s with time_accumulator := min (s.time_accumulator + frame_dt) 2 } 0).2
          = max_iterations then
        ({ (step_simulation_loop sin hw (step_dt s) max_iterations
            { s with time_accumulator := min (s.time_accumulator + frame_dt) 2 } 0).1 with
            time_accumulator := 0 },
          (step_simulation_loop sin hw (step_dt s) max_iterations
            { s with time_accumulator := min (s.time_accumulator + frame_dt) 2 } 0).2)
      else
        step_simulation_loop sin hw (step_dt s) max_iterations
            { s with time_accumulator := min (s.time_accumulator + frame_dt) 2 } 0 := by
  have h2 : (max_accumulator : F) = 2 := by unfold max_accumulator; norm_num
  have h0 : (0.0 : F) = 0 := by norm_num
  unfold step_simulation
  simp only [hp, Bool.false_eq_true, if_false, h2, h0]
  by_cases hc : (2 : F) < s.time_accumulator + frame_dt
  · simp only [if_pos hc, min_eq_right hc.le]
    rfl
  · simp only [if_neg hc, min_eq_left (not_lt.mp hc)]
    rfl

/-- The clock of a non-paused call: with `A` the clamped accumulator and `h` the step, the
count `n` is at most 4096, every performed step had `(j + 1) * h ≤ A`, a call that stops
under the cap stops with `A < (n + 1) * h` and keeps `A - n * h`, and a call that reaches the
cap zeroes the accumulator. The other fields are those of the `n`-fold iterate of the body. -/
theorem step_simulation_clock (sin : F → F) (hw : Nat) (s : simulation_state F) (frame_dt : F)
    (hp : s.paused = false) :
    (step_simulation sin hw s frame_dt).2 ≤ max_iterations ∧
    (∀ j : Nat, j < (step_simulation sin hw s frame_dt).2 →
      ((j : F) + 1) * step_dt s ≤ min (s.time_accumulator + frame_dt) 2) ∧
    ((step_simulation sin hw s frame_dt).2 < max_iterations →
      min (s.time_accumulator + frame_dt) 2
        < (((step_simulation sin hw s frame_dt).2 : F) + 1) * step_dt s ∧
      (step_simulation sin hw s frame_dt).1.time_accumulator
        = min (s.time_accumulator + frame_dt) 2
          - ((step_simulation sin hw s frame_dt).2 : F) * step_dt s) ∧
    ((step_simulation sin hw s frame_dt).2 = max_iterations →
      (step_simulation sin hw s frame_dt).1.time_accumulator = 0) ∧
    (step_simulation sin hw s frame_dt).1 =
      { (step_simulation_body sin hw (step_dt s))^[(step_simulation sin hw s frame_dt).2]
          { s with time_accumulator := min (s.time_accumulator + frame_dt) 2 } with
        time_accumulator := (step_simulation sin hw s frame_dt).1.time_accumulator } := by
  rw [step_simulation_running sin hw s frame_dt hp]
  obtain ⟨k, hk, h2, hs, hacc, hall, hstop⟩ :=
    step_simulation_loop_spec sin hw (step_dt s) max_iterations
      { s with time_accumulator := min (s.time_accumulator + frame_dt) 2 } 0
  generalize hA : min (s.time_accumulator + frame_dt) 2 = A at *
  generalize hsA : ({ s with time_accumulator := A } : simulation_state F) = sA at *
  have hAacc : sA.time_accumulator = A := by rw [← hsA]
  rw [hAacc] at hacc hall hstop
  generalize step_simulation_loop sin hw (step_dt s) max_iterations sA 0 = L at *
  obtain ⟨L1, L2⟩ := L
  simp only [Nat.zero_add] at h2 hs hacc hall hstop
  subst h2
  by_cases hcap : L2 = max_iterations
  · rw [if_pos hcap]
    refine ⟨hk, ?_, fun hlt => absurd hcap (Nat.ne_of_lt hlt), fun _ => rfl, ?_⟩
    · intro j hj
      have := (hall j hj).1
      linarith
    · rw [hs]
  · rw [if_neg hcap]
    refine ⟨hk, ?_, fun _ => ⟨?_, hacc⟩, fun hc => absurd hc hcap, ?_⟩
    · intro j hj
      have := (hall j hj).1
      linarith
    · rcases hstop with hstop | hstop
      · exact absurd hstop hcap
      · have hlt : L2 < max_iterations := lt_of_le_of_ne hk hcap
        have h3 : ¬ step_dt s ≤ A - L2 * step_dt s := fun hc => hstop ⟨hc, hlt⟩
        have h4 := not_le.mp h3
        linarith
    · show L1 = _
      rw [← hs]

end ClockLemmas2

section ClockClaims

variable {F : Type} [LinearOrderedField F]

theorem step_simulation_count_of_cap (sin : F → F) (hw : Nat) (s : simulation_state F)
    (frame_dt : F) (hp : s.paused = false)
    (hA : (max_iterations : F) * step_dt s ≤ min (s.time_accumulator + frame_dt) 2) :
    (step_simulation sin hw s frame_dt).2 = max_iterations := by
  obtain ⟨hle, -, hlt, -, -⟩ := step_simulation_clock sin hw s frame_dt hp
  by_contra hne
  have hn : (step_simulation sin hw s frame_dt).2 < max_iterations := lt_of_le_of_ne hle hne
  have h1 := (hlt hn).1
  have h2 : (((step_simulation sin hw s frame_dt).2 : F) + 1) ≤ (max_iterations : F) := by
    exact_mod_cast hn
  have h3 := mul_le_mul_of_nonneg_right h2 (step_dt_pos s).le
  linarith

theorem step_simulation_of_paused (sin : F → F) (hw : Nat) (s : simulation_state F)
    (frame_dt : F) (h : s.paused = true) : step_simulation sin hw s frame_dt = (s, 0) := by
  unfold step_simulation
  rw [if_pos h]

/-- C1. While `paused` is set, `step_simulation` returns at once: it performs no
integration step and gives back the state it was given, so the accumulator,
the time, the reference state, the particle positions and the particle phases
are unchanged, whatever `frame_dt` is. -/
theorem step_simulation_paused (sin : F → F) (hardware_concurrency : Nat)
    (state : simulation_state F) (frame_dt : F) (h : state.paused = true) :
    (step_simulation sin hardware_concurrency state frame_dt).2 = 0 ∧
    (step_simulation sin hardware_concurrency state frame_dt).1 = state ∧
    (step_simulation sin hardware_concurrency state frame_dt).1.time_accumulator
      = state.time_accumulator ∧
    (step_simulation sin hardware_concurrency state frame_dt).1.t = state.t ∧
    (step_simulation sin hardware_concurrency state frame_dt).1.state = state.state ∧
    (step_simulation sin hardware_concurrency state frame_dt).1.particle_positions
      = state.particle_positions ∧
    (step_simulation sin hardware_concurrency state frame_dt).1.particle_phases
      = state.particle_phases := by
  rw [step_simulation_of_paused sin hardware_concurrency state frame_dt h]
  exact ⟨rfl, rfl, rfl, rfl, rfl, rfl, rfl⟩

/-- Witness of C1 at the paused Lorenz example with `frame_dt = 5`. -/
theorem step_simulation_paused_witness :
    lorenz_example_paused.paused = true ∧
    (step_simulation (fun _ => 0) 4 lorenz_example_paused 5).2 = 0 ∧
    (step_simulation (fun _ => 0) 4 lorenz_example_paused 5).1.time_accumulator
      = lorenz_example_paused.time_accumulator :=
  ⟨rfl, (step_simulation_paused (fun _ => 0) 4 lorenz_example_paused 5 rfl).1,
    (step_simulation_paused (fun _ => 0) 4 lorenz_example_paused 5 rfl).2.2.1⟩

/-- C2. In a non-paused call with `h = clamp(base_dt, 1e-6, 0.2)` and
`A = min(time_accumulator + frame_dt, 2.0)`, `A ≥ 0`, the number of integration
steps is `min(⌊A / h⌋, 4096)`; when it is below 4096 the new accumulator is
`A - n * h`; and from a zero accumulator `frame_dt = 3 * h` gives 3 steps. -/
theorem step_simulation_step_count [FloorSemiring F] (sin : F → F) (hardware_concurrency : Nat)
    (state : simulation_state F) (frame_dt : F) (hp : state.paused = false)
    (hA : 0 ≤ min (state.time_accumulator + frame_dt) 2) :
    (step_simulation sin hardware_concurrency state frame_dt).2
      = min ⌊min (state.time_accumulator + frame_dt) 2 / glm_clamp state.base_dt 1e-6 0.2⌋₊ 4096 ∧
    ((step_simulation sin hardware_concurrency state frame_dt).2 < 4096 →
      (step_simulation sin hardware_concurrency state frame_dt).1.time_accumulator
        = min (state.time_accumulator + frame_dt) 2
          - ((step_simulation sin hardware_concurrency state frame_dt).2 : F)
            * glm_clamp state.base_dt 1e-6 0.2) ∧
    (state.time_accumulator = 0 → frame_dt = 3 * glm_clamp state.base_dt 1e-6 0.2 →
      (step_simulation sin hardware_concurrency state frame_dt).2 = 3) := by
  obtain ⟨hle, hall, hlt, -, -⟩ := step_simulation_clock sin hardware_concurrency state frame_dt hp
  have hpos := step_dt_pos state
  have hhi := (step_dt_bounds state).2
  change (0 : F) < glm_clamp state.base_dt 1e-6 0.2 at hpos
  change glm_clamp state.base_dt 1e-6 0.2 ≤ 0.2 at hhi
  change ∀ j : Nat, j < _ → ((j : F) + 1) * glm_clamp state.base_dt 1e-6 0.2 ≤ _ at hall
  change _ < max_iterations → _ < (_ + 1) * glm_clamp state.base_dt 1e-6 0.2 ∧
    _ = _ - _ * glm_clamp state.base_dt 1e-6 0.2 at hlt
  generalize glm_clamp state.base_dt 1e-6 0.2 = h at *
  generalize hAdef : min (state.time_accumulator + frame_dt) 2 = A at *
  generalize hn : (step_simulation sin hardware_concurrency state frame_dt).2 = n at *
  have hmax : max_iterations = 4096 := rfl
  have hcount : n = min ⌊A / h⌋₊ 4096 := by
    by_cases hc : n < 4096
    · have hfl : ⌊A / h⌋₊ = n := by
        rw [Nat.floor_eq_iff (div_nonneg hA hpos.le), le_div_iff₀ hpos, div_lt_iff₀ hpos]
        refine ⟨?_, (hlt (by omega)).1⟩
        cases n with
        | zero => simpa using hA
        | succ m =>
          have := hall m (by omega)
          push_cast
          linarith
      rw [hfl]
      omega
    · have h4096 : n = 4096 := by omega
      have h1 := hall 4095 (by omega)
      have h2 : 4096 ≤ ⌊A / h⌋₊ := by
        apply Nat.le_floor
        rw [le_div_iff₀ hpos]
        push_cast
        norm_num at h1 ⊢
        linarith
      omega
  refine ⟨hcount, fun hc => (hlt (by omega)).2, ?_⟩
  intro h0 h3
  have h5 : h ≤ 1 / 5 := by norm_num at hhi; linarith
  have hA3 : A = 3 * h := by
    rw [← hAdef, h0, h3, zero_add]
    exact min_eq_left (by linarith)
  have hq : A / h = ((3 : Nat) : F) := by
    rw [hA3, mul_div_assoc, div_self hpos.ne', mul_one]
    norm_num
  rw [hcount, hq, Nat.floor_natCast]
  rfl

/-- Witness of C2 at the Lorenz example (`base_dt = 0.01`) with `frame_dt = 0.035`. -/
theorem step_simulation_step_count_witness :
    lorenz_example.paused = false ∧
    0 ≤ min (lorenz_example.time_accumulator + 7 / 200) 2 ∧
    (step_simulation (fun _ => 0) 4 lorenz_example (7 / 200)).2
      = min ⌊min (lorenz_example.time_accumulator + 7 / 200) 2
          / glm_clamp lorenz_example.base_dt 1e-6 0.2⌋₊ 4096 :=
  ⟨rfl, by norm_num [lorenz_example],
    (step_simulation_step_count (fun _ => 0) 4 lorenz_example (7 / 200) rfl
      (by norm_num [lorenz_example])).1⟩

end ClockClaims

section ClockClaims2

variable {F : Type} [LinearOrderedField F]

theorem fields_of_zeroed_accumulator (Y X : simulation_state F)
    (hs : Y = { X with time_accumulator := 0 }) :
    Y.state = X.state ∧ Y.t = X.t ∧ Y.particle_positions = X.particle_positions := by
  subst hs
  exact ⟨rfl, rfl, rfl⟩

/-- C4. A non-paused call that performs `max_iterations = 4096` steps ends with
`time_accumulator` exactly 0, whatever backlog was left; the call returns
normally, and every other field, in particular the reference state, `t` and the
particle positions, is that of the 4096-fold iterate of the loop body run with
`step_dt = clamp(base_dt, 1e-6, 0.2)`. -/
theorem step_simulation_cap_drops_backlog (sin : F → F) (hardware_concurrency : Nat)
    (state : simulation_state F) (frame_dt : F) (hp : state.paused = false)
    (hcap : (step_simulation sin hardware_concurrency state frame_dt).2 = max_iterations) :
    (step_simulation sin hardware_concurrency state frame_dt).1.time_accumulator = 0 ∧
    (step_simulation sin hardware_concurrency state frame_dt).1 =
      { (step_simulation_body sin hardware_concurrency (step_dt state))^[max_iterations]
          { state with time_accumulator := min (state.time_accumulator + frame_dt) 2 } with
        time_accumulator := 0 } ∧
    (step_simulation sin hardware_concurrency state frame_dt).1.state =
      ((step_simulation_body sin hardware_concurrency (step_dt state))^[max_iterations]
          { state with time_accumulator := min (state.time_accumulator + frame_dt) 2 }).state ∧
    (step_simulation sin hardware_concurrency state frame_dt).1.t =
      ((step_simulation_body sin hardware_concurrency (step_dt state))^[max_iterations]
          { state with time_accumulator := min (state.time_accumulator + frame_dt) 2 }).t ∧
    (step_simulation sin hardware_concurrency state frame_dt).1.particle_positions =
      ((step_simulation_body sin hardware_concurrency (step_dt state))^[max_iterations]
          { state with time_accumulator := min (state.time_accumulator + frame_dt) 2
          }).particle_positions := by
  obtain ⟨-, -, -, h0, hs⟩ := step_simulation_clock sin hardware_concurrency state frame_dt hp
  have hz := h0 hcap
  rw [hcap, hz] at hs
  exact ⟨hz, hs, fields_of_zeroed_accumulator _ _ hs⟩

/-- Witness of C4: the Lorenz example with `base_dt = 0.0001` and `frame_dt = 1`
reaches the cap, since `4096 * 0.0001 ≤ 1`. -/
theorem step_simulation_cap_drops_backlog_witness :
    lorenz_example_fine.paused = false ∧
    (step_simulation (fun _ => 0) 4 lorenz_example_fine 1).2 = max_iterations ∧
    (step_simulation (fun _ => 0) 4 lorenz_example_fine 1).1.time_accumulator = 0 :=
  have hcap : (step_simulation (fun _ => 0) 4 lorenz_example_fine 1).2 = max_iterations :=
    step_simulation_count_of_cap (fun _ => 0) 4 lorenz_example_fine 1 rfl
      (by norm_num [lorenz_example_fine, lorenz_example, step_dt, glm_clamp, glm_min, glm_max,
        max_iterations])
  ⟨rfl, hcap,
    (step_simulation_cap_drops_backlog (fun _ => 0) 4 lorenz_example_fine 1 rfl hcap).1⟩

/-- C5. After every non-paused call the accumulator is strictly below
`step_dt = clamp(base_dt, 1e-6, 0.2)`; if moreover the accumulator and `frame_dt`
were non-negative before the call, the accumulator is non-negative after it, so
`[0, step_dt)` is kept from frame to frame. -/
theorem step_simulation_accumulator_range (sin : F → F) (hardware_concurrency : Nat)
    (state : simulation_state F) (frame_dt : F) (hp : state.paused = false) :
    (step_simulation sin hardware_concurrency state frame_dt).1.time_accumulator
      < glm_clamp state.base_dt 1e-6 0.2 ∧
    (0 ≤ state.time_accumulator → 0 ≤ frame_dt →
      0 ≤ (step_simulation sin hardware_concurrency state frame_dt).1.time_accumulator) := by
  obtain ⟨hle, hall, hlt, h0, -⟩ := step_simulation_clock sin hardware_concurrency state frame_dt hp
  have hpos := step_dt_pos state
  change (0 : F) < glm_clamp state.base_dt 1e-6 0.2 at hpos
  change ∀ j : Nat, j < _ → ((j : F) + 1) * glm_clamp state.base_dt 1e-6 0.2 ≤ _ at hall
  change _ < max_iterations → _ < (_ + 1) * glm_clamp state.base_dt 1e-6 0.2 ∧
    _ = _ - _ * glm_clamp state.base_dt 1e-6 0.2 at hlt
  generalize glm_clamp state.base_dt 1e-6 0.2 = h at *
  generalize hn : (step_simulation sin hardware_concurrency state frame_dt).2 = n at *
  by_cases hc : n = max_iterations
  · rw [h0 hc]
    exact ⟨hpos, fun _ _ => le_refl _⟩
  · obtain ⟨h1, h2⟩ := hlt (lt_of_le_of_ne hle hc)
    rw [h2]
    refine ⟨by linarith, fun ha hf => ?_⟩
    cases n with
    | zero =>
      simp only [Nat.cast_zero, zero_mul, sub_zero]
      exact le_min (add_nonneg ha hf) (by norm_num)
    | succ m =>
      have := hall m (by omega)
      push_cast
      linarith

/-- Witness of C5 at the Lorenz example with `frame_dt = 0.035`. -/
theorem step_simulation_accumulator_range_witness :
    lorenz_example.paused = false ∧
    (step_simulation (fun _ => 0) 4 lorenz_example (7 / 200)).1.time_accumulator
      < glm_clamp lorenz_example.base_dt 1e-6 0.2 :=
  ⟨rfl, (step_simulation_accumulator_range (fun _ => 0) 4 lorenz_example (7 / 200) rfl).1⟩

end ClockClaims2

/-! ## The step size -/

section StepSize

variable {F : Type} [LinearOrderedField F]

theorem advance_particles_state (sin : F → F) (hw : Nat) (s : simulation_state F) (dt : F) :
    (advance_particles sin hw s dt).state = s.state ∧
    (advance_particles sin hw s dt).integrator = s.integrator ∧
    (advance_particles sin hw s dt).system = s.system := by
  unfold advance_particles
  simp only []
  split_ifs <;> exact ⟨rfl, rfl, rfl⟩

/-- C6. The step-size handler stores `clamp(dt, 1e-6, 0.2)` in `base_dt` and zeroes
the accumulator; the `step_dt` that `step_simulation` computes lies in
`[1e-6, 0.2]` for every `base_dt`, it is the `dt` handed to `IntegratorRK4::step`
in every round of the loop, and it equals `base_dt` when `base_dt` was stored by
the handler. -/
theorem step_size_clamped (state : simulation_state F) (dt : F) :
    (draw_ui_dt_slider state dt).base_dt = min (max dt 1e-6) 0.2 ∧
    1e-6 ≤ (draw_ui_dt_slider state dt).base_dt ∧
    (draw_ui_dt_slider state dt).base_dt ≤ 0.2 ∧
    (draw_ui_dt_slider state dt).time_accumulator = 0 ∧
    step_dt (draw_ui_dt_slider state dt) = (draw_ui_dt_slider state dt).base_dt ∧
    (∀ s : simulation_state F,
      step_dt s = min (max s.base_dt 1e-6) 0.2 ∧ 1e-6 ≤ step_dt s ∧ step_dt s ≤ 0.2) ∧
    (∀ (sin : F → F) (hardware_concurrency : Nat) (s : simulation_state F) (frame_dt : F),
      ∃ (n : Nat) (a0 a1 : F),
        (step_simulation sin hardware_concurrency s frame_dt).2 = n ∧
        (step_simulation sin hardware_concurrency s frame_dt).1 =
          { (step_simulation_body sin hardware_concurrency (step_dt s))^[n]
              { s with time_accumulator := a0 } with time_accumulator := a1 }) ∧
    (∀ (sin : F → F) (hardware_concurrency : Nat) (h : F) (s : simulation_state F),
      (step_simulation_body sin hardware_concurrency h s).state
        = (s.integrator.step s.system s.state s.t h).2) := by
  have hb : (draw_ui_dt_slider state dt).base_dt = glm_clamp dt 1e-6 0.2 := rfl
  have hr := glm_clamp_bounds dt (show (1e-6 : F) ≤ 0.2 by norm_num)
  refine ⟨by rw [hb, glm_clamp_eq], by rw [hb]; exact hr.1, by rw [hb]; exact hr.2, ?_, ?_,
    fun s => ⟨glm_clamp_eq _ _ _, step_dt_bounds s⟩, ?_, ?_⟩
  · show (0.0 : F) = 0
    norm_num
  · show glm_clamp (glm_clamp dt 1e-6 0.2) 1e-6 0.2 = glm_clamp dt 1e-6 0.2
    exact glm_clamp_of_mem hr.1 hr.2
  · intro sin hw s frame_dt
    rcases Bool.eq_false_or_eq_true s.paused with hp | hp
    · refine ⟨0, s.time_accumulator, s.time_accumulator, ?_, ?_⟩
      · rw [step_simulation_of_paused sin hw s frame_dt hp]
      · rw [step_simulation_of_paused sin hw s frame_dt hp]
        rfl
    · exact ⟨_, _, _, rfl, (step_simulation_clock sin hw s frame_dt hp).2.2.2.2⟩
  · intro sin hw h s
    unfold step_simulation_body
    simp only [(advance_particles_state sin hw _ h).1]

end StepSize

/-! ## List loops -/

section Loops

variable {α : Type}

theorem range_foldl_set_length (h : Nat → α → α) (d : α) (n : Nat) (v : List α) :
    ((List.range n).foldl (fun v i => v.set i (h i (v.getD i d))) v).length = v.length := by
  induction n with
  | zero => rfl
  | succ n ih =>
    rw [List.range_succ, List.foldl_append]
    simp only [List.foldl_cons, List.foldl_nil, List.length_set]
    exact ih

theorem range_foldl_set_getElem? (h : Nat → α → α) (d : α) (n : Nat) (v : List α) :
    ∀ j : Nat, ((List.range n).foldl (fun v i => v.set i (h i (v.getD i d))) v)[j]? =
      if j < n then (v[j]?).map (h j) else v[j]? := by
  induction n with
  | zero => intro j; rfl
  | succ n ih =>
    intro j
    rw [List.range_succ, List.foldl_append]
    simp only [List.foldl_cons, List.foldl_nil]
    have hlen := range_foldl_set_length h d n v
    have hn : ((List.range n).foldl (fun v i => v.set i (h i (v.getD i d))) v).getD n d
        = v.getD n d := by
      rw [List.getD_eq_getElem?_getD, List.getD_eq_getElem?_getD, ih n, if_neg (lt_irrefl n)]
    rw [hn, List.getElem?_set, ih]
    by_cases hj : n = j
    · subst hj
      rw [if_pos rfl, hlen, if_pos (Nat.lt_succ_self n)]
      by_cases hl : n < v.length
      · rw [if_pos hl, List.getElem?_eq_getElem hl, List.getD_eq_getElem _ _ hl]
        rfl
      · rw [if_neg hl, List.getElem?_eq_none (not_lt.mp hl)]
        rfl
    · rw [if_neg hj]
      by_cases hjn : j < n
      · rw [if_pos hjn, if_pos (Nat.lt_succ_of_lt hjn)]
      · rw [if_neg hjn, if_neg (by omega)]

theorem set_one (l : List α) (h : l.length = 1) (a : α) : l.set 0 a = [a] := by
  rcases l with _ | ⟨p, _ | ⟨q, l⟩⟩ <;> simp at h ⊢

theorem set_three (l : List α) (h : l.length = 3) (a b c : α) :
    ((l.set 0 a).set 1 b).set 2 c = [a, b, c] := by
  rcases l with _ | ⟨p, _ | ⟨q, _ | ⟨r, _ | ⟨s, l⟩⟩⟩⟩ <;> simp at h ⊢

end Loops

/-! ## `IntegratorRK4::step` -/

section Rk4Lemmas

variable {F : Type} [LinearOrderedField F]

theorem vec_add_length (a b : List F) (h : a.length = b.length) :
    (vec_add a b).length = a.length := by
  unfold vec_add
  rw [List.length_zipWith, h, min_self]

theorem vec_scale_length (c : F) (a : List F) : (vec_scale c a).length = a.length := by
  unfold vec_scale
  rw [List.length_map]

theorem vector_resize_length (v : List F) (n : Nat) : (vector_resize v n).length = n := by
  unfold vector_resize
  rw [List.length_append, List.length_take, List.length_replicate]
  omega

theorem stage_loop_eq (n : Nat) (state : List F) (c : F) (k tmp : List F)
    (ht : tmp.length = n) (hs : state.length = n) (hk : k.length = n) :
    stage_loop n state c k tmp = vec_add state (vec_scale c k) := by
  apply List.ext_getElem?
  intro j
  refine (range_foldl_set_getElem? (fun i _ => state.getD i 0 + c * k.getD i 0) 0 n tmp j).trans ?_
  unfold vec_add vec_scale
  by_cases hj : j < n
  · rw [if_pos hj]
    simp [List.getElem?_zipWith, List.getElem?_eq_getElem, List.getD_eq_getElem, hj, ht, hs, hk]
  · rw [if_neg hj]
    simp [List.getElem?_zipWith, List.getElem?_eq_none, not_lt.mp hj, ht, hs, hk]

end Rk4Lemmas

section Rk4Lemmas2

variable {F : Type} [LinearOrderedField F]

theorem update_loop_eq (n : Nat) (dt : F) (k1 k2 k3 k4 state : List F)
    (hs : state.length = n) (h1 : k1.length = n) (h2 : k2.length = n) (h3 : k3.length = n)
    (h4 : k4.length = n) :
    update_loop n dt k1 k2 k3 k4 state =
      vec_add state
        (vec_scale (dt / 6)
          (vec_add (vec_add (vec_add k1 (vec_scale 2 k2)) (vec_scale 2 k3)) k4)) := by
  apply List.ext_getElem?
  intro j
  refine (range_foldl_set_getElem?
    (fun i a => a + (dt / 6.0) * (k1.getD i 0 + 2.0 * k2.getD i 0 + 2.0 * k3.getD i 0
      + k4.getD i 0)) 0 n state j).trans ?_
  have e6 : (6.0 : F) = 6 := by norm_num
  have e2 : (2.0 : F) = 2 := by norm_num
  unfold vec_add vec_scale
  by_cases hj : j < n
  · rw [if_pos hj]
    simp [List.getElem?_zipWith, List.getElem?_eq_getElem, List.getD_eq_getElem, hj, hs, h1, h2,
      h3, h4, e6, e2]
  · rw [if_neg hj]
    simp [List.getElem?_zipWith, List.getElem?_eq_none, not_lt.mp hj, hs, h1, h2, h3, h4]

/-- One step of the integrator on a system whose callable computes `f` on vectors of
length `dim`, from scratch vectors of one common length. -/
theorem IntegratorRK4_step_eq (sys : ODESystem F) (f : List F → F → List F)
    (self : IntegratorRK4 F) (state : List F) (t dt : F)
    (hf : ∀ (st out : List F) (t' : F), st.length = sys.dim → out.length = sys.dim →
      sys.deriv st out t' = f st t' ∧ (f st t').length = sys.dim)
    (hstate : state.length = sys.dim)
    (hself : self.k2.length = self.k1.length ∧ self.k3.length = self.k1.length ∧
      self.k4.length = self.k1.length ∧ self.tmp.length = self.k1.length) :
    (self.step sys state t dt).2 = rk4_formula f state t dt ∧
    (self.step sys state t dt).2.length = sys.dim ∧
    (self.step sys state t dt).1.k1.length = sys.dim ∧
    (self.step sys state t dt).1.k2.length = sys.dim ∧
    (self.step sys state t dt).1.k3.length = sys.dim ∧
    (self.step sys state t dt).1.k4.length = sys.dim ∧
    (self.step sys state t dt).1.tmp.length = sys.dim := by
  obtain ⟨n, deriv⟩ := sys
  simp only at hf hstate
  -- the scratch vectors after the optional resize
  obtain ⟨r, hr, hr1, hr2, hr3, hr4, hrt⟩ :
      ∃ r : IntegratorRK4 F,
        r = (if self.k1.length ≠ n then
          ({ k1 := vector_resize self.k1 n, k2 := vector_resize self.k2 n,
             k3 := vector_resize self.k3 n, k4 := vector_resize self.k4 n,
             tmp := vector_resize self.tmp n } : IntegratorRK4 F)
          else self) ∧
        r.k1.length = n ∧ r.k2.length = n ∧ r.k3.length = n ∧ r.k4.length = n ∧
        r.tmp.length = n := by
    refine ⟨_, rfl, ?_⟩
    by_cases hc : self.k1.length ≠ n
    · rw [if_pos hc]
      exact ⟨vector_resize_length _ _, vector_resize_length _ _, vector_resize_length _ _,
        vector_resize_length _ _, vector_resize_length _ _⟩
    · rw [if_neg hc]
      have hc := not_not.mp hc
      obtain ⟨a, b, c, d⟩ := hself
      exact ⟨hc, a.trans hc, b.trans hc, c.trans hc, d.trans hc⟩
  have h05 : (0.5 : F) * dt = dt / 2 := by norm_num; ring
  unfold IntegratorRK4.step
  simp only [← hr, h05]
  have hk1 := hf state r.k1 t hstate hr1
  rw [hk1.1]
  have ht1 := stage_loop_eq n state (dt / 2) (f state t) r.tmp hrt hstate hk1.2
  rw [ht1]
  have hl1 : (vec_add state (vec_scale (dt / 2) (f state t))).length = n := by
    rw [vec_add_length _ _ (by rw [vec_scale_length, hstate, hk1.2]), hstate]
  have hk2 := hf _ r.k2 (t + dt / 2) hl1 hr2
  rw [hk2.1]
  have ht2 := stage_loop_eq n state (dt / 2) _ _ hl1 hstate hk2.2
  rw [ht2]
  have hl2 : (vec_add state (vec_scale (dt / 2)
      (f (vec_add state (vec_scale (dt / 2) (f state t))) (t + dt / 2)))).length = n := by
    rw [vec_add_length _ _ (by rw [vec_scale_length, hstate, hk2.2]), hstate]
  have hk3 := hf _ r.k3 (t + dt / 2) hl2 hr3
  rw [hk3.1]
  have ht3 := stage_loop_eq n state dt _ _ hl2 hstate hk3.2
  rw [ht3]
  have hl3 : (vec_add state (vec_scale dt
      (f (vec_add state (vec_scale (dt / 2)
        (f (vec_add state (vec_scale (dt / 2) (f state t))) (t + dt / 2))))
        (t + dt / 2)))).length = n := by
    rw [vec_add_length _ _ (by rw [vec_scale_length, hstate, hk3.2]), hstate]
  have hk4 := hf _ r.k4 (t + dt) hl3 hr4
  rw [hk4.1]
  have hu := update_loop_eq n dt _ _ _ _ state hstate hk1.2 hk2.2 hk3.2 hk4.2
  rw [hu]
  refine ⟨rfl, ?_, hk1.2, hk2.2, hk3.2, hk4.2, hl3⟩
  rw [vec_add_length, hstate]
  rw [vec_scale_length, hstate, vec_add_length, vec_add_length, vec_add_length, hk1.2]
  · rw [vec_scale_length, hk1.2, hk2.2]
  · rw [vec_add_length, vec_scale_length, hk1.2, hk3.2]
    rw [vec_scale_length, hk1.2, hk2.2]
  · rw [vec_add_length, vec_add_length, hk1.2, hk4.2]
    · rw [vec_scale_length, hk1.2, hk2.2]
    · rw [vec_add_length, vec_scale_length, hk1.2, hk3.2]
      rw [vec_scale_length, hk1.2, hk2.2]

end Rk4Lemmas2

section Binding

variable {F : Type} [LinearOrderedField F]

theorem resize_deriv_length (dxdt : List F) (n : Nat) : (resize_deriv dxdt n).length = n := by
  unfold resize_deriv
  split_ifs with h
  · exact vector_resize_length _ _
  · exact not_not.mp h

/-- The callable shared by the twelve factories overwrites the whole output. -/
theorem bound_deriv_eq (g : vec3 F → vec3 F) (state derivative : List F) :
    bound_deriv g state derivative =
      [(g ⟨state.getD 0 0, state.getD 1 0, state.getD 2 0⟩).x,
       (g ⟨state.getD 0 0, state.getD 1 0, state.getD 2 0⟩).y,
       (g ⟨state.getD 0 0, state.getD 1 0, state.getD 2 0⟩).z] := by
  unfold bound_deriv
  exact set_three _ (resize_deriv_length _ _) _ _ _

end Binding

section Rk4Claims

variable {F : Type} [LinearOrderedField F]

/-- C7. For a system of dimension `n ≥ 1` whose callable, given a state and an output
vector of length `n`, writes the `n` components of `f(state, t)`, and a state of
length `n`, `IntegratorRK4::step` replaces the state by
`state + dt/6 * (k1 + 2 k2 + 2 k3 + k4)` with `k1 = f(state, t)`,
`k2 = f(state + dt/2 * k1, t + dt/2)`, `k3 = f(state + dt/2 * k2, t + dt/2)`,
`k4 = f(state + dt * k3, t + dt)`, and the state keeps its length `n`.  The
integrator's five private scratch vectors have one common length, as they do on
construction and after every such step. -/
theorem IntegratorRK4_step_is_rk4 (sys : ODESystem F) (f : List F → F → List F)
    (self : IntegratorRK4 F) (state : List F) (t dt : F)
    (hn : 1 ≤ sys.dim)
    (hf : ∀ (st out : List F) (t' : F), st.length = sys.dim → out.length = sys.dim →
      sys.deriv st out t' = f st t' ∧ (f st t').length = sys.dim)
    (hstate : state.length = sys.dim)
    (hself : self.k2.length = self.k1.length ∧ self.k3.length = self.k1.length ∧
      self.k4.length = self.k1.length ∧ self.tmp.length = self.k1.length) :
    (self.step sys state t dt).2 = rk4_formula f state t dt ∧
    (self.step sys state t dt).2.length = sys.dim ∧
    (self.step sys state t dt).2.length = state.length ∧
    ((self.step sys state t dt).1.k2.length = (self.step sys state t dt).1.k1.length ∧
      (self.step sys state t dt).1.k3.length = (self.step sys state t dt).1.k1.length ∧
      (self.step sys state t dt).1.k4.length = (self.step sys state t dt).1.k1.length ∧
      (self.step sys state t dt).1.tmp.length = (self.step sys state t dt).1.k1.length) := by
  have _hn := hn
  obtain ⟨h1, h2, a, b, c, d, e⟩ := IntegratorRK4_step_eq sys f self state t dt hf hstate hself
  exact ⟨h1, h2, h2.trans hstate.symm, b.trans a.symm, c.trans a.symm, d.trans a.symm,
    e.trans a.symm⟩

/-- Witness of C7: the Lorenz field with default parameters, a fresh integrator
and the state `(1, 1, 1)`. -/
theorem IntegratorRK4_step_is_rk4_witness :
    (({} : IntegratorRK4 ℚ).step (make_lorenz_system {}) [1, 1, 1] 0 (1 / 100)).2 =
      rk4_formula
        (fun st _ =>
          [(deriv_lorenz {} ⟨st.getD 0 0, st.getD 1 0, st.getD 2 0⟩).x,
           (deriv_lorenz {} ⟨st.getD 0 0, st.getD 1 0, st.getD 2 0⟩).y,
           (deriv_lorenz {} ⟨st.getD 0 0, st.getD 1 0, st.getD 2 0⟩).z])
        [1, 1, 1] 0 (1 / 100) :=
  (IntegratorRK4_step_is_rk4 (make_lorenz_system {}) _ {} [1, 1, 1] 0 (1 / 100)
    (by decide) (fun st out _ _ _ => ⟨bound_deriv_eq _ st out, rfl⟩) rfl
    ⟨rfl, rfl, rfl, rfl⟩).1

end Rk4Claims

/-! ## The linear test system -/

section Decay

theorem exp_neg_taylor_bound (h : ℝ) (h0 : 0 ≤ h) (h1 : h ≤ 1) :
    |(1 - h + h ^ 2 / 2 - h ^ 3 / 6 + h ^ 4 / 24) - Real.exp (-h)| ≤ h ^ 5 / 120 := by
  have hb := Real.exp_bound (x := -h) (by rw [abs_neg, abs_of_nonneg h0]; exact h1)
    (n := 7) (by norm_num)
  rw [abs_neg, abs_of_nonneg h0] at hb
  simp only [Finset.sum_range_succ, Finset.sum_range_zero, Nat.factorial] at hb
  norm_num at hb
  rw [abs_le] at hb ⊢
  obtain ⟨hb1, hb2⟩ := hb
  have h5 : 0 ≤ h ^ 5 := by positivity
  have h6 : h ^ 6 ≤ h ^ 5 := by
    have : h ^ 6 = h ^ 5 * h := by ring
    rw [this]
    exact mul_le_of_le_one_right h5 h1
  have h6' : 0 ≤ h ^ 6 := by positivity
  have h7 : h ^ 7 ≤ h ^ 6 := by
    have : h ^ 7 = h ^ 6 * h := by ring
    rw [this]
    exact mul_le_of_le_one_right h6' h1
  have h7' : 0 ≤ h ^ 7 := by positivity
  constructor <;> nlinarith

end Decay

section Decay2

variable {F : Type} [LinearOrderedField F]

theorem decay_system_step (self : IntegratorRK4 F) (x t h : F)
    (hself : self.k2.length = self.k1.length ∧ self.k3.length = self.k1.length ∧
      self.k4.length = self.k1.length ∧ self.tmp.length = self.k1.length) :
    (self.step decay_system [x] t h).2
      = [x * (1 - h + h ^ 2 / 2 - h ^ 3 / 6 + h ^ 4 / 24)] ∧
    ((self.step decay_system [x] t h).1.k2.length = (self.step decay_system [x] t h).1.k1.length ∧
      (self.step decay_system [x] t h).1.k3.length = (self.step decay_system [x] t h).1.k1.length ∧
      (self.step decay_system [x] t h).1.k4.length = (self.step decay_system [x] t h).1.k1.length ∧
      (self.step decay_system [x] t h).1.tmp.length
        = (self.step decay_system [x] t h).1.k1.length) := by
  have hf : ∀ (st out : List F) (t' : F), st.length = (decay_system : ODESystem F).dim →
      out.length = (decay_system : ODESystem F).dim →
      (decay_system : ODESystem F).deriv st out t' = (fun st _ => [-(st.getD 0 0)]) st t' ∧
        ((fun (st : List F) (_ : F) => [-(st.getD 0 0)]) st t').length
          = (decay_system : ODESystem F).dim := by
    intro st out t' _ _
    refine ⟨?_, rfl⟩
    show (resize_deriv out 1).set 0 (-(st.getD 0 0)) = [-(st.getD 0 0)]
    exact set_one _ (resize_deriv_length out 1) _
  obtain ⟨h1, -, a, b, c, d, e⟩ :=
    IntegratorRK4_step_eq decay_system _ self [x] t h hf rfl hself
  refine ⟨?_, b.trans a.symm, c.trans a.symm, d.trans a.symm, e.trans a.symm⟩
  rw [h1]
  simp only [rk4_formula, vec_add, vec_scale, List.map, List.zipWith, List.getD_cons_zero]
  congr 1
  ring

theorem decay_system_iterate (h : F) (m : Nat) :
    ∀ (self : IntegratorRK4 F) (x t : F),
      (self.k2.length = self.k1.length ∧ self.k3.length = self.k1.length ∧
        self.k4.length = self.k1.length ∧ self.tmp.length = self.k1.length) →
      ((reference_step decay_system h)^[m] (self, [x], t)).2.1
        = [x * (1 - h + h ^ 2 / 2 - h ^ 3 / 6 + h ^ 4 / 24) ^ m] := by
  induction m with
  | zero =>
    intro self x t _
    simp
  | succ m ih =>
    intro self x t hself
    obtain ⟨h1, h2⟩ := decay_system_step self x t h hself
    rw [Function.iterate_succ_apply]
    have : reference_step decay_system h (self, [x], t)
        = ((self.step decay_system [x] t h).1,
            [x * (1 - h + h ^ 2 / 2 - h ^ 3 / 6 + h ^ 4 / 24)], t + h) := by
      unfold reference_step
      simp only [h1]
    rw [this, ih _ _ _ h2, pow_succ]
    congr 1
    ring

end Decay2

section DecayClaim

/-- C8. For the linear system `dx/dt = -x`, one `IntegratorRK4::step` of size `h`
maps `x` to `x * (1 - h + h^2/2 - h^3/6 + h^4/24)`; for `0 ≤ h ≤ 1` this differs
from the analytic decay `x * e^(-h)` by at most `|x| * h^5 / 120`; and `m`
successive steps give `x * (1 - h + h^2/2 - h^3/6 + h^4/24)^m`.  The integrator's
scratch vectors have one common length, as on construction and after any
step. -/
theorem rk4_linear_decay (self : IntegratorRK4 ℝ) (x t h : ℝ)
    (hself : self.k2.length = self.k1.length ∧ self.k3.length = self.k1.length ∧
      self.k4.length = self.k1.length ∧ self.tmp.length = self.k1.length) :
    (self.step decay_system [x] t h).2
      = [x * (1 - h + h ^ 2 / 2 - h ^ 3 / 6 + h ^ 4 / 24)] ∧
    (0 ≤ h → h ≤ 1 →
      |x * (1 - h + h ^ 2 / 2 - h ^ 3 / 6 + h ^ 4 / 24) - x * Real.exp (-h)|
        ≤ |x| * h ^ 5 / 120) ∧
    (∀ m : Nat, ((reference_step decay_system h)^[m] (self, [x], t)).2.1
        = [x * (1 - h + h ^ 2 / 2 - h ^ 3 / 6 + h ^ 4 / 24) ^ m]) := by
  refine ⟨(decay_system_step self x t h hself).1, fun h0 h1 => ?_,
    fun m => decay_system_iterate h m self x t hself⟩
  rw [← mul_sub, abs_mul, mul_div_assoc]
  exact mul_le_mul_of_nonneg_left (exp_neg_taylor_bound h h0 h1) (abs_nonneg x)

/-- Witness of C8: a fresh integrator, `x = 1`, `h = 1/2`. -/
theorem rk4_linear_decay_witness :
    (({} : IntegratorRK4 ℝ).step decay_system [1] 0 (1 / 2)).2
      = [1 * (1 - 1 / 2 + (1 / 2) ^ 2 / 2 - (1 / 2) ^ 3 / 6 + (1 / 2) ^ 4 / 24)] :=
  (rk4_linear_decay {} 1 0 (1 / 2) ⟨rfl, rfl, rfl, rfl⟩).1

end DecayClaim

/-! ## The two RK4 implementations -/

section Agreement

variable {F : Type} [LinearOrderedField F]

theorem vec3_add_def (a b : vec3 F) : a + b = ⟨a.x + b.x, a.y + b.y, a.z + b.z⟩ := rfl

theorem vec3_smul_def (c : F) (a : vec3 F) : c * a = (⟨c * a.x, c * a.y, c * a.z⟩ : vec3 F) := rfl

/-- A field bound by `bound_deriv g`, stepped by the generic integrator from `[x, y, z]`, lands
on the per-particle RK4 step of any state whose `evaluate_derivative` is `g`. -/
theorem step_eq_particle (sin : F → F) (s : simulation_state F) (g : vec3 F → vec3 F)
    (sys : ODESystem F) (hdim : sys.dim = 3)
    (hd : ∀ (st out : List F) (t : F), sys.deriv st out t = bound_deriv g st out)
    (he : ∀ p : vec3 F, evaluate_derivative sin s p = g p)
    (self : IntegratorRK4 F)
    (hself : self.k2.length = self.k1.length ∧ self.k3.length = self.k1.length ∧
      self.k4.length = self.k1.length ∧ self.tmp.length = self.k1.length)
    (x y z t dt : F) :
    (self.step sys [x, y, z] t dt).2 =
      [(integrate_particle_rk4 sin s ⟨x, y, z⟩ dt).x,
       (integrate_particle_rk4 sin s ⟨x, y, z⟩ dt).y,
       (integrate_particle_rk4 sin s ⟨x, y, z⟩ dt).z] := by
  have hf : ∀ (st out : List F) (t' : F), st.length = sys.dim → out.length = sys.dim →
      sys.deriv st out t' =
        (fun (st : List F) (_ : F) =>
          [(g ⟨st.getD 0 0, st.getD 1 0, st.getD 2 0⟩).x,
           (g ⟨st.getD 0 0, st.getD 1 0, st.getD 2 0⟩).y,
           (g ⟨st.getD 0 0, st.getD 1 0, st.getD 2 0⟩).z]) st t' ∧
        ((fun (st : List F) (_ : F) =>
          [(g ⟨st.getD 0 0, st.getD 1 0, st.getD 2 0⟩).x,
           (g ⟨st.getD 0 0, st.getD 1 0, st.getD 2 0⟩).y,
           (g ⟨st.getD 0 0, st.getD 1 0, st.getD 2 0⟩).z]) st t').length = sys.dim := by
    intro st out t' _ _
    exact ⟨(hd st out t').trans (bound_deriv_eq g st out), hdim.symm⟩
  rw [(IntegratorRK4_step_eq sys _ self [x, y, z] t dt hf hdim.symm hself).1]
  have h05 : (0.5 : F) * dt = dt / 2 := by norm_num; ring
  have e6 : (6.0 : F) = 6 := by norm_num
  have e2 : (2.0 : F) = 2 := by norm_num
  simp only [rk4_formula, integrate_particle_rk4, he, vec_add, vec_scale, List.map,
    List.zipWith, List.getD_cons_zero, List.getD_cons_succ, vec3_add_def, vec3_smul_def, h05,
    e6, e2]

end Agreement

section AgreementClaim

variable {F : Type} [LinearOrderedField F]

/-- C9. The two RK4 implementations agree.  For each of the twelve systems, every
parameter record (those of an arbitrary `state`), every position `(x, y, z)`,
every `t` and `dt`, `IntegratorRK4::step` on the bound field and the state
`[x, y, z]` gives the three components of `integrate_particle_rk4` at
`(x, y, z)` with that system current and the same `dt`.  The integrator's
scratch vectors have one common length, as on construction and after any
step. -/
theorem rk4_implementations_agree (sin : F → F) (state : simulation_state F)
    (self : IntegratorRK4 F) (x y z t dt : F)
    (hself : self.k2.length = self.k1.length ∧ self.k3.length = self.k1.length ∧
      self.k4.length = self.k1.length ∧ self.tmp.length = self.k1.length) :
    (self.step (make_lorenz_system state.lorenz_args) [x, y, z] t dt).2 =
      [(integrate_particle_rk4 sin { state with current_system := system_type.lorenz }
          ⟨x, y, z⟩ dt).x,
       (integrate_particle_rk4 sin { state with current_system := system_type.lorenz }
          ⟨x, y, z⟩ dt).y,
       (integrate_particle_rk4 sin { state with current_system := system_type.lorenz }
          ⟨x, y, z⟩ dt).z] ∧
    (self.step (make_rossler_system state.rossler_args) [x, y, z] t dt).2 =
      [(integrate_particle_rk4 sin { state with current_system := system_type.rossler }
          ⟨x, y, z⟩ dt).x,
       (integrate_particle_rk4 sin { state with current_system := system_type.rossler }
          ⟨x, y, z⟩ dt).y,
       (integrate_particle_rk4 sin { state with current_system := system_type.rossler }
          ⟨x, y, z⟩ dt).z] ∧
    (self.step (make_thomas_system sin state.thomas_args) [x, y, z] t dt).2 =
      [(integrate_particle_rk4 sin { state with current_system := system_type.thomas }
          ⟨x, y, z⟩ dt).x,
       (integrate_particle_rk4 sin { state with current_system := system_type.thomas }
          ⟨x, y, z⟩ dt).y,
       (integrate_particle_rk4 sin { state with current_system := system_type.thomas }
          ⟨x, y, z⟩ dt).z] ∧
    (self.step (make_aizawa_system state.aizawa_args) [x, y, z] t dt).2 =
      [(integrate_particle_rk4 sin { state with current_system := system_type.aizawa }
          ⟨x, y, z⟩ dt).x,
       (integrate_particle_rk4 sin { state with current_system := system_type.aizawa }
          ⟨x, y, z⟩ dt).y,
       (integrate_particle_rk4 sin { state with current_system := system_type.aizawa }
          ⟨x, y, z⟩ dt).z] ∧
    (self.step (make_dadras_system state.dadras_args) [x, y, z] t dt).2 =
      [(integrate_particle_rk4 sin { state with current_system := system_type.dadras }
          ⟨x, y, z⟩ dt).x,
       (integrate_particle_rk4 sin { state with current_system := system_type.dadras }
          ⟨x, y, z⟩ dt).y,
       (integrate_particle_rk4 sin { state with current_system := system_type.dadras }
          ⟨x, y, z⟩ dt).z] ∧
    (self.step (make_chen_system state.chen_args) [x, y, z] t dt).2 =
      [(integrate_particle_rk4 sin { state with current_system := system_type.chen }
          ⟨x, y, z⟩ dt).x,
       (integrate_particle_rk4 sin { state with current_system := system_type.chen }
          ⟨x, y, z⟩ dt).y,
       (integrate_particle_rk4 sin { state with current_system := system_type.chen }
          ⟨x, y, z⟩ dt).z] ∧
    (self.step (make_lorenz83_system state.lorenz83_args) [x, y, z] t dt).2 =
      [(integrate_particle_rk4 sin { state with current_system := system_type.lorenz83 }
          ⟨x, y, z⟩ dt).x,
       (integrate_particle_rk4 sin { state with current_system := system_type.lorenz83 }
          ⟨x, y, z⟩ dt).y,
       (integrate_particle_rk4 sin { state with current_system := system_type.lorenz83 }
          ⟨x, y, z⟩ dt).z] ∧
    (self.step (make_halvorsen_system state.halvorsen_args) [x, y, z] t dt).2 =
      [(integrate_particle_rk4 sin { state with current_system := system_type.halvorsen }
          ⟨x, y, z⟩ dt).x,
       (integrate_particle_rk4 sin { state with current_system := system_type.halvorsen }
          ⟨x, y, z⟩ dt).y,
       (integrate_particle_rk4 sin { state with current_system := system_type.halvorsen }
          ⟨x, y, z⟩ dt).z] ∧
    (self.step (make_rabinovich_system state.rabinovich_args) [x, y, z] t dt).2 =
      [(integrate_particle_rk4 sin { state with current_system := system_type.rabinovich }
          ⟨x, y, z⟩ dt).x,
       (integrate_particle_rk4 sin { state with current_system := system_type.rabinovich }
          ⟨x, y, z⟩ dt).y,
       (integrate_particle_rk4 sin { state with current_system := system_type.rabinovich }
          ⟨x, y, z⟩ dt).z] ∧
    (self.step (make_three_scroll_system state.three_scroll_args) [x, y, z] t dt).2 =
      [(integrate_particle_rk4 sin { state with current_system := system_type.three_scroll }
          ⟨x, y, z⟩ dt).x,
       (integrate_particle_rk4 sin { state with current_system := system_type.three_scroll }
          ⟨x, y, z⟩ dt).y,
       (integrate_particle_rk4 sin { state with current_system := system_type.three_scroll }
          ⟨x, y, z⟩ dt).z] ∧
    (self.step (make_sprott_system state.sprott_args) [x, y, z] t dt).2 =
      [(integrate_particle_rk4 sin { state with current_system := system_type.sprott }
          ⟨x, y, z⟩ dt).x,
       (integrate_particle_rk4 sin { state with current_system := system_type.sprott }
          ⟨x, y, z⟩ dt).y,
       (integrate_particle_rk4 sin { state with current_system := system_type.sprott }
          ⟨x, y, z⟩ dt).z] ∧
    (self.step (make_four_wing_system state.four_wing_args) [x, y, z] t dt).2 =
      [(integrate_particle_rk4 sin { state with current_system := system_type.four_wing }
          ⟨x, y, z⟩ dt).x,
       (integrate_particle_rk4 sin { state with current_system := system_type.four_wing }
          ⟨x, y, z⟩ dt).y,
       (integrate_particle_rk4 sin { state with current_system := system_type.four_wing }
          ⟨x, y, z⟩ dt).z] := by
  exact ⟨step_eq_particle sin _ _ _ rfl (fun _ _ _ => rfl) (fun _ => rfl) self hself x y z t dt,
    step_eq_particle sin _ _ _ rfl (fun _ _ _ => rfl) (fun _ => rfl) self hself x y z t dt,
    step_eq_particle sin _ _ _ rfl (fun _ _ _ => rfl) (fun _ => rfl) self hself x y z t dt,
    step_eq_particle sin _ _ _ rfl (fun _ _ _ => rfl) (fun _ => rfl) self hself x y z t dt,
    step_eq_particle sin _ _ _ rfl (fun _ _ _ => rfl) (fun _ => rfl) self hself x y z t dt,
    step_eq_particle sin _ _ _ rfl (fun _ _ _ => rfl) (fun _ => rfl) self hself x y z t dt,
    step_eq_particle sin _ _ _ rfl (fun _ _ _ => rfl) (fun _ => rfl) self hself x y z t dt,
    step_eq_particle sin _ _ _ rfl (fun _ _ _ => rfl) (fun _ => rfl) self hself x y z t dt,
    step_eq_particle sin _ _ _ rfl (fun _ _ _ => rfl) (fun _ => rfl) self hself x y z t dt,
    step_eq_particle sin _ _ _ rfl (fun _ _ _ => rfl) (fun _ => rfl) self hself x y z t dt,
    step_eq_particle sin _ _ _ rfl (fun _ _ _ => rfl) (fun _ => rfl) self hself x y z t dt,
    step_eq_particle sin _ _ _ rfl (fun _ _ _ => rfl) (fun _ => rfl) self hself x y z t dt⟩

/-- Witness of C9: a fresh integrator, the default parameters, the position
`(1, 1, 1)` and `dt = 0.01`; shown for the Lorenz system. -/
theorem rk4_implementations_agree_witness :
    (({} : IntegratorRK4 ℚ).step (make_lorenz_system lorenz_example.lorenz_args) [1, 1, 1] 0
        (1 / 100)).2 =
      [(integrate_particle_rk4 (fun _ => 0)
          { lorenz_example with current_system := system_type.lorenz } ⟨1, 1, 1⟩ (1 / 100)).x,
       (integrate_particle_rk4 (fun _ => 0)
          { lorenz_example with current_system := system_type.lorenz } ⟨1, 1, 1⟩ (1 / 100)).y,
       (integrate_particle_rk4 (fun _ => 0)
          { lorenz_example with current_system := system_type.lorenz } ⟨1, 1, 1⟩ (1 / 100)).z] :=
  (rk4_implementations_agree (fun _ => 0) lorenz_example {} 1 1 1 0 (1 / 100)
    ⟨rfl, rfl, rfl, rfl⟩).1

end AgreementClaim

/-! ## Binding -/

section BindingClaim

variable {F : Type} [LinearOrderedField F]

/-- C10. Binding is total and faithful.  For each of the twelve systems and every
parameter record (those of an arbitrary `state`), the factory returns a field
of dimension 3 whose callable, on every state vector of length at least 3
(`x :: y :: z :: rest`), every time `t` and every previous content `out` of the
output vector, writes exactly the three components of the system's derivative
at `(x, y, z)`; `evaluate_derivative` returns the same derivative when that
system is current.  The right-hand sides mention neither `t` nor `out`. -/
theorem make_system_faithful (sin : F → F) (state : simulation_state F) (x y z : F)
    (rest out : List F) (t : F) :
    (((make_lorenz_system state.lorenz_args).dim = 3 ∧
      (make_lorenz_system state.lorenz_args).deriv (x :: y :: z :: rest) out t =
        [(deriv_lorenz state.lorenz_args ⟨x, y, z⟩).x, (deriv_lorenz state.lorenz_args ⟨x, y, z⟩).y,
         (deriv_lorenz state.lorenz_args ⟨x, y, z⟩).z]) ∧
      evaluate_derivative sin { state with current_system := system_type.lorenz } ⟨x, y, z⟩ =
        deriv_lorenz state.lorenz_args ⟨x, y, z⟩) ∧
    (((make_rossler_system state.rossler_args).dim = 3 ∧
      (make_rossler_system state.rossler_args).deriv (x :: y :: z :: rest) out t =
        [(deriv_rossler state.rossler_args ⟨x, y, z⟩).x, (deriv_rossler state.rossler_args ⟨x, y, z⟩).y,
         (deriv_rossler state.rossler_args ⟨x, y, z⟩).z]) ∧
      evaluate_derivative sin { state with current_system := system_type.rossler } ⟨x, y, z⟩ =
        deriv_rossler state.rossler_args ⟨x, y, z⟩) ∧
    (((make_thomas_system sin state.thomas_args).dim = 3 ∧
      (make_thomas_system sin state.thomas_args).deriv (x :: y :: z :: rest) out t =
        [(deriv_thomas sin state.thomas_args ⟨x, y, z⟩).x, (deriv_thomas sin state.thomas_args ⟨x, y, z⟩).y,
         (deriv_thomas sin state.thomas_args ⟨x, y, z⟩).z]) ∧
      evaluate_derivative sin { state with current_system := system_type.thomas } ⟨x, y, z⟩ =
        deriv_thomas sin state.thomas_args ⟨x, y, z⟩) ∧
    (((make_aizawa_system state.aizawa_args).dim = 3 ∧
      (make_aizawa_system state.aizawa_args).deriv (x :: y :: z :: rest) out t =
        [(deriv_aizawa state.aizawa_args ⟨x, y, z⟩).x, (deriv_aizawa state.aizawa_args ⟨x, y, z⟩).y,
         (deriv_aizawa state.aizawa_args ⟨x, y, z⟩).z]) ∧
      evaluate_derivative sin { state with current_system := system_type.aizawa } ⟨x, y, z⟩ =
        deriv_aizawa state.aizawa_args ⟨x, y, z⟩) ∧
    (((make_dadras_system state.dadras_args).dim = 3 ∧
      (make_dadras_system state.dadras_args).deriv (x :: y :: z :: rest) out t =
        [(deriv_dadras state.dadras_args ⟨x, y, z⟩).x, (deriv_dadras state.dadras_args ⟨x, y, z⟩).y,
         (deriv_dadras state.dadras_args ⟨x, y, z⟩).z]) ∧
      evaluate_derivative sin { state with current_system := system_type.dadras } ⟨x, y, z⟩ =
        deriv_dadras state.dadras_args ⟨x, y, z⟩) ∧
    (((make_chen_system state.chen_args).dim = 3 ∧
      (make_chen_system state.chen_args).deriv (x :: y :: z :: rest) out t =
        [(deriv_chen state.chen_args ⟨x, y, z⟩).x, (deriv_chen state.chen_args ⟨x, y, z⟩).y,
         (deriv_chen state.chen_args ⟨x, y, z⟩).z]) ∧
      evaluate_derivative sin { state with current_system := system_type.chen } ⟨x, y, z⟩ =
        deriv_chen state.chen_args ⟨x, y, z⟩) ∧
    (((make_lorenz83_system state.lorenz83_args).dim = 3 ∧
      (make_lorenz83_system state.lorenz83_args).deriv (x :: y :: z :: rest) out t =
        [(deriv_lorenz83 state.lorenz83_args ⟨x, y, z⟩).x, (deriv_lorenz83 state.lorenz83_args ⟨x, y, z⟩).y,
         (deriv_lorenz83 state.lorenz83_args ⟨x, y, z⟩).z]) ∧
      evaluate_derivative sin { state with current_system := system_type.lorenz83 } ⟨x, y, z⟩ =
        deriv_lorenz83 state.lorenz83_args ⟨x, y, z⟩) ∧
    (((make_halvorsen_system state.halvorsen_args).dim = 3 ∧
      (make_halvorsen_system state.halvorsen_args).deriv (x :: y :: z :: rest) out t =
        [(deriv_halvorsen state.halvorsen_args ⟨x, y, z⟩).x, (deriv_halvorsen state.halvorsen_args ⟨x, y, z⟩).y,
         (deriv_halvorsen state.halvorsen_args ⟨x, y, z⟩).z]) ∧
      evaluate_derivative sin { state with current_system := system_type.halvorsen } ⟨x, y, z⟩ =
        deriv_halvorsen state.halvorsen_args ⟨x, y, z⟩) ∧
    (((make_rabinovich_system state.rabinovich_args).dim = 3 ∧
      (make_rabinovich_system state.rabinovich_args).deriv (x :: y :: z :: rest) out t =
        [(deriv_rabinovich state.rabinovich_args ⟨x, y, z⟩).x, (deriv_rabinovich state.rabinovich_args ⟨x, y, z⟩).y,
         (deriv_rabinovich state.rabinovich_args ⟨x, y, z⟩).z]) ∧
      evaluate_derivative sin { state with current_system := system_type.rabinovich } ⟨x, y, z⟩ =
        deriv_rabinovich state.rabinovich_args ⟨x, y, z⟩) ∧
    (((make_three_scroll_system state.three_scroll_args).dim = 3 ∧
      (make_three_scroll_system state.three_scroll_args).deriv (x :: y :: z :: rest) out t =
        [(deriv_three_scroll state.three_scroll_args ⟨x, y, z⟩).x, (deriv_three_scroll state.three_scroll_args ⟨x, y, z⟩).y,
         (deriv_three_scroll state.three_scroll_args ⟨x, y, z⟩).z]) ∧
      evaluate_derivative sin { state with current_system := system_type.three_scroll } ⟨x, y, z⟩ =
        deriv_three_scroll state.three_scroll_args ⟨x, y, z⟩) ∧
    (((make_sprott_system state.sprott_args).dim = 3 ∧
      (make_sprott_system state.sprott_args).deriv (x :: y :: z :: rest) out t =
        [(deriv_sprott state.sprott_args ⟨x, y, z⟩).x, (deriv_sprott state.sprott_args ⟨x, y, z⟩).y,
         (deriv_sprott state.sprott_args ⟨x, y, z⟩).z]) ∧
      evaluate_derivative sin { state with current_system := system_type.sprott } ⟨x, y, z⟩ =
        deriv_sprott state.sprott_args ⟨x, y, z⟩) ∧
    (((make_four_wing_system state.four_wing_args).dim = 3 ∧
      (make_four_wing_system state.four_wing_args).deriv (x :: y :: z :: rest) out t =
        [(deriv_four_wing state.four_wing_args ⟨x, y, z⟩).x, (deriv_four_wing state.four_wing_args ⟨x, y, z⟩).y,
         (deriv_four_wing state.four_wing_args ⟨x, y, z⟩).z]) ∧
      evaluate_derivative sin { state with current_system := system_type.four_wing } ⟨x, y, z⟩ =
        deriv_four_wing state.four_wing_args ⟨x, y, z⟩) := by
  exact ⟨⟨⟨rfl, bound_deriv_eq _ _ _⟩, rfl⟩,
    ⟨⟨rfl, bound_deriv_eq _ _ _⟩, rfl⟩,
    ⟨⟨rfl, bound_deriv_eq _ _ _⟩, rfl⟩,
    ⟨⟨rfl, bound_deriv_eq _ _ _⟩, rfl⟩,
    ⟨⟨rfl, bound_deriv_eq _ _ _⟩, rfl⟩,
    ⟨⟨rfl, bound_deriv_eq _ _ _⟩, rfl⟩,
    ⟨⟨rfl, bound_deriv_eq _ _ _⟩, rfl⟩,
    ⟨⟨rfl, bound_deriv_eq _ _ _⟩, rfl⟩,
    ⟨⟨rfl, bound_deriv_eq _ _ _⟩, rfl⟩,
    ⟨⟨rfl, bound_deriv_eq _ _ _⟩, rfl⟩,
    ⟨⟨rfl, bound_deriv_eq _ _ _⟩, rfl⟩,
    ⟨⟨rfl, bound_deriv_eq _ _ _⟩, rfl⟩⟩

end BindingClaim

/-! ## Golden derivative values -/

section Golden

variable {F : Type} [LinearOrderedField F]

/-- C11. With default parameters, for each of the eleven polynomial systems the
field bound by `reset_simulation`, evaluated at the initial state that
`reset_simulation` selects for that system, writes a derivative `d` whose
components are within `1e-5` of the reference values: Lorenz `(0, 26, -5/3)`,
Rossler `(0, 0.1, 0.2)`, Aizawa `(-0.07, 0.35, 0.59)`, Dadras
`(-0.173, 0.26, -0.88)`, Chen `(0.5, 0, 0)`, Lorenz-83 `(4.4935, 4.66, 0)`,
Halvorsen `(-0.14, -0.4, -0.41)`, Rabinovich-Fabrikant `(0.01, 0.099, 0)`,
Three-Scroll `(-3.248, 4.584, 0)`, Sprott `(-0.107, -0.09, 0.4)`, Four-Wing
`(0.02, -0.39, 0.19)`. -/
theorem golden_derivatives (sin : F → F) (state : simulation_state F) (out : List F) (t : F) :
    (∃ d : vec3 F,
      (reset_simulation_switch sin { state with current_system := system_type.lorenz, lorenz_args := {} }).2 = [1.0, 1.0, 1.0] ∧
      (reset_simulation_switch sin
          { state with current_system := system_type.lorenz, lorenz_args := {} }).1.deriv
        (reset_simulation_switch sin
          { state with current_system := system_type.lorenz, lorenz_args := {} }).2 out t
        = [d.x, d.y, d.z] ∧
      |d.x - 0| ≤ 1e-5 ∧ |d.y - 26| ≤ 1e-5 ∧ |d.z - (-5 / 3)| ≤ 1e-5) ∧
    (∃ d : vec3 F,
      (reset_simulation_switch sin { state with current_system := system_type.rossler, rossler_args := {} }).2 = [0.1, 0.0, 0.0] ∧
      (reset_simulation_switch sin
          { state with current_system := system_type.rossler, rossler_args := {} }).1.deriv
        (reset_simulation_switch sin
          { state with current_system := system_type.rossler, rossler_args := {} }).2 out t
        = [d.x, d.y, d.z] ∧
      |d.x - 0| ≤ 1e-5 ∧ |d.y - 0.1| ≤ 1e-5 ∧ |d.z - 0.2| ≤ 1e-5) ∧
    (∃ d : vec3 F,
      (reset_simulation_switch sin { state with current_system := system_type.aizawa, aizawa_args := {} }).2 = [0.1, 0.0, 0.0] ∧
      (reset_simulation_switch sin
          { state with current_system := system_type.aizawa, aizawa_args := {} }).1.deriv
        (reset_simulation_switch sin
          { state with current_system := system_type.aizawa, aizawa_args := {} }).2 out t
        = [d.x, d.y, d.z] ∧
      |d.x - (-0.07)| ≤ 1e-5 ∧ |d.y - 0.35| ≤ 1e-5 ∧ |d.z - 0.59| ≤ 1e-5) ∧
    (∃ d : vec3 F,
      (reset_simulation_switch sin { state with current_system := system_type.dadras, dadras_args := {} }).2 = [0.1, 0.1, 0.1] ∧
      (reset_simulation_switch sin
          { state with current_system := system_type.dadras, dadras_args := {} }).1.deriv
        (reset_simulation_switch sin
          { state with current_system := system_type.dadras, dadras_args := {} }).2 out t
        = [d.x, d.y, d.z] ∧
      |d.x - (-0.173)| ≤ 1e-5 ∧ |d.y - 0.26| ≤ 1e-5 ∧ |d.z - (-0.88)| ≤ 1e-5) ∧
    (∃ d : vec3 F,
      (reset_simulation_switch sin { state with current_system := system_type.chen, chen_args := {} }).2 = [0.1, 0.0, 0.0] ∧
      (reset_simulation_switch sin
          { state with current_system := system_type.chen, chen_args := {} }).1.deriv
        (reset_simulation_switch sin
          { state with current_system := system_type.chen, chen_args := {} }).2 out t
        = [d.x, d.y, d.z] ∧
      |d.x - 0.5| ≤ 1e-5 ∧ |d.y - 0| ≤ 1e-5 ∧ |d.z - 0| ≤ 1e-5) ∧
    (∃ d : vec3 F,
      (reset_simulation_switch sin { state with current_system := system_type.lorenz83, lorenz83_args := {} }).2 = [0.1, 0.0, 0.0] ∧
      (reset_simulation_switch sin
          { state with current_system := system_type.lorenz83, lorenz83_args := {} }).1.deriv
        (reset_simulation_switch sin
          { state with current_system := system_type.lorenz83, lorenz83_args := {} }).2 out t
        = [d.x, d.y, d.z] ∧
      |d.x - 4.4935| ≤ 1e-5 ∧ |d.y - 4.66| ≤ 1e-5 ∧ |d.z - 0| ≤ 1e-5) ∧
    (∃ d : vec3 F,
      (reset_simulation_switch sin { state with current_system := system_type.halvorsen, halvorsen_args := {} }).2 = [0.1, 0.0, 0.0] ∧
      (reset_simulation_switch sin
          { state with current_system := system_type.halvorsen, halvorsen_args := {} }).1.deriv
        (reset_simulation_switch sin
          { state with current_system := system_type.halvorsen, halvorsen_args := {} }).2 out t
        = [d.x, d.y, d.z] ∧
      |d.x - (-0.14)| ≤ 1e-5 ∧ |d.y - (-0.4)| ≤ 1e-5 ∧ |d.z - (-0.41)| ≤ 1e-5) ∧
    (∃ d : vec3 F,
      (reset_simulation_switch sin { state with current_system := system_type.rabinovich, rabinovich_args := {} }).2 = [0.1, 0.0, 0.0] ∧
      (reset_simulation_switch sin
          { state with current_system := system_type.rabinovich, rabinovich_args := {} }).1.deriv
        (reset_simulation_switch sin
          { state with current_system := system_type.rabinovich, rabinovich_args := {} }).2 out t
        = [d.x, d.y, d.z] ∧
      |d.x - 0.01| ≤ 1e-5 ∧ |d.y - 0.099| ≤ 1e-5 ∧ |d.z - 0| ≤ 1e-5) ∧
    (∃ d : vec3 F,
      (reset_simulation_switch sin { state with current_system := system_type.three_scroll, three_scroll_args := {} }).2 = [0.1, 0.0, 0.0] ∧
      (reset_simulation_switch sin
          { state with current_system := system_type.three_scroll, three_scroll_args := {} }).1.deriv
        (reset_simulation_switch sin
          { state with current_system := system_type.three_scroll, three_scroll_args := {} }).2 out t
        = [d.x, d.y, d.z] ∧
      |d.x - (-3.248)| ≤ 1e-5 ∧ |d.y - 4.584| ≤ 1e-5 ∧ |d.z - 0| ≤ 1e-5) ∧
    (∃ d : vec3 F,
      (reset_simulation_switch sin { state with current_system := system_type.sprott, sprott_args := {} }).2 = [0.1, 0.1, 0.1] ∧
      (reset_simulation_switch sin
          { state with current_system := system_type.sprott, sprott_args := {} }).1.deriv
        (reset_simulation_switch sin
          { state with current_system := system_type.sprott, sprott_args := {} }).2 out t
        = [d.x, d.y, d.z] ∧
      |d.x - (-0.107)| ≤ 1e-5 ∧ |d.y - (-0.09)| ≤ 1e-5 ∧ |d.z - 0.4| ≤ 1e-5) ∧
    (∃ d : vec3 F,
      (reset_simulation_switch sin { state with current_system := system_type.four_wing, four_wing_args := {} }).2 = [0.1, 0.1, 0.1] ∧
      (reset_simulation_switch sin
          { state with current_system := system_type.four_wing, four_wing_args := {} }).1.deriv
        (reset_simulation_switch sin
          { state with current_system := system_type.four_wing, four_wing_args := {} }).2 out t
        = [d.x, d.y, d.z] ∧
      |d.x - 0.02| ≤ 1e-5 ∧ |d.y - (-0.39)| ≤ 1e-5 ∧ |d.z - 0.19| ≤ 1e-5) := by
  refine ⟨?_, ?_, ?_, ?_, ?_, ?_, ?_, ?_, ?_, ?_, ?_⟩
  · refine ⟨deriv_lorenz {} ⟨1.0, 1.0, 1.0⟩, rfl, bound_deriv_eq _ _ _, ?_, ?_, ?_⟩ <;>
      norm_num [deriv_lorenz, abs_le]
  · refine ⟨deriv_rossler {} ⟨0.1, 0.0, 0.0⟩, rfl, bound_deriv_eq _ _ _, ?_, ?_, ?_⟩ <;>
      norm_num [deriv_rossler, abs_le]
  · refine ⟨deriv_aizawa {} ⟨0.1, 0.0, 0.0⟩, rfl, bound_deriv_eq _ _ _, ?_, ?_, ?_⟩ <;>
      norm_num [deriv_aizawa, abs_le]
  · refine ⟨deriv_dadras {} ⟨0.1, 0.1, 0.1⟩, rfl, bound_deriv_eq _ _ _, ?_, ?_, ?_⟩ <;>
      norm_num [deriv_dadras, abs_le]
  · refine ⟨deriv_chen {} ⟨0.1, 0.0, 0.0⟩, rfl, bound_deriv_eq _ _ _, ?_, ?_, ?_⟩ <;>
      norm_num [deriv_chen, abs_le]
  · refine ⟨deriv_lorenz83 {} ⟨0.1, 0.0, 0.0⟩, rfl, bound_deriv_eq _ _ _, ?_, ?_, ?_⟩ <;>
      norm_num [deriv_lorenz83, abs_le]
  · refine ⟨deriv_halvorsen {} ⟨0.1, 0.0, 0.0⟩, rfl, bound_deriv_eq _ _ _, ?_, ?_, ?_⟩ <;>
      norm_num [deriv_halvorsen, abs_le]
  · refine ⟨deriv_rabinovich {} ⟨0.1, 0.0, 0.0⟩, rfl, bound_deriv_eq _ _ _, ?_, ?_, ?_⟩ <;>
      norm_num [deriv_rabinovich, abs_le]
  · refine ⟨deriv_three_scroll {} ⟨0.1, 0.0, 0.0⟩, rfl, bound_deriv_eq _ _ _, ?_, ?_, ?_⟩ <;>
      norm_num [deriv_three_scroll, abs_le]
  · refine ⟨deriv_sprott {} ⟨0.1, 0.1, 0.1⟩, rfl, bound_deriv_eq _ _ _, ?_, ?_, ?_⟩ <;>
      norm_num [deriv_sprott, abs_le]
  · refine ⟨deriv_four_wing {} ⟨0.1, 0.1, 0.1⟩, rfl, bound_deriv_eq _ _ _, ?_, ?_, ?_⟩ <;>
      norm_num [deriv_four_wing, abs_le]

end Golden

/-! ## The particle partition -/

section Partition

variable {α : Type}

theorem range'_foldl_set_length (h : α → α) (d : α) (b m : Nat) (v : List α) :
    ((List.range' b m).foldl (fun v i => v.set i (h (v.getD i d))) v).length = v.length := by
  induction m with
  | zero => rfl
  | succ m ih =>
    rw [List.range'_1_concat, List.foldl_append]
    simp only [List.foldl_cons, List.foldl_nil, List.length_set]
    exact ih

theorem range'_foldl_set_getElem? (h : α → α) (d : α) (b m : Nat) (v : List α) :
    ∀ j : Nat, ((List.range' b m).foldl (fun v i => v.set i (h (v.getD i d))) v)[j]? =
      if b ≤ j ∧ j < b + m then (v[j]?).map h else v[j]? := by
  induction m with
  | zero =>
    intro j
    rw [if_neg (by omega)]
    rfl
  | succ m ih =>
    intro j
    rw [List.range'_1_concat, List.foldl_append]
    simp only [List.foldl_cons, List.foldl_nil, Nat.one_mul]
    have hlen := range'_foldl_set_length h d b m v
    have hn : ((List.range' b m).foldl (fun v i => v.set i (h (v.getD i d))) v).getD (b + m) d
        = v.getD (b + m) d := by
      rw [List.getD_eq_getElem?_getD, List.getD_eq_getElem?_getD, ih (b + m),
        if_neg (by omega)]
    rw [hn, List.getElem?_set, ih]
    by_cases hj : b + m = j
    · subst hj
      rw [if_pos rfl, hlen, if_pos (show b ≤ b + m ∧ b + m < b + (m + 1) by omega)]
      by_cases hl : b + m < v.length
      · rw [if_pos hl, List.getElem?_eq_getElem hl, List.getD_eq_getElem _ _ hl]
        rfl
      · rw [if_neg hl, List.getElem?_eq_none (not_lt.mp hl)]
        rfl
    · rw [if_neg hj]
      by_cases hjn : b ≤ j ∧ j < b + m
      · rw [if_pos hjn, if_pos (by omega)]
      · rw [if_neg hjn, if_neg (by omega)]

end Partition

section Partition2

variable {F : Type} [LinearOrderedField F]

theorem chunk_start_succ (q r t : Nat) :
    t * q + min t r + (q + if t < r then 1 else 0) = (t + 1) * q + min (t + 1) r := by
  have h : (t + 1) * q = t * q + q := Nat.succ_mul t q
  split_ifs with hc
  · rw [h, min_eq_left (by omega : t ≤ r), min_eq_left (by omega : t + 1 ≤ r)]
    omega
  · rw [h, min_eq_right (by omega : r ≤ t), min_eq_right (by omega : r ≤ t + 1)]
    omega

theorem chunk_start_total (N k : Nat) (hk : 1 ≤ k) : k * (N / k) + min k (N % k) = N := by
  rw [min_eq_right (Nat.le_of_lt (Nat.mod_lt N (by omega)))]
  exact Nat.div_add_mod N k

theorem chunk_start_mono (q r : Nat) {t u : Nat} (h : t ≤ u) :
    t * q + min t r ≤ u * q + min u r :=
  Nat.add_le_add (Nat.mul_le_mul_right q h) (min_le_min_right r h)

/-- The ranges of the loop in closed form: worker `t` gets
`[t * q + min t r, (t + 1) * q + min (t + 1) r)` with `q = N / k`, `r = N % k`. -/
theorem advance_particles_ranges_eq (N k : Nat) :
    advance_particles_ranges N k =
      ((List.range k).map (fun t =>
          (t * (N / k) + min t (N % k), (t + 1) * (N / k) + min (t + 1) (N % k))),
        k * (N / k) + min k (N % k)) := by
  unfold advance_particles_ranges
  simp only []
  generalize N / k = q
  generalize N % k = r
  induction k with
  | zero => simp
  | succ k ih =>
    rw [List.range_succ, List.foldl_append, ih]
    simp only [List.foldl_cons, List.foldl_nil, List.map_append, List.map_cons, List.map_nil,
      chunk_start_succ]

theorem integrate_range_length (sin : F → F) (s : simulation_state F) (dt : F) (b e : Nat)
    (ps : List (vec3 F)) : (integrate_range sin s dt b e ps).length = ps.length :=
  range'_foldl_set_length (fun p => integrate_particle_rk4 sin s p dt) ⟨0, 0, 0⟩ b (e - b) ps

theorem integrate_range_getElem? (sin : F → F) (s : simulation_state F) (dt : F) (b e : Nat)
    (ps : List (vec3 F)) (j : Nat) :
    (integrate_range sin s dt b e ps)[j]? =
      if b ≤ j ∧ j < b + (e - b) then (ps[j]?).map (fun p => integrate_particle_rk4 sin s p dt)
      else ps[j]? :=
  range'_foldl_set_getElem? (fun p => integrate_particle_rk4 sin s p dt) ⟨0, 0, 0⟩ b (e - b) ps j

/-- Folding `integrate_range` over the first `t` ranges maps exactly the positions below
the start of range `t`. -/
theorem integrate_ranges_getElem? (sin : F → F) (s : simulation_state F) (dt : F) (q r : Nat)
    (ps : List (vec3 F)) (t : Nat) :
    ∀ j : Nat,
      (((List.range t).map (fun u => (u * q + min u r, (u + 1) * q + min (u + 1) r))).foldl
        (fun ps' rg => integrate_range sin s dt rg.1 rg.2 ps') ps)[j]? =
      if j < t * q + min t r then (ps[j]?).map (fun p => integrate_particle_rk4 sin s p dt)
      else ps[j]? := by
  induction t with
  | zero =>
    intro j
    simp
  | succ t ih =>
    intro j
    rw [List.range_succ, List.map_append, List.foldl_append]
    simp only [List.map_cons, List.map_nil, List.foldl_cons, List.foldl_nil]
    rw [integrate_range_getElem?, ih j]
    have hm : t * q + min t r ≤ (t + 1) * q + min (t + 1) r :=
      chunk_start_mono q r (Nat.le_succ t)
    generalize t * q + min t r = A at *
    generalize (t + 1) * q + min (t + 1) r = B at *
    by_cases h1 : j < A
    · rw [if_neg (by omega), if_pos h1, if_pos (by omega)]
    · by_cases h2 : j < B
      · rw [if_pos (by omega), if_neg h1, if_pos h2]
      · rw [if_neg (by omega), if_neg h1, if_neg h2]

theorem advance_particles_workers_eq_ranges (sin : F → F) (s : simulation_state F) (dt : F)
    (k : Nat) :
    advance_particles_workers sin s dt k =
      ((advance_particles_ranges s.particle_positions.length k).1.foldl
          (fun ps' rg => integrate_range sin s dt rg.1 rg.2 ps') s.particle_positions,
        (advance_particles_ranges s.particle_positions.length k).2) := by
  unfold advance_particles_workers advance_particles_ranges
  simp only []
  generalize s.particle_positions.length / k = q
  generalize s.particle_positions.length % k = r
  induction k with
  | zero => rfl
  | succ k ih =>
    rw [List.range_succ, List.foldl_append, List.foldl_append, ih]
    simp only [List.foldl_cons, List.foldl_nil, List.foldl_append]

theorem map_getElem?_of_total (ps : List α) (h : α → α) (N : Nat) (hN : N = ps.length) (j : Nat) :
    (if j < N then (ps[j]?).map h else ps[j]?) = (ps.map h)[j]? := by
  subst hN
  rw [List.getElem?_map]
  by_cases hj : j < ps.length
  · rw [if_pos hj]
  · rw [if_neg hj, List.getElem?_eq_none (not_lt.mp hj)]
    rfl

theorem advance_particles_workers_map (sin : F → F) (s : simulation_state F) (dt : F)
    (k : Nat) (hk : 1 ≤ k) :
    (advance_particles_workers sin s dt k).1 =
      s.particle_positions.map (fun p => integrate_particle_rk4 sin s p dt) := by
  rw [advance_particles_workers_eq_ranges, advance_particles_ranges_eq]
  apply List.ext_getElem?
  intro j
  simp only []
  rw [integrate_ranges_getElem?, chunk_start_total _ k hk]
  exact map_getElem?_of_total _ _ _ rfl j

theorem integrate_range_all (sin : F → F) (s : simulation_state F) (dt : F)
    (ps : List (vec3 F)) :
    integrate_range sin s dt 0 ps.length ps =
      ps.map (fun p => integrate_particle_rk4 sin s p dt) := by
  apply List.ext_getElem?
  intro j
  rw [integrate_range_getElem?]
  have := map_getElem?_of_total ps (fun p => integrate_particle_rk4 sin s p dt) ps.length rfl j
  rw [← this]
  by_cases hj : j < ps.length
  · rw [if_pos (by omega), if_pos hj]
  · rw [if_neg (by omega), if_neg hj]

theorem advance_particles_positions (sin : F → F) (hw : Nat) (s : simulation_state F) (dt : F) :
    (advance_particles sin hw s dt).particle_positions =
      s.particle_positions.map (fun p => integrate_particle_rk4 sin s p dt) := by
  unfold advance_particles
  simp only []
  split_ifs with h0 h1
  · rw [List.length_eq_zero.mp h0]
    rfl
  · exact integrate_range_all sin s dt s.particle_positions
  · exact advance_particles_workers_map sin s dt _ (by omega)

end Partition2

section PartitionClaims

variable {F : Type} [LinearOrderedField F]

theorem advance_particles_ranges_getElem? (N k t : Nat) (ht : t < k) :
    (advance_particles_ranges N k).1[t]? =
      some (t * (N / k) + min t (N % k), (t + 1) * (N / k) + min (t + 1) (N % k)) := by
  rw [advance_particles_ranges_eq]
  simp only [List.getElem?_map, List.getElem?_range ht, Option.map_some']

theorem advance_particles_ranges_length (N k : Nat) :
    (advance_particles_ranges N k).1.length = k := by
  rw [advance_particles_ranges_eq]
  simp only [List.length_map, List.length_range]

theorem chunk_start_find (q r i : Nat) :
    ∀ k : Nat, i < k * q + min k r →
      ∃ t : Nat, t < k ∧ t * q + min t r ≤ i ∧ i < (t + 1) * q + min (t + 1) r := by
  intro k
  induction k with
  | zero =>
    intro h
    simp at h
  | succ k ih =>
    intro h
    by_cases hc : i < k * q + min k r
    · obtain ⟨t, ht, h1, h2⟩ := ih hc
      exact ⟨t, Nat.lt_succ_of_lt ht, h1, h2⟩
    · exact ⟨k, Nat.lt_succ_self k, not_lt.mp hc, h⟩

/-- C12. `advance_particles` does not depend on the worker count: for every
ensemble, every `dt` and every worker count `k ≥ 1`, the multi-threaded branch
replaces each position by `integrate_particle_rk4` of the old position, as do
the single-threaded path `integrate_range(0, particle_total)` and the function
itself for every hardware concurrency; so `k` workers and 1 worker give the
same positions, and an empty ensemble is left as it is. -/
theorem advance_particles_worker_independent (sin : F → F) (hardware_concurrency : Nat)
    (state : simulation_state F) (dt : F) :
    (∀ k : Nat, 1 ≤ k →
      (advance_particles_workers sin state dt k).1 =
        state.particle_positions.map (fun p => integrate_particle_rk4 sin state p dt)) ∧
    (∀ k : Nat, 1 ≤ k →
      (advance_particles_workers sin state dt k).1 =
        (advance_particles_workers sin state dt 1).1) ∧
    integrate_range sin state dt 0 state.particle_positions.length state.particle_positions =
      state.particle_positions.map (fun p => integrate_particle_rk4 sin state p dt) ∧
    (advance_particles sin hardware_concurrency state dt).particle_positions =
      state.particle_positions.map (fun p => integrate_particle_rk4 sin state p dt) ∧
    (∀ (i : Nat) (p : vec3 F), state.particle_positions[i]? = some p →
      (advance_particles sin hardware_concurrency state dt).particle_positions[i]? =
        some (integrate_particle_rk4 sin state p dt)) ∧
    (state.particle_positions = [] →
      advance_particles sin hardware_concurrency state dt = state) := by
  refine ⟨fun k hk => advance_particles_workers_map sin state dt k hk, fun k hk => ?_,
    integrate_range_all sin state dt _, advance_particles_positions sin _ state dt,
    fun i p hp => ?_, fun he => ?_⟩
  · rw [advance_particles_workers_map sin state dt k hk,
      advance_particles_workers_map sin state dt 1 (le_refl 1)]
  · rw [advance_particles_positions, List.getElem?_map, hp]
    rfl
  · unfold advance_particles
    simp only [he, List.length_nil, if_true]

/-- C13. For `N ≥ 1` particles and `k ≥ 1` workers, the ranges `[start, end)` of the
loop of `advance_particles` are `k` in number, range `t` has
`chunk = N / k + (t < N % k ? 1 : 0)` elements, the first starts at 0, each starts
where the previous one ends, the last ends at `N` (the final `start`), an earlier
range ends before a later one starts, and every index below `N` lies in exactly
one range; the multi-threaded branch runs `integrate_range` on exactly these
ranges. -/
theorem advance_particles_ranges_partition (N k : Nat) (hN : 1 ≤ N) (hk : 1 ≤ k) :
    (advance_particles_ranges N k).1.length = k ∧
    (∀ t : Nat, t < k → ∃ start : Nat,
      (advance_particles_ranges N k).1[t]? =
        some (start, start + (N / k + if t < N % k then 1 else 0))) ∧
    ((advance_particles_ranges N k).1[0]?).map Prod.fst = some 0 ∧
    (∀ t : Nat, t + 1 < k →
      ((advance_particles_ranges N k).1[t + 1]?).map Prod.fst =
        ((advance_particles_ranges N k).1[t]?).map Prod.snd) ∧
    ((advance_particles_ranges N k).1[k - 1]?).map Prod.snd = some N ∧
    (advance_particles_ranges N k).2 = N ∧
    (∀ (t u : Nat) (a b c d : Nat), t < u →
      (advance_particles_ranges N k).1[t]? = some (a, b) →
      (advance_particles_ranges N k).1[u]? = some (c, d) → a ≤ b ∧ b ≤ c) ∧
    (∀ i : Nat, i < N →
      ∃! t : Nat, ∃ a b : Nat,
        (advance_particles_ranges N k).1[t]? = some (a, b) ∧ a ≤ i ∧ i < b) ∧
    (∀ (sin : F → F) (state : simulation_state F) (dt : F),
      state.particle_positions.length = N →
      advance_particles_workers sin state dt k =
        ((advance_particles_ranges N k).1.foldl
            (fun ps rg => integrate_range sin state dt rg.1 rg.2 ps) state.particle_positions,
          N)) := by
  have _hN := hN
  have hlen := advance_particles_ranges_length N k
  have hget := advance_particles_ranges_getElem? N k
  have htot := chunk_start_total N k hk
  have hsome : ∀ (t a b : Nat), (advance_particles_ranges N k).1[t]? = some (a, b) →
      t < k ∧ a = t * (N / k) + min t (N % k) ∧ b = (t + 1) * (N / k) + min (t + 1) (N % k) := by
    intro t a b h
    have ht : t < k := by
      by_contra hc
      rw [List.getElem?_eq_none (by rw [hlen]; exact not_lt.mp hc)] at h
      exact Option.noConfusion h
    rw [hget t ht] at h
    have h' := Option.some.inj h
    exact ⟨ht, (congrArg Prod.fst h').symm, (congrArg Prod.snd h').symm⟩
  refine ⟨hlen, ?_, ?_, ?_, ?_, ?_, ?_, ?_, ?_⟩
  · intro t ht
    exact ⟨_, by rw [hget t ht, chunk_start_succ]⟩
  · rw [hget 0 (by omega)]
    simp
  · intro t ht
    rw [hget (t + 1) ht, hget t (by omega)]
    rfl
  · rw [hget (k - 1) (by omega), Nat.sub_add_cancel hk]
    simp only [Option.map_some', htot]
  · rw [advance_particles_ranges_eq]
    exact htot
  · intro t u a b c d htu h1 h2
    obtain ⟨_, ha, hb⟩ := hsome t a b h1
    obtain ⟨_, hc, _⟩ := hsome u c d h2
    rw [ha, hb, hc]
    exact ⟨chunk_start_mono _ _ (Nat.le_succ t), chunk_start_mono _ _ (by omega : t + 1 ≤ u)⟩
  · intro i hi
    obtain ⟨t, ht, h1, h2⟩ := chunk_start_find (N / k) (N % k) i k (by rw [htot]; exact hi)
    refine ⟨t, ⟨_, _, hget t ht, h1, h2⟩, ?_⟩
    rintro u ⟨a, b, hu, hai, hib⟩
    obtain ⟨_, ha, hb⟩ := hsome u a b hu
    rw [ha] at hai
    rw [hb] at hib
    by_contra hne
    rcases lt_or_gt_of_ne hne with hlt | hgt
    · have := chunk_start_mono (N / k) (N % k) (by omega : u + 1 ≤ t)
      omega
    · have := chunk_start_mono (N / k) (N % k) (by omega : t + 1 ≤ u)
      omega
  · intro sin state dt hl
    rw [advance_particles_workers_eq_ranges, hl, advance_particles_ranges_eq]
    simp only [htot]

/-- Witness of C13: ten particles and three workers. -/
theorem advance_particles_ranges_partition_witness :
    (1 ≤ 10 ∧ 1 ≤ 3) ∧ (advance_particles_ranges 10 3).1.length = 3 ∧
      (advance_particles_ranges 10 3).2 = 10 :=
  ⟨by decide,
    (advance_particles_ranges_partition (F := ℚ) 10 3 (by decide) (by decide)).1,
    (advance_particles_ranges_partition (F := ℚ) 10 3 (by decide) (by decide)).2.2.2.2.2.1⟩

end PartitionClaims

/-! ## Stepping the trajectory and the ensemble together -/

section Together

variable {F : Type} [LinearOrderedField F]

theorem advance_particles_evaluate_derivative (sin : F → F) (hw : Nat) (s : simulation_state F)
    (dt : F) :
    evaluate_derivative sin (advance_particles sin hw s dt) = evaluate_derivative sin s := by
  unfold advance_particles
  simp only []
  split_ifs <;> rfl

theorem advance_particles_ensemble (sin : F → F) (hw : Nat) (s : simulation_state F) (dt : F) :
    (advance_particles sin hw s dt).particle_phases = s.particle_phases ∧
    (advance_particles sin hw s dt).particle_count = s.particle_count := by
  unfold advance_particles
  simp only []
  split_ifs <;> exact ⟨rfl, rfl⟩

theorem integrate_particle_rk4_congr (sin : F → F) (s s' : simulation_state F)
    (h : evaluate_derivative sin s' = evaluate_derivative sin s) :
    integrate_particle_rk4 sin s' = integrate_particle_rk4 sin s := by
  funext p dt
  unfold integrate_particle_rk4
  rw [h]

theorem step_simulation_body_fields (sin : F → F) (hw : Nat) (h : F) (s : simulation_state F) :
    (step_simulation_body sin hw h s).integrator = (s.integrator.step s.system s.state s.t h).1 ∧
    (step_simulation_body sin hw h s).state = (s.integrator.step s.system s.state s.t h).2 ∧
    (step_simulation_body sin hw h s).t = s.t + h ∧
    (step_simulation_body sin hw h s).system = s.system ∧
    (step_simulation_body sin hw h s).particle_positions =
      s.particle_positions.map (fun p => integrate_particle_rk4 sin s p h) ∧
    (step_simulation_body sin hw h s).particle_phases = s.particle_phases ∧
    (step_simulation_body sin hw h s).particle_count = s.particle_count ∧
    evaluate_derivative sin (step_simulation_body sin hw h s) = evaluate_derivative sin s := by
  unfold step_simulation_body
  simp only [(advance_particles_state sin hw _ h).1, (advance_particles_state sin hw _ h).2.1,
    (advance_particles_state sin hw _ h).2.2, (advance_particles_clock sin hw _ h).2.1,
    (advance_particles_ensemble sin hw _ h).1, (advance_particles_ensemble sin hw _ h).2,
    advance_particles_positions]
  refine ⟨trivial, trivial, trivial, trivial, ?_, trivial, trivial, ?_⟩
  · exact congrArg (fun f => List.map (fun p => f p h) s.particle_positions)
      (integrate_particle_rk4_congr sin s _ rfl)
  · exact (advance_particles_evaluate_derivative sin hw _ h).trans rfl

end Together

section Together2

variable {F : Type} [LinearOrderedField F]

/-- The `n`-fold iterate of the loop body, field by field. -/
theorem step_simulation_body_iterate (sin : F → F) (hw : Nat) (h : F) (s : simulation_state F) :
    ∀ n : Nat,
      (((step_simulation_body sin hw h)^[n] s).integrator,
        ((step_simulation_body sin hw h)^[n] s).state,
        ((step_simulation_body sin hw h)^[n] s).t)
        = (reference_step s.system h)^[n] (s.integrator, s.state, s.t) ∧
      ((step_simulation_body sin hw h)^[n] s).system = s.system ∧
      ((step_simulation_body sin hw h)^[n] s).t = s.t + n * h ∧
      ((step_simulation_body sin hw h)^[n] s).particle_positions =
        s.particle_positions.map (fun p => (fun q => integrate_particle_rk4 sin s q h)^[n] p) ∧
      ((step_simulation_body sin hw h)^[n] s).particle_phases = s.particle_phases ∧
      ((step_simulation_body sin hw h)^[n] s).particle_count = s.particle_count ∧
      evaluate_derivative sin ((step_simulation_body sin hw h)^[n] s)
        = evaluate_derivative sin s := by
  intro n
  induction n with
  | zero =>
    refine ⟨rfl, rfl, ?_, ?_, rfl, rfl, rfl⟩
    · simp
    · simp
  | succ n ih =>
    obtain ⟨h1, h2, h3, h4, h5, h6, h7⟩ := ih
    rw [Function.iterate_succ_apply', Function.iterate_succ_apply']
    generalize (step_simulation_body sin hw h)^[n] s = sn at *
    obtain ⟨b1, b2, b3, b4, b5, b6, b7, b8⟩ := step_simulation_body_fields sin hw h sn
    refine ⟨?_, b4.trans h2, ?_, ?_, b6.trans h5, b7.trans h6, b8.trans h7⟩
    · rw [← h1, b1, b2, b3]
      unfold reference_step
      simp only [h2]
    · rw [b3, h3]
      push_cast
      ring
    · rw [b5, h4, List.map_map, integrate_particle_rk4_congr sin s sn h7]
      apply List.map_congr_left
      intro p _
      simp only [Function.comp_apply, Function.iterate_succ_apply']

end Together2

section TogetherClaims

variable {F : Type} [LinearOrderedField F]

theorem fields_of_accumulator_update (Y X : simulation_state F) (a : F)
    (hs : Y = { X with time_accumulator := a }) :
    Y.integrator = X.integrator ∧ Y.state = X.state ∧ Y.t = X.t ∧
    Y.particle_positions = X.particle_positions ∧ Y.particle_phases = X.particle_phases ∧
    Y.particle_count = X.particle_count := by
  subst hs
  exact ⟨rfl, rfl, rfl, rfl, rfl, rfl⟩

/-- A non-paused call, field by field, in terms of its step count. -/
theorem step_simulation_fields (sin : F → F) (hw : Nat) (s : simulation_state F) (frame_dt : F)
    (hp : s.paused = false) :
    ((step_simulation sin hw s frame_dt).1.integrator,
      (step_simulation sin hw s frame_dt).1.state,
      (step_simulation sin hw s frame_dt).1.t)
      = (reference_step s.system (step_dt s))^[(step_simulation sin hw s frame_dt).2]
          (s.integrator, s.state, s.t) ∧
    (step_simulation sin hw s frame_dt).1.t
      = s.t + ((step_simulation sin hw s frame_dt).2 : F) * step_dt s ∧
    (step_simulation sin hw s frame_dt).1.particle_positions =
      s.particle_positions.map
        (fun p => (fun q => integrate_particle_rk4 sin s q (step_dt s))^[
          (step_simulation sin hw s frame_dt).2] p) ∧
    (step_simulation sin hw s frame_dt).1.particle_phases = s.particle_phases ∧
    (step_simulation sin hw s frame_dt).1.particle_count = s.particle_count := by
  have hs := (step_simulation_clock sin hw s frame_dt hp).2.2.2.2
  generalize (step_simulation sin hw s frame_dt).2 = n at *
  obtain ⟨i1, i2, i3, i4, i5, i6, -⟩ := step_simulation_body_iterate sin hw (step_dt s)
    { s with time_accumulator := min (s.time_accumulator + frame_dt) 2 } n
  obtain ⟨f1, f2, f3, f4, f5, f6⟩ := fields_of_accumulator_update _ _ _ hs
  refine ⟨?_, f3.trans i3, ?_, f5.trans i5, f6.trans i6⟩
  · rw [f1, f2, f3]
    exact i1
  · rw [f4, i4]
    rfl

/-- C14. A non-paused `step_simulation` call that performs `n` steps with
`h = clamp(base_dt, 1e-6, 0.2)` leaves as reference state the `n`-fold iterate of
`IntegratorRK4::step` with `dt = h` (each round stepping from the current time
and then adding `h` to it), as particle positions the `n`-fold iterates of
`integrate_particle_rk4` with `dt = h`, and as time `t + n * h`. -/
theorem step_simulation_advances_together (sin : F → F) (hardware_concurrency : Nat)
    (state : simulation_state F) (frame_dt : F) (hp : state.paused = false) :
    (step_simulation sin hardware_concurrency state frame_dt).1.state
      = ((reference_step state.system (glm_clamp state.base_dt 1e-6 0.2))^[
          (step_simulation sin hardware_concurrency state frame_dt).2]
          (state.integrator, state.state, state.t)).2.1 ∧
    (step_simulation sin hardware_concurrency state frame_dt).1.particle_positions =
      state.particle_positions.map
        (fun p => (fun q => integrate_particle_rk4 sin state q
          (glm_clamp state.base_dt 1e-6 0.2))^[
            (step_simulation sin hardware_concurrency state frame_dt).2] p) ∧
    (step_simulation sin hardware_concurrency state frame_dt).1.t
      = state.t + ((step_simulation sin hardware_concurrency state frame_dt).2 : F)
          * glm_clamp state.base_dt 1e-6 0.2 := by
  obtain ⟨h1, h2, h3, -, -⟩ := step_simulation_fields sin hardware_concurrency state frame_dt hp
  exact ⟨(congrArg (fun p => p.2.1) h1), h3, h2⟩

/-- Witness of C14 at the Lorenz example with `frame_dt = 0.035`. -/
theorem step_simulation_advances_together_witness :
    lorenz_example.paused = false ∧
    (step_simulation (fun _ => 0) 4 lorenz_example (7 / 200)).1.t
      = lorenz_example.t + ((step_simulation (fun _ => 0) 4 lorenz_example (7 / 200)).2 : ℚ)
          * glm_clamp lorenz_example.base_dt 1e-6 0.2 :=
  ⟨rfl, (step_simulation_advances_together (fun _ => 0) 4 lorenz_example (7 / 200) rfl).2.2⟩

/-- C17. Stepping never changes the size of the ensemble or its phases: for every
state, `dt` and `frame_dt`, `advance_particles` and `step_simulation` keep the
length of `particle_positions`, the whole sequence `particle_phases` (its length
and every value) and `particle_count`. -/
theorem stepping_keeps_ensemble (sin : F → F) (hardware_concurrency : Nat)
    (state : simulation_state F) (dt frame_dt : F) :
    ((advance_particles sin hardware_concurrency state dt).particle_positions.length
        = state.particle_positions.length ∧
      (advance_particles sin hardware_concurrency state dt).particle_phases
        = state.particle_phases ∧
      (advance_particles sin hardware_concurrency state dt).particle_phases.length
        = state.particle_phases.length ∧
      (advance_particles sin hardware_concurrency state dt).particle_count
        = state.particle_count) ∧
    ((step_simulation sin hardware_concurrency state frame_dt).1.particle_positions.length
        = state.particle_positions.length ∧
      (step_simulation sin hardware_concurrency state frame_dt).1.particle_phases
        = state.particle_phases ∧
      (step_simulation sin hardware_concurrency state frame_dt).1.particle_phases.length
        = state.particle_phases.length ∧
      (step_simulation sin hardware_concurrency state frame_dt).1.particle_count
        = state.particle_count) := by
  constructor
  · obtain ⟨h1, h2⟩ := advance_particles_ensemble sin hardware_concurrency state dt
    exact ⟨by rw [advance_particles_positions, List.length_map], h1, by rw [h1], h2⟩
  · rcases Bool.eq_false_or_eq_true state.paused with hp | hp
    · rw [step_simulation_of_paused sin hardware_concurrency state frame_dt hp]
      exact ⟨rfl, rfl, rfl, rfl⟩
    · obtain ⟨-, -, h3, h4, h5⟩ :=
        step_simulation_fields sin hardware_concurrency state frame_dt hp
      exact ⟨by rw [h3, List.length_map], h4, by rw [h4], h5⟩

end TogetherClaims

/-! ## Spawning the ensemble -/

section SpawnLemmas

variable {α β : Type}

theorem range_foldl_set_pair (f : Nat → α) (g : Nat → β) (n : Nat) (a : List α) (b : List β) :
    (List.range n).foldl (fun (acc : List α × List β) i => (acc.1.set i (f i), acc.2.set i (g i)))
        (a, b) =
      ((List.range n).foldl (fun v i => v.set i (f i)) a,
        (List.range n).foldl (fun v i => v.set i (g i)) b) := by
  induction n with
  | zero => rfl
  | succ n ih =>
    rw [List.range_succ, List.foldl_append, List.foldl_append, List.foldl_append, ih]
    rfl

theorem range_foldl_assign_length (f : Nat → α) (n : Nat) (a : List α) :
    ((List.range n).foldl (fun v i => v.set i (f i)) a).length = a.length := by
  induction n with
  | zero => rfl
  | succ n ih =>
    rw [List.range_succ, List.foldl_append]
    simp only [List.foldl_cons, List.foldl_nil, List.length_set]
    exact ih

theorem range_foldl_assign_getElem? (f : Nat → α) (n : Nat) (a : List α) (hn : a.length = n) :
    ∀ j : Nat, j < n → ((List.range n).foldl (fun v i => v.set i (f i)) a)[j]? = some (f j) := by
  subst hn
  intro j hj
  have d : α := f 0
  have := range_foldl_set_getElem? (fun i _ => f i) d a.length a j
  rw [if_pos hj, List.getElem?_eq_getElem hj] at this
  exact this

end SpawnLemmas

section SpawnResize

variable {F : Type} [LinearOrderedField F]

theorem vec3_resize_length (v : List (vec3 F)) (n : Nat) : (vec3_resize v n).length = n := by
  unfold vec3_resize
  rw [List.length_append, List.length_take, List.length_replicate]
  omega

end SpawnResize

section SpawnClaims

variable {F : Type} [LinearOrderedField F] [FloorRing F]

/-- The result of `initialize_particle_field` in closed form: with `c` the
corrected count, the count is `c`, both sequences have length `c`, and entry
`i < c` holds the spawn position of round `i` and its phase. -/
theorem initialize_particle_field_spec (m : cmath F) (draws : Nat → F)
    (state : simulation_state F) :
    (initialize_particle_field m draws state).particle_count
      = (if state.particle_count = 0 then 1 else state.particle_count) ∧
    (initialize_particle_field m draws state).particle_positions.length
      = (if state.particle_count = 0 then 1 else state.particle_count) ∧
    (initialize_particle_field m draws state).particle_phases.length
      = (if state.particle_count = 0 then 1 else state.particle_count) ∧
    (∀ i : Nat, i < (if state.particle_count = 0 then 1 else state.particle_count) →
      ∃ p : vec3 F,
        (initialize_particle_field m draws state).particle_positions[i]? = some p ∧
        (initialize_particle_field m draws state).particle_phases[i]?
          = some (compute_spawn_phase m p)) := by
  unfold initialize_particle_field
  simp only [range_foldl_set_pair]
  have hc : (if state.particle_count = 0 then
      ({ state with particle_count := 1 } : simulation_state F) else state).particle_count
      = (if state.particle_count = 0 then 1 else state.particle_count) := by
    split_ifs <;> rfl
  generalize (if state.particle_count = 0 then
      ({ state with particle_count := 1 } : simulation_state F) else state) = s1 at *
  generalize (if state.particle_count = 0 then 1 else state.particle_count) = c at *
  simp only [hc]
  refine ⟨trivial, ?_, ?_, ?_⟩
  · rw [range_foldl_assign_length, vec3_resize_length]
  · rw [range_foldl_assign_length, vector_resize_length]
  · intro i hi
    refine ⟨_, range_foldl_assign_getElem? _ c _ (vec3_resize_length _ _) i hi, ?_⟩
    exact range_foldl_assign_getElem? _ c _ (vector_resize_length _ _) i hi

/-- C15. For every requested `particle_count` and every outcome of the random draws,
after `initialize_particle_field` the position sequence and the phase sequence
both have length `particle_count` when it is at least 1, and length 1 when it
is 0, in which case `particle_count` is set to 1; the two lengths are equal. -/
theorem initialize_particle_field_lengths (m : cmath F) (draws : Nat → F)
    (state : simulation_state F) :
    (1 ≤ state.particle_count →
      (initialize_particle_field m draws state).particle_positions.length
        = state.particle_count ∧
      (initialize_particle_field m draws state).particle_phases.length
        = state.particle_count ∧
      (initialize_particle_field m draws state).particle_count = state.particle_count) ∧
    (state.particle_count = 0 →
      (initialize_particle_field m draws state).particle_positions.length = 1 ∧
      (initialize_particle_field m draws state).particle_phases.length = 1 ∧
      (initialize_particle_field m draws state).particle_count = 1) ∧
    (initialize_particle_field m draws state).particle_positions.length
      = (initialize_particle_field m draws state).particle_phases.length ∧
    (initialize_particle_field m draws state).particle_positions.length
      = (initialize_particle_field m draws state).particle_count := by
  obtain ⟨h1, h2, h3, -⟩ := initialize_particle_field_spec m draws state
  refine ⟨fun hc => ?_, fun hc => ?_, h2.trans h3.symm, h2.trans h1.symm⟩
  · rw [if_neg (by omega)] at h1 h2 h3
    exact ⟨h2, h3, h1⟩
  · rw [if_pos hc] at h1 h2 h3
    exact ⟨h2, h3, h1⟩

/-- C16. For every outcome of the random draws and every index `i`, after
`initialize_particle_field` the stored phase `i` is `compute_spawn_phase` of the
stored position `i`, and every index below the count holds such a pair; so two
entries with the same position have the same phase, whatever the states (system,
parameters, policy), the draws and the indices they come from. -/
theorem initialize_particle_field_phases (m : cmath F) (draws : Nat → F)
    (state : simulation_state F) (i : Nat) :
    (∀ p : vec3 F,
      (initialize_particle_field m draws state).particle_positions[i]? = some p →
      (initialize_particle_field m draws state).particle_phases[i]?
        = some (compute_spawn_phase m p)) ∧
    (i < (initialize_particle_field m draws state).particle_count →
      ∃ p : vec3 F,
        (initialize_particle_field m draws state).particle_positions[i]? = some p ∧
        (initialize_particle_field m draws state).particle_phases[i]?
          = some (compute_spawn_phase m p)) ∧
    (∀ (draws' : Nat → F) (state' : simulation_state F) (j : Nat) (p : vec3 F),
      (initialize_particle_field m draws state).particle_positions[i]? = some p →
      (initialize_particle_field m draws' state').particle_positions[j]? = some p →
      (initialize_particle_field m draws state).particle_phases[i]?
        = (initialize_particle_field m draws' state').particle_phases[j]?) := by
  have key : ∀ (draws : Nat → F) (state : simulation_state F) (i : Nat) (p : vec3 F),
      (initialize_particle_field m draws state).particle_positions[i]? = some p →
      (initialize_particle_field m draws state).particle_phases[i]?
        = some (compute_spawn_phase m p) := by
    intro draws state i p hp
    obtain ⟨-, h2, -, h4⟩ := initialize_particle_field_spec m draws state
    have hi : i < (if state.particle_count = 0 then 1 else state.particle_count) := by
      by_contra hc
      rw [List.getElem?_eq_none (by rw [h2]; exact not_lt.mp hc)] at hp
      exact Option.noConfusion hp
    obtain ⟨q, hq1, hq2⟩ := h4 i hi
    rw [hq1] at hp
    rw [hq2, Option.some.inj hp]
  refine ⟨key draws state i, fun hi => ?_, fun draws' state' j p h1 h2 => ?_⟩
  · obtain ⟨h1, -, -, h4⟩ := initialize_particle_field_spec m draws state
    exact h4 i (by rw [← h1]; exact hi)
  · rw [key draws state i p h1, key draws' state' j p h2]

end SpawnClaims

/-! ## The spawn phase -/

section Phase

variable {F : Type} [LinearOrderedField F] [FloorRing F]

/-- The reduction that ends `compute_spawn_phase`: `fmod` by a positive period, then one
period added to a negative remainder, is the representative in `[0, T)`. -/
theorem fmod_reduce (a T : F) (hT : 0 < T) :
    (if fmod a T < 0 then fmod a T + T else fmod a T) = a - T * (⌊a / T⌋ : Int) ∧
    0 ≤ a - T * (⌊a / T⌋ : Int) ∧ a - T * (⌊a / T⌋ : Int) < T := by
  have hq : a = T * (a / T) := by field_simp
  have h1 : ((⌊a / T⌋ : Int) : F) ≤ a / T := Int.floor_le _
  have h2 : a / T < ((⌊a / T⌋ : Int) : F) + 1 := Int.lt_floor_add_one _
  have h3 : T * ((⌊a / T⌋ : Int) : F) ≤ a := by
    have := mul_le_mul_of_nonneg_left h1 hT.le
    rwa [← hq] at this
  have h4 : a < T * ((⌊a / T⌋ : Int) : F) + T := by
    have := mul_lt_mul_of_pos_left h2 hT
    rw [← hq] at this
    linarith
  refine ⟨?_, by linarith, by linarith⟩
  unfold fmod
  by_cases h0 : 0 ≤ a / T
  · simp only [if_pos h0]
    rw [if_neg (by linarith)]
    ring
  · simp only [if_neg h0]
    have hc1 : (⌈a / T⌉ : Int) ≤ ⌊a / T⌋ + 1 := Int.ceil_le_floor_add_one _
    have hc2 : (⌊a / T⌋ : Int) ≤ ⌈a / T⌉ := Int.floor_le_ceil _
    rcases (by omega : (⌈a / T⌉ : Int) = ⌊a / T⌋ ∨ (⌈a / T⌉ : Int) = ⌊a / T⌋ + 1) with hc | hc
    · have h5 : a / T ≤ ((⌈a / T⌉ : Int) : F) := Int.le_ceil _
      rw [hc] at h5 ⊢
      have h6 : T * (a / T) ≤ T * ((⌊a / T⌋ : Int) : F) := mul_le_mul_of_nonneg_left h5 hT.le
      rw [← hq] at h6
      rw [if_neg (by linarith)]
      ring
    · rw [hc]
      push_cast
      rw [if_pos (by linarith)]
      ring

end Phase

section Phase2

variable {F : Type} [LinearOrderedField F] [FloorRing F]

/-- The value of `compute_spawn_phase` for a positive `two_pi`, in terms of the direction
chosen by its guard. -/
theorem compute_spawn_phase_eq (m : cmath F) (position : vec3 F) (hT : 0 < m.two_pi) :
    compute_spawn_phase m position =
      (m.atan2
          (if (!m.isfinite (glm_length m position)) || decide (glm_length m position < 1e-6)
            then (⟨1, 0, 0⟩ : vec3 F) else position / glm_length m position).y
          (if (!m.isfinite (glm_length m position)) || decide (glm_length m position < 1e-6)
            then (⟨1, 0, 0⟩ : vec3 F) else position / glm_length m position).x
        + m.acos (min (max
          (if (!m.isfinite (glm_length m position)) || decide (glm_length m position < 1e-6)
            then (⟨1, 0, 0⟩ : vec3 F) else position / glm_length m position).z (-1)) 1))
      - m.two_pi *
        (⌊(m.atan2
          (if (!m.isfinite (glm_length m position)) || decide (glm_length m position < 1e-6)
            then (⟨1, 0, 0⟩ : vec3 F) else position / glm_length m position).y
          (if (!m.isfinite (glm_length m position)) || decide (glm_length m position < 1e-6)
            then (⟨1, 0, 0⟩ : vec3 F) else position / glm_length m position).x
        + m.acos (min (max
          (if (!m.isfinite (glm_length m position)) || decide (glm_length m position < 1e-6)
            then (⟨1, 0, 0⟩ : vec3 F) else position / glm_length m position).z (-1)) 1))
          / m.two_pi⌋ : Int) := by
  have e1 : (1.0 : F) = 1 := by norm_num
  have e0 : (0.0 : F) = 0 := by norm_num
  unfold compute_spawn_phase
  simp only [e1, e0, glm_clamp_eq]
  exact (fmod_reduce _ _ hT).1

end Phase2

section PhaseClaims

/-- C18. Over the reals, for every position and whatever functions stand for
`atan2` and `acos`, `compute_spawn_phase` returns a value `p` with
`0 ≤ p < 2π`, namely `atan2(d.y, d.x) + acos(clamp(d.z, -1, 1))` reduced modulo
`2π`, where `d` is the position divided by its length, or `(1, 0, 0)` when the
length is below `1e-6`. -/
theorem compute_spawn_phase_range (m : cmath ℝ) (position : vec3 ℝ) :
    ∃ d : vec3 ℝ,
      d = (if Real.sqrt (glm_dot position position) < 1e-6 then (⟨1, 0, 0⟩ : vec3 ℝ)
            else position / Real.sqrt (glm_dot position position)) ∧
      compute_spawn_phase
          { m with sqrt := Real.sqrt, isfinite := fun _ => true, two_pi := 2 * Real.pi }
          position
        = (m.atan2 d.y d.x + m.acos (min (max d.z (-1)) 1))
          - 2 * Real.pi *
            (⌊(m.atan2 d.y d.x + m.acos (min (max d.z (-1)) 1)) / (2 * Real.pi)⌋ : Int) ∧
      0 ≤ compute_spawn_phase
          { m with sqrt := Real.sqrt, isfinite := fun _ => true, two_pi := 2 * Real.pi }
          position ∧
      compute_spawn_phase
          { m with sqrt := Real.sqrt, isfinite := fun _ => true, two_pi := 2 * Real.pi }
          position < 2 * Real.pi := by
  have hT : (0 : ℝ) < 2 * Real.pi := by positivity
  have h := compute_spawn_phase_eq
    ({ m with sqrt := Real.sqrt, isfinite := fun _ => true, two_pi := 2 * Real.pi } : cmath ℝ)
    position hT
  simp only [glm_length, Bool.not_true, Bool.false_or, decide_eq_true_eq] at h
  refine ⟨_, rfl, h, ?_, ?_⟩
  · rw [h]
    exact (fmod_reduce _ _ hT).2.1
  · rw [h]
    exact (fmod_reduce _ _ hT).2.2

end PhaseClaims

section PhaseClaims2

theorem floor_quarter_turn : (⌊Real.pi / 2 / (2 * Real.pi)⌋ : Int) = 0 := by
  have hpi : Real.pi ≠ 0 := Real.pi_ne_zero
  have : Real.pi / 2 / (2 * Real.pi) = 1 / 4 := by
    field_simp
    ring
  rw [this, Int.floor_eq_iff]
  norm_num

/-- The phase of a direction replaced by `(1, 0, 0)`, and of `(1, 0, 0)` itself, with the
real `sqrt`, `atan2` and `acos`. -/
theorem compute_spawn_phase_real_default (isfinite : ℝ → Bool) (position : vec3 ℝ)
    (h : (isfinite (Real.sqrt (glm_dot position position)) = false ∨
        Real.sqrt (glm_dot position position) < 1e-6) ∨ position = ⟨1, 0, 0⟩) :
    compute_spawn_phase
        ⟨Real.sqrt, fun y x => Complex.arg ⟨x, y⟩, Real.arccos, isfinite, 2 * Real.pi⟩ position
      = Real.pi / 2 := by
  have hT : (0 : ℝ) < 2 * Real.pi := by positivity
  have harg : Complex.arg ⟨1, 0⟩ = 0 := Complex.arg_one
  have hclamp : min (max (0 : ℝ) (-1)) 1 = 0 := by norm_num
  rw [compute_spawn_phase_eq _ _ hT]
  simp only [glm_length]
  have hd : (if (!isfinite (Real.sqrt (glm_dot position position))) ||
        decide (Real.sqrt (glm_dot position position) < 1e-6)
      then (⟨1, 0, 0⟩ : vec3 ℝ) else position / Real.sqrt (glm_dot position position))
      = ⟨1, 0, 0⟩ := by
    rcases h with h | h
    · rw [if_pos]
      rcases h with h | h
      · simp [h]
      · simp [h]
    · subst h
      split_ifs
      · rfl
      · show (⟨1 / _, 0 / _, 0 / _⟩ : vec3 ℝ) = _
        simp [glm_dot]
  rw [hd]
  simp only [harg, hclamp, Real.arccos_zero, zero_add, floor_quarter_turn]
  simp

/-- C20. With the real `sqrt`, `atan2` and `acos`, and whatever `isfinite` answers:
for every position whose length is not finite or is below `1e-6`, in
particular the origin, `compute_spawn_phase` returns the phase of the `+X`
direction, `compute_spawn_phase((1,0,0)) = atan2(0, 1) + acos(0) = π/2`. -/
theorem compute_spawn_phase_degenerate (isfinite : ℝ → Bool) (position : vec3 ℝ)
    (h : isfinite (Real.sqrt (glm_dot position position)) = false ∨
      Real.sqrt (glm_dot position position) < 1e-6) :
    compute_spawn_phase
        ⟨Real.sqrt, fun y x => Complex.arg ⟨x, y⟩, Real.arccos, isfinite, 2 * Real.pi⟩ position
      = compute_spawn_phase
        ⟨Real.sqrt, fun y x => Complex.arg ⟨x, y⟩, Real.arccos, isfinite, 2 * Real.pi⟩
        ⟨1, 0, 0⟩ ∧
    compute_spawn_phase
        ⟨Real.sqrt, fun y x => Complex.arg ⟨x, y⟩, Real.arccos, isfinite, 2 * Real.pi⟩
        ⟨1, 0, 0⟩
      = Complex.arg ⟨1, 0⟩ + Real.arccos 0 ∧
    Complex.arg ⟨1, 0⟩ + Real.arccos 0 = Real.pi / 2 ∧
    compute_spawn_phase
        ⟨Real.sqrt, fun y x => Complex.arg ⟨x, y⟩, Real.arccos, isfinite, 2 * Real.pi⟩
        ⟨0, 0, 0⟩ = Real.pi / 2 := by
  have harg : Complex.arg ⟨1, 0⟩ = 0 := Complex.arg_one
  have hx := compute_spawn_phase_real_default isfinite ⟨1, 0, 0⟩ (Or.inr rfl)
  have hp := compute_spawn_phase_real_default isfinite position (Or.inl h)
  have ho := compute_spawn_phase_real_default isfinite ⟨0, 0, 0⟩
    (Or.inl (Or.inr (by norm_num [glm_dot])))
  have hs : Complex.arg ⟨1, 0⟩ + Real.arccos 0 = Real.pi / 2 := by
    rw [harg, Real.arccos_zero, zero_add]
  exact ⟨hp.trans hx.symm, hx.trans hs.symm, hs, ho⟩

/-- Witness of C20 at the origin. -/
theorem compute_spawn_phase_degenerate_witness :
    Real.sqrt (glm_dot (⟨0, 0, 0⟩ : vec3 ℝ) ⟨0, 0, 0⟩) < 1e-6 ∧
    compute_spawn_phase
        ⟨Real.sqrt, fun y x => Complex.arg ⟨x, y⟩, Real.arccos, fun _ => true, 2 * Real.pi⟩
        ⟨0, 0, 0⟩
      = compute_spawn_phase
        ⟨Real.sqrt, fun y x => Complex.arg ⟨x, y⟩, Real.arccos, fun _ => true, 2 * Real.pi⟩
        ⟨1, 0, 0⟩ :=
  ⟨by norm_num [glm_dot],
    (compute_spawn_phase_degenerate (fun _ => true) ⟨0, 0, 0⟩
      (Or.inr (by norm_num [glm_dot]))).1⟩

end PhaseClaims2

section PhaseScaling

theorem glm_length_scale (p : vec3 ℝ) (s : ℝ) (hs : 0 < s) :
    Real.sqrt (glm_dot (s * p) (s * p)) = s * Real.sqrt (glm_dot p p) := by
  have h : glm_dot (s * p) (s * p) = s * s * glm_dot p p := by
    simp only [glm_dot, vec3_smul_def]
    ring
  rw [h, Real.sqrt_mul (mul_self_nonneg s), Real.sqrt_mul_self hs.le]

/-- C19, as amended. Over the reals, for every position `p` and every scale factor
`s > 0` such that the lengths of `p` and of `s * p` are on the same side of the
guard `1e-6` of `compute_spawn_phase` (both below it or both at least it),
`compute_spawn_phase(s * p) = compute_spawn_phase(p)`, whatever functions stand
for `atan2` and `acos` and whatever the period is. -/
theorem compute_spawn_phase_scaling (m : cmath ℝ) (p : vec3 ℝ) (s : ℝ) (hs : 0 < s)
    (hside : Real.sqrt (glm_dot p p) < 1e-6 ↔ Real.sqrt (glm_dot (s * p) (s * p)) < 1e-6) :
    compute_spawn_phase { m with sqrt := Real.sqrt, isfinite := fun _ => true } (s * p)
      = compute_spawn_phase { m with sqrt := Real.sqrt, isfinite := fun _ => true } p := by
  have hd : (if Real.sqrt (glm_dot (s * p) (s * p)) < 1e-6 then (⟨1.0, 0.0, 0.0⟩ : vec3 ℝ)
        else (s * p) / Real.sqrt (glm_dot (s * p) (s * p)))
      = (if Real.sqrt (glm_dot p p) < 1e-6 then (⟨1.0, 0.0, 0.0⟩ : vec3 ℝ)
        else p / Real.sqrt (glm_dot p p)) := by
    by_cases hc : Real.sqrt (glm_dot p p) < 1e-6
    · rw [if_pos hc, if_pos (hside.mp hc)]
    · rw [if_neg hc, if_neg (fun h => hc (hside.mpr h)), glm_length_scale p s hs]
      show (⟨s * p.x / _, s * p.y / _, s * p.z / _⟩ : vec3 ℝ) = ⟨p.x / _, p.y / _, p.z / _⟩
      rw [mul_div_mul_left _ _ hs.ne', mul_div_mul_left _ _ hs.ne', mul_div_mul_left _ _ hs.ne']
  unfold compute_spawn_phase
  simp only [glm_length, Bool.not_true, Bool.false_or, decide_eq_true_eq, hd]

/-- Witness of the amended C19: `p = (0, 0, 1)` and `s = 2`. -/
theorem compute_spawn_phase_scaling_witness :
    compute_spawn_phase
        ⟨Real.sqrt, fun y x => Complex.arg ⟨x, y⟩, Real.arccos, fun _ => true, 2 * Real.pi⟩
        ((2 : ℝ) * (⟨0, 0, 1⟩ : vec3 ℝ))
      = compute_spawn_phase
        ⟨Real.sqrt, fun y x => Complex.arg ⟨x, y⟩, Real.arccos, fun _ => true, 2 * Real.pi⟩
        ⟨0, 0, 1⟩ :=
  compute_spawn_phase_scaling
    ⟨Real.sqrt, fun y x => Complex.arg ⟨x, y⟩, Real.arccos, fun _ => true, 2 * Real.pi⟩
    ⟨0, 0, 1⟩ 2 (by norm_num)
    (iff_of_false
      (by rw [Real.sqrt_lt' (by norm_num)]; norm_num [glm_dot])
      (by rw [Real.sqrt_lt' (by norm_num)]; norm_num [glm_dot, vec3_smul_def]))

/-- Counterexample to C19 as stated: the position `(0, 0, 1e-7)` is below the guard
and gets the phase `π/2` of the `+X` direction, while `10^7` times it is
`(0, 0, 1)`, whose phase is `atan2(0, 0) + acos(1) = 0`. -/
theorem compute_spawn_phase_scaling_counterexample :
    (0 : ℝ) < 10000000 ∧
    compute_spawn_phase
        ⟨Real.sqrt, fun y x => Complex.arg ⟨x, y⟩, Real.arccos, fun _ => true, 2 * Real.pi⟩
        ((10000000 : ℝ) * (⟨0, 0, 1e-7⟩ : vec3 ℝ))
      ≠ compute_spawn_phase
        ⟨Real.sqrt, fun y x => Complex.arg ⟨x, y⟩, Real.arccos, fun _ => true, 2 * Real.pi⟩
        ⟨0, 0, 1e-7⟩ := by
  refine ⟨by norm_num, ?_⟩
  have hT : (0 : ℝ) < 2 * Real.pi := by positivity
  have hsmall : compute_spawn_phase
      ⟨Real.sqrt, fun y x => Complex.arg ⟨x, y⟩, Real.arccos, fun _ => true, 2 * Real.pi⟩
      ⟨0, 0, 1e-7⟩ = Real.pi / 2 := by
    apply compute_spawn_phase_real_default
    left
    right
    rw [Real.sqrt_lt' (by norm_num)]
    norm_num [glm_dot]
  have hz : (⟨0, 0⟩ : ℂ) = 0 := rfl
  have hbig : compute_spawn_phase
      ⟨Real.sqrt, fun y x => Complex.arg ⟨x, y⟩, Real.arccos, fun _ => true, 2 * Real.pi⟩
      ((10000000 : ℝ) * (⟨0, 0, 1e-7⟩ : vec3 ℝ)) = 0 := by
    have hp : (10000000 : ℝ) * (⟨0, 0, 1e-7⟩ : vec3 ℝ) = ⟨0, 0, 1⟩ := by
      rw [vec3_smul_def]
      norm_num
    rw [hp, compute_spawn_phase_eq _ _ hT]
    have hl : Real.sqrt (glm_dot (⟨0, 0, 1⟩ : vec3 ℝ) ⟨0, 0, 1⟩) = 1 := by
      norm_num [glm_dot]
    simp only [glm_length, hl]
    have hd : (if (!(true : Bool)) || decide ((1 : ℝ) < 1e-6) then (⟨1, 0, 0⟩ : vec3 ℝ)
        else (⟨0, 0, 1⟩ : vec3 ℝ) / (1 : ℝ)) = ⟨0, 0, 1⟩ := by
      rw [if_neg (by norm_num)]
      show (⟨0 / 1, 0 / 1, 1 / 1⟩ : vec3 ℝ) = _
      norm_num
    rw [hd]
    simp [hz]
  rw [hsmall, hbig]
  exact ne_of_lt (by positivity)

end PhaseScaling

/-! ## Splitting a frame -/

section Split

variable {F : Type} [LinearOrderedField F]

theorem advance_particles_switch (sin : F → F) (hw : Nat) (s : simulation_state F) (dt : F) :
    reset_simulation_switch sin (advance_particles sin hw s dt) = reset_simulation_switch sin s := by
  unfold advance_particles
  simp only []
  split_ifs <;> rfl

theorem step_simulation_body_config (sin : F → F) (hw : Nat) (h : F) (s : simulation_state F) :
    (step_simulation_body sin hw h s).paused = s.paused ∧
    (step_simulation_body sin hw h s).base_dt = s.base_dt ∧
    (step_simulation_body sin hw h s).system = s.system ∧
    reset_simulation_switch sin (step_simulation_body sin hw h s)
      = reset_simulation_switch sin s := by
  unfold step_simulation_body
  simp only [(advance_particles_clock sin hw _ h).2.2.1, (advance_particles_clock sin hw _ h).2.2.2,
    (advance_particles_state sin hw _ h).2.2]
  refine ⟨trivial, trivial, trivial, ?_⟩
  exact (advance_particles_switch sin hw _ h).trans rfl

theorem step_simulation_body_iterate_config (sin : F → F) (hw : Nat) (h : F)
    (s : simulation_state F) (n : Nat) :
    ((step_simulation_body sin hw h)^[n] s).paused = s.paused ∧
    ((step_simulation_body sin hw h)^[n] s).base_dt = s.base_dt ∧
    ((step_simulation_body sin hw h)^[n] s).system = s.system ∧
    reset_simulation_switch sin ((step_simulation_body sin hw h)^[n] s)
      = reset_simulation_switch sin s := by
  induction n with
  | zero => exact ⟨rfl, rfl, rfl, rfl⟩
  | succ n ih =>
    rw [Function.iterate_succ_apply']
    generalize (step_simulation_body sin hw h)^[n] s = sn at *
    obtain ⟨b1, b2, b3, b4⟩ := step_simulation_body_config sin hw h sn
    exact ⟨b1.trans ih.1, b2.trans ih.2.1, b3.trans ih.2.2.1, b4.trans ih.2.2.2⟩

theorem config_of_accumulator_update (sin : F → F) (Y X : simulation_state F) (a : F)
    (hs : Y = { X with time_accumulator := a }) :
    Y.paused = X.paused ∧ Y.base_dt = X.base_dt ∧ Y.system = X.system ∧
    reset_simulation_switch sin Y = reset_simulation_switch sin X := by
  subst hs
  exact ⟨rfl, rfl, rfl, rfl⟩

/-- Stepping leaves the pause flag, the step size, the bound field and the current
system with its parameters as they were. -/
theorem step_simulation_config (sin : F → F) (hw : Nat) (s : simulation_state F) (frame_dt : F) :
    (step_simulation sin hw s frame_dt).1.paused = s.paused ∧
    (step_simulation sin hw s frame_dt).1.base_dt = s.base_dt ∧
    (step_simulation sin hw s frame_dt).1.system = s.system ∧
    reset_simulation_switch sin (step_simulation sin hw s frame_dt).1
      = reset_simulation_switch sin s := by
  rcases Bool.eq_false_or_eq_true s.paused with hp | hp
  · rw [step_simulation_of_paused sin hw s frame_dt hp]
    exact ⟨rfl, rfl, rfl, rfl⟩
  · have hs := (step_simulation_clock sin hw s frame_dt hp).2.2.2.2
    generalize (step_simulation sin hw s frame_dt).2 = n at *
    obtain ⟨i1, i2, i3, i4⟩ := step_simulation_body_iterate_config sin hw (step_dt s)
      { s with time_accumulator := min (s.time_accumulator + frame_dt) 2 } n
    obtain ⟨f1, f2, f3, f4⟩ := config_of_accumulator_update sin _ _ _ hs
    exact ⟨f1.trans i1, f2.trans i2, f3.trans i3, f4.trans i4⟩

/-- The clock of a non-paused call whose clamped accumulator `A` is non-negative and below
`4096 * h`: the count `n` satisfies `n * h ≤ A < (n + 1) * h` and the accumulator becomes
`A - n * h`. -/
theorem step_simulation_under_cap (sin : F → F) (hw : Nat) (s : simulation_state F)
    (frame_dt : F) (hp : s.paused = false)
    (hA0 : 0 ≤ min (s.time_accumulator + frame_dt) 2)
    (hA : min (s.time_accumulator + frame_dt) 2 < 4096 * step_dt s) :
    ((step_simulation sin hw s frame_dt).2 : F) * step_dt s
      ≤ min (s.time_accumulator + frame_dt) 2 ∧
    min (s.time_accumulator + frame_dt) 2
      < (((step_simulation sin hw s frame_dt).2 : F) + 1) * step_dt s ∧
    (step_simulation sin hw s frame_dt).1.time_accumulator
      = min (s.time_accumulator + frame_dt) 2
        - ((step_simulation sin hw s frame_dt).2 : F) * step_dt s := by
  obtain ⟨hle, hall, hlt, -, -⟩ := step_simulation_clock sin hw s frame_dt hp
  generalize (step_simulation sin hw s frame_dt).2 = n at *
  have hmax : max_iterations = 4096 := rfl
  have hn : n < max_iterations := by
    by_contra hc
    have h4096 : n = 4096 := by omega
    have h1 := hall 4095 (by omega)
    have e : ((4095 : Nat) : F) + 1 = 4096 := by norm_num
    rw [e] at h1
    linarith
  obtain ⟨h1, h2⟩ := hlt hn
  refine ⟨?_, h1, h2⟩
  cases n with
  | zero => simpa using hA0
  | succ k =>
    have := hall k (by omega)
    push_cast
    linarith

theorem count_unique (h T : F) (hh : 0 < h) (n k : Nat)
    (h1 : (n : F) * h ≤ T) (h2 : T < ((n : F) + 1) * h)
    (h3 : (k : F) * h ≤ T) (h4 : T < ((k : F) + 1) * h) : n = k := by
  by_contra hne
  rcases lt_or_gt_of_ne hne with hlt | hgt
  · have hc : ((n : F) + 1) ≤ (k : F) := by exact_mod_cast hlt
    have := mul_le_mul_of_nonneg_right hc hh.le
    linarith
  · have hc : ((k : F) + 1) ≤ (n : F) := by exact_mod_cast hgt
    have := mul_le_mul_of_nonneg_right hc hh.le
    linarith

end Split

section SplitClaim

variable {F : Type} [LinearOrderedField F]

/-- C30. The step count does not depend on how the time is split into frames: for an
accumulator `a ≥ 0`, frame times `d1, d2 ≥ 0` and the step `h` of a fixed
`base_dt`, if `a + d1 + d2 ≤ 2.0` and `⌊(a + d1 + d2) / h⌋ < 4096`, then two
non-paused calls with `frame_dt = d1` and then `d2` perform together as many
steps as one call with `frame_dt = d1 + d2`, and leave the same accumulator. -/
theorem step_simulation_split_frames [FloorSemiring F] (sin : F → F)
    (hardware_concurrency : Nat) (state : simulation_state F) (d1 d2 : F)
    (hp : state.paused = false) (ha : 0 ≤ state.time_accumulator) (h1 : 0 ≤ d1) (h2 : 0 ≤ d2)
    (hsum : state.time_accumulator + d1 + d2 ≤ 2)
    (hcap : ⌊(state.time_accumulator + d1 + d2) / glm_clamp state.base_dt 1e-6 0.2⌋₊ < 4096) :
    (step_simulation sin hardware_concurrency state d1).2
        + (step_simulation sin hardware_concurrency
            (step_simulation sin hardware_concurrency state d1).1 d2).2
      = (step_simulation sin hardware_concurrency state (d1 + d2)).2 ∧
    (step_simulation sin hardware_concurrency
        (step_simulation sin hardware_concurrency state d1).1 d2).1.time_accumulator
      = (step_simulation sin hardware_concurrency state (d1 + d2)).1.time_accumulator := by
  have hpos := step_dt_pos state
  have hT : state.time_accumulator + d1 + d2 < 4096 * step_dt state := by
    have := (Nat.floor_lt (div_nonneg (by linarith) hpos.le)).mp hcap
    rw [div_lt_iff₀ hpos] at this
    exact_mod_cast this
  -- first call
  have hA1 : min (state.time_accumulator + d1) 2 = state.time_accumulator + d1 :=
    min_eq_left (by linarith)
  obtain ⟨a1, a2, a3⟩ := step_simulation_under_cap sin hardware_concurrency state d1 hp
    (by rw [hA1]; linarith) (by rw [hA1]; linarith)
  rw [hA1] at a1 a2 a3
  obtain ⟨c1, c2, -, -⟩ := step_simulation_config sin hardware_concurrency state d1
  have hstep : step_dt (step_simulation sin hardware_concurrency state d1).1 = step_dt state := by
    unfold step_dt
    rw [c2]
  generalize (step_simulation sin hardware_concurrency state d1).2 = n1 at *
  generalize (step_simulation sin hardware_concurrency state d1).1 = s1 at *
  -- second call
  have hn1 : 0 ≤ (n1 : F) * step_dt state := mul_nonneg (Nat.cast_nonneg n1) hpos.le
  have hA2 : min (s1.time_accumulator + d2) 2 = s1.time_accumulator + d2 :=
    min_eq_left (by rw [a3]; linarith)
  obtain ⟨b1, b2, b3⟩ := step_simulation_under_cap sin hardware_concurrency s1 d2
    (c1.trans hp) (by rw [hA2, a3]; linarith) (by rw [hA2, a3, hstep]; linarith)
  rw [hA2, hstep, a3] at b1 b2 b3
  generalize (step_simulation sin hardware_concurrency s1 d2).2 = n2 at *
  -- single call
  have hA : min (state.time_accumulator + (d1 + d2)) 2 = state.time_accumulator + (d1 + d2) :=
    min_eq_left (by linarith)
  obtain ⟨e1, e2, e3⟩ := step_simulation_under_cap sin hardware_concurrency state (d1 + d2) hp
    (by rw [hA]; linarith) (by rw [hA]; linarith)
  rw [hA] at e1 e2 e3
  generalize (step_simulation sin hardware_concurrency state (d1 + d2)).2 = n at *
  have hcount : n1 + n2 = n := by
    apply count_unique (step_dt state) (state.time_accumulator + d1 + d2) hpos
    · push_cast
      linarith
    · push_cast
      linarith
    · linarith
    · linarith
  refine ⟨hcount, ?_⟩
  rw [b3, e3, ← hcount]
  push_cast
  ring

/-- Witness of C30 at the Lorenz example (`base_dt = 0.01`) with `d1 = 0.015` and
`d2 = 0.02`. -/
theorem step_simulation_split_frames_witness :
    (step_simulation (fun _ => 0) 4 lorenz_example (3 / 200)).2
        + (step_simulation (fun _ => 0) 4
            (step_simulation (fun _ => 0) 4 lorenz_example (3 / 200)).1 (1 / 50)).2
      = (step_simulation (fun _ => 0) 4 lorenz_example (3 / 200 + 1 / 50)).2 :=
  (step_simulation_split_frames (fun _ => 0) 4 lorenz_example (3 / 200) (1 / 50) rfl
    (by norm_num [lorenz_example]) (by norm_num) (by norm_num)
    (by norm_num [lorenz_example])
    (by
      have h : (lorenz_example.time_accumulator + 3 / 200 + 1 / 50)
          / glm_clamp lorenz_example.base_dt 1e-6 0.2 = 7 / 2 := by
        norm_num [lorenz_example, glm_clamp, glm_min, glm_max]
      rw [h, Nat.floor_lt (by norm_num)]
      norm_num)).1

end SplitClaim

/-! ## The spawn phase of a direction -/

section Direction

/-- Two positions of length at least `1e-6` with the same unit direction have the same
phase. -/
theorem compute_spawn_phase_same_direction (m : cmath ℝ) (p q : vec3 ℝ)
    (hp : 1e-6 ≤ Real.sqrt (glm_dot p p)) (hq : 1e-6 ≤ Real.sqrt (glm_dot q q))
    (hd : q / Real.sqrt (glm_dot q q) = p / Real.sqrt (glm_dot p p)) :
    compute_spawn_phase { m with sqrt := Real.sqrt, isfinite := fun _ => true } q
      = compute_spawn_phase { m with sqrt := Real.sqrt, isfinite := fun _ => true } p := by
  unfold compute_spawn_phase
  simp only [glm_length, Bool.not_true, Bool.false_or, decide_eq_true_eq,
    if_neg (not_lt.mpr hp), if_neg (not_lt.mpr hq), hd]

theorem direction_scale (p : vec3 ℝ) (s : ℝ) (hs : 0 < s) :
    (s * p) / Real.sqrt (glm_dot (s * p) (s * p)) = p / Real.sqrt (glm_dot p p) := by
  rw [glm_length_scale p s hs]
  show (⟨s * p.x / _, s * p.y / _, s * p.z / _⟩ : vec3 ℝ) = ⟨p.x / _, p.y / _, p.z / _⟩
  rw [mul_div_mul_left _ _ hs.ne', mul_div_mul_left _ _ hs.ne', mul_div_mul_left _ _ hs.ne']

/-- C26. Over the reals, for every position `p` with `|p| ≥ 1e-6` and every `s > 0`
with `|s * p| ≥ 1e-6`, `compute_spawn_phase(s * p) = compute_spawn_phase(p)`; more
generally every position `q` with `|q| ≥ 1e-6` and the direction `q / |q| = p / |p|`
has the phase of `p`, whatever functions stand for `atan2` and `acos` and
whatever the period is. -/
theorem compute_spawn_phase_direction (m : cmath ℝ) (p : vec3 ℝ) (s : ℝ) (hs : 0 < s)
    (hp : 1e-6 ≤ Real.sqrt (glm_dot p p))
    (hsp : 1e-6 ≤ Real.sqrt (glm_dot (s * p) (s * p))) :
    compute_spawn_phase { m with sqrt := Real.sqrt, isfinite := fun _ => true } (s * p)
      = compute_spawn_phase { m with sqrt := Real.sqrt, isfinite := fun _ => true } p ∧
    (∀ q : vec3 ℝ, 1e-6 ≤ Real.sqrt (glm_dot q q) →
      q / Real.sqrt (glm_dot q q) = p / Real.sqrt (glm_dot p p) →
      compute_spawn_phase { m with sqrt := Real.sqrt, isfinite := fun _ => true } q
        = compute_spawn_phase { m with sqrt := Real.sqrt, isfinite := fun _ => true } p) :=
  ⟨compute_spawn_phase_same_direction m p (s * p) hp hsp (direction_scale p s hs),
    fun q hq hd => compute_spawn_phase_same_direction m p q hp hq hd⟩

/-- Witness of C26: `p = (0, 3, 4)` of length 5 and `s = 2`. -/
theorem compute_spawn_phase_direction_witness :
    compute_spawn_phase
        ⟨Real.sqrt, fun y x => Complex.arg ⟨x, y⟩, Real.arccos, fun _ => true, 2 * Real.pi⟩
        ((2 : ℝ) * (⟨0, 3, 4⟩ : vec3 ℝ))
      = compute_spawn_phase
        ⟨Real.sqrt, fun y x => Complex.arg ⟨x, y⟩, Real.arccos, fun _ => true, 2 * Real.pi⟩
        ⟨0, 3, 4⟩ :=
  (compute_spawn_phase_direction
    ⟨Real.sqrt, fun y x => Complex.arg ⟨x, y⟩, Real.arccos, fun _ => true, 2 * Real.pi⟩
    ⟨0, 3, 4⟩ 2 (by norm_num)
    (by rw [Real.le_sqrt' (by norm_num)]; norm_num [glm_dot])
    (by rw [Real.le_sqrt' (by norm_num)]; norm_num [glm_dot, vec3_smul_def])).1

end Direction

/-! ## `reset_simulation` -/

section Reset

variable {F : Type} [LinearOrderedField F] [FloorRing F]

/-- The fields that `initialize_particle_field` leaves alone. -/
theorem initialize_particle_field_frame (sin : F → F) (m : cmath F) (draws : Nat → F)
    (s : simulation_state F) :
    (initialize_particle_field m draws s).t = s.t ∧
    (initialize_particle_field m draws s).time_accumulator = s.time_accumulator ∧
    (initialize_particle_field m draws s).integrator = s.integrator ∧
    (initialize_particle_field m draws s).system = s.system ∧
    (initialize_particle_field m draws s).state = s.state ∧
    (initialize_particle_field m draws s).current_system = s.current_system ∧
    (initialize_particle_field m draws s).paused = s.paused ∧
    (initialize_particle_field m draws s).base_dt = s.base_dt ∧
    reset_simulation_switch sin (initialize_particle_field m draws s)
      = reset_simulation_switch sin s := by
  unfold initialize_particle_field
  simp only []
  split_ifs <;> exact ⟨rfl, rfl, rfl, rfl, rfl, rfl, rfl, rfl, rfl⟩

end Reset

/-! ## The spawn positions -/

section SpawnPositions

variable {F : Type} [LinearOrderedField F]

theorem vec3_mul_def (a : vec3 F) (c : F) : a * c = (⟨a.x * c, a.y * c, a.z * c⟩ : vec3 F) := rfl

theorem spawn_position_congr (m : cmath F) (s s' : simulation_state F)
    (h1 : s'.particle_spawn_from_origin = s.particle_spawn_from_origin)
    (h2 : s'.particle_origin_jitter = s.particle_origin_jitter)
    (h3 : s'.particle_spawn_radius = s.particle_spawn_radius) :
    spawn_position m s' = spawn_position m s := by
  funext d0 d1 d2 d3
  unfold spawn_position
  rw [h1, h2, h3]

/-- Entry `i` of the seeded ensemble is the spawn position of round `i`. -/
theorem initialize_particle_field_position [FloorRing F] (m : cmath F) (draws : Nat → F)
    (state : simulation_state F) (i : Nat)
    (hi : i < (initialize_particle_field m draws state).particle_count) :
    (initialize_particle_field m draws state).particle_positions[i]? =
      some (spawn_position m state (draws (4 * i)) (draws (4 * i + 1)) (draws (4 * i + 2))
        (draws (4 * i + 3))) := by
  have hcount := (initialize_particle_field_spec m draws state).1
  rw [hcount] at hi
  unfold initialize_particle_field
  simp only [range_foldl_set_pair]
  have hc : (if state.particle_count = 0 then
      ({ state with particle_count := 1 } : simulation_state F) else state).particle_count
      = (if state.particle_count = 0 then 1 else state.particle_count) := by
    split_ifs <;> rfl
  simp only [hc]
  rw [range_foldl_assign_getElem? _ _ _ (vec3_resize_length _ _) i hi]
  refine congrArg some (congrFun (congrFun (congrFun (congrFun
    (spawn_position_congr m state _ ?_ ?_ ?_) _) _) _) _) <;>
  · simp only []
    split_ifs <;> rfl

end SpawnPositions

section SpawnReal

theorem glm_dot_self_nonneg (v : vec3 ℝ) : 0 ≤ glm_dot v v := by
  unfold glm_dot
  nlinarith [mul_self_nonneg v.x, mul_self_nonneg v.y, mul_self_nonneg v.z]

theorem glm_dot_mul (v : vec3 ℝ) (c : ℝ) : glm_dot (v * c) (v * c) = c * c * glm_dot v v := by
  simp only [glm_dot, vec3_mul_def]
  ring

theorem glm_normalize_unit (m : cmath ℝ) (v : vec3 ℝ) (hv : 0 < glm_dot v v) :
    glm_dot (glm_normalize { m with sqrt := Real.sqrt } v)
      (glm_normalize { m with sqrt := Real.sqrt } v) = 1 := by
  unfold glm_normalize
  rw [glm_dot_mul]
  have hs : 0 < Real.sqrt (glm_dot v v) := Real.sqrt_pos.mpr hv
  have h2 : Real.sqrt (glm_dot v v) * Real.sqrt (glm_dot v v) = glm_dot v v :=
    Real.mul_self_sqrt hv.le
  rw [show 1 / Real.sqrt (glm_dot v v) * (1 / Real.sqrt (glm_dot v v)) * glm_dot v v
      = glm_dot v v / (Real.sqrt (glm_dot v v) * Real.sqrt (glm_dot v v)) by field_simp,
    h2, div_self hv.ne']

theorem glm_length_mul_unit (d : vec3 ℝ) (r : ℝ) (hd : glm_dot d d = 1) (hr : 0 ≤ r) :
    Real.sqrt (glm_dot (d * r) (d * r)) = r := by
  rw [glm_dot_mul, hd, mul_one, Real.sqrt_mul_self hr]

theorem glm_normalize_x_axis (m : cmath ℝ) :
    glm_normalize { m with sqrt := Real.sqrt } (⟨1, 0, 0⟩ : vec3 ℝ) = ⟨1, 0, 0⟩ := by
  unfold glm_normalize
  have h : glm_dot (⟨1, 0, 0⟩ : vec3 ℝ) ⟨1, 0, 0⟩ = 1 := by norm_num [glm_dot]
  rw [h, vec3_mul_def]
  norm_num

/-- The spawn position of one round over the reals: a unit direction times a radius in the
range of the policy. -/
theorem spawn_position_real (m : cmath ℝ) (state : simulation_state ℝ) (d0 d1 d2 d3 : ℝ) :
    glm_dot
        (glm_normalize { m with sqrt := Real.sqrt }
          (if glm_dot (⟨d0, d1, d2⟩ : vec3 ℝ) ⟨d0, d1, d2⟩ < 1e-6 then (⟨1, 0, 0⟩ : vec3 ℝ)
            else ⟨d0, d1, d2⟩))
        (glm_normalize { m with sqrt := Real.sqrt }
          (if glm_dot (⟨d0, d1, d2⟩ : vec3 ℝ) ⟨d0, d1, d2⟩ < 1e-6 then (⟨1, 0, 0⟩ : vec3 ℝ)
            else ⟨d0, d1, d2⟩)) = 1 ∧
    (state.particle_spawn_from_origin = true →
      spawn_position { m with sqrt := Real.sqrt } state d0 d1 d2 d3 =
        glm_normalize { m with sqrt := Real.sqrt }
          (if glm_dot (⟨d0, d1, d2⟩ : vec3 ℝ) ⟨d0, d1, d2⟩ < 1e-6 then (⟨1, 0, 0⟩ : vec3 ℝ)
            else ⟨d0, d1, d2⟩)
          * min (max (|d3| * max state.particle_origin_jitter 1e-4) 1e-5)
              (max state.particle_origin_jitter 1e-4 * 2) ∧
      Real.sqrt (glm_dot (spawn_position { m with sqrt := Real.sqrt } state d0 d1 d2 d3)
          (spawn_position { m with sqrt := Real.sqrt } state d0 d1 d2 d3))
        = min (max (|d3| * max state.particle_origin_jitter 1e-4) 1e-5)
            (max state.particle_origin_jitter 1e-4 * 2)) ∧
    (state.particle_spawn_from_origin = false → 0 ≤ state.particle_spawn_radius →
      spawn_position { m with sqrt := Real.sqrt } state d0 d1 d2 d3 =
        glm_normalize { m with sqrt := Real.sqrt }
          (if glm_dot (⟨d0, d1, d2⟩ : vec3 ℝ) ⟨d0, d1, d2⟩ < 1e-6 then (⟨1, 0, 0⟩ : vec3 ℝ)
            else ⟨d0, d1, d2⟩)
          * ((|d3| * 0.5 + 0.5) * state.particle_spawn_radius) ∧
      Real.sqrt (glm_dot (spawn_position { m with sqrt := Real.sqrt } state d0 d1 d2 d3)
          (spawn_position { m with sqrt := Real.sqrt } state d0 d1 d2 d3))
        = (|d3| * 0.5 + 0.5) * state.particle_spawn_radius) := by
  have hunit : glm_dot
      (glm_normalize { m with sqrt := Real.sqrt }
        (if glm_dot (⟨d0, d1, d2⟩ : vec3 ℝ) ⟨d0, d1, d2⟩ < 1e-6 then (⟨1, 0, 0⟩ : vec3 ℝ)
          else ⟨d0, d1, d2⟩))
      (glm_normalize { m with sqrt := Real.sqrt }
        (if glm_dot (⟨d0, d1, d2⟩ : vec3 ℝ) ⟨d0, d1, d2⟩ < 1e-6 then (⟨1, 0, 0⟩ : vec3 ℝ)
          else ⟨d0, d1, d2⟩)) = 1 := by
    apply glm_normalize_unit
    split_ifs with hc
    · norm_num [glm_dot]
    · exact lt_of_lt_of_le (by norm_num) (not_lt.mp hc)
  have e1 : (1.0 : ℝ) = 1 := by norm_num
  have e0 : (0.0 : ℝ) = 0 := by norm_num
  have e2 : (2.0 : ℝ) = 2 := by norm_num
  refine ⟨hunit, fun ho => ?_, fun ho hR => ?_⟩
  · have hpos : spawn_position { m with sqrt := Real.sqrt } state d0 d1 d2 d3 =
        glm_normalize { m with sqrt := Real.sqrt }
          (if glm_dot (⟨d0, d1, d2⟩ : vec3 ℝ) ⟨d0, d1, d2⟩ < 1e-6 then (⟨1, 0, 0⟩ : vec3 ℝ)
            else ⟨d0, d1, d2⟩)
          * min (max (|d3| * max state.particle_origin_jitter 1e-4) 1e-5)
              (max state.particle_origin_jitter 1e-4 * 2) := by
      unfold spawn_position
      simp only [ho, if_true, e1, e0, e2, glm_clamp_eq, glm_max_eq]
    refine ⟨hpos, ?_⟩
    rw [hpos]
    apply glm_length_mul_unit _ _ hunit
    have hj : (1e-4 : ℝ) ≤ max state.particle_origin_jitter 1e-4 := le_max_right _ _
    have hJ : (0 : ℝ) ≤ max state.particle_origin_jitter 1e-4 := le_trans (by norm_num) hj
    exact le_min (le_trans (by norm_num) (le_max_right _ _)) (by linarith)
  · have hpos : spawn_position { m with sqrt := Real.sqrt } state d0 d1 d2 d3 =
        glm_normalize { m with sqrt := Real.sqrt }
          (if glm_dot (⟨d0, d1, d2⟩ : vec3 ℝ) ⟨d0, d1, d2⟩ < 1e-6 then (⟨1, 0, 0⟩ : vec3 ℝ)
            else ⟨d0, d1, d2⟩)
          * ((|d3| * 0.5 + 0.5) * state.particle_spawn_radius) := by
      unfold spawn_position
      simp only [ho, Bool.false_eq_true, if_false, e1, e0, vec3_mul_def]
      congr 1 <;> ring
    refine ⟨hpos, ?_⟩
    rw [hpos]
    apply glm_length_mul_unit _ _ hunit
    have : 0 ≤ |d3| := abs_nonneg d3
    positivity

end SpawnReal

section SpawnPositionsClaim

/-- C21. Over the reals, for every outcome of the random draws, every position `p`
stored by `initialize_particle_field` is `d * radius` for a unit vector `d`, the
normalised drawn vector, which is `(1, 0, 0)` when the drawn vector has squared
length below `1e-6`; under the spawn-from-origin policy
`1e-5 ≤ |p| ≤ 2 * jitter_scale` with `jitter_scale = max(particle_origin_jitter, 1e-4)`;
under the shell policy with `particle_spawn_radius ≥ 0`,
`|p| = (|g| * 0.5 + 0.5) * particle_spawn_radius` for the drawn normal `g`, hence
`|p| ≥ 0.5 * particle_spawn_radius`. -/
theorem spawn_positions_radius (m : cmath ℝ) (draws : Nat → ℝ) (state : simulation_state ℝ)
    (i : Nat)
    (hi : i < (initialize_particle_field { m with sqrt := Real.sqrt } draws state).particle_count) :
    ∃ p d : vec3 ℝ,
      (initialize_particle_field { m with sqrt := Real.sqrt } draws state).particle_positions[i]?
        = some p ∧
      d = glm_normalize { m with sqrt := Real.sqrt }
        (if glm_dot (⟨draws (4 * i), draws (4 * i + 1), draws (4 * i + 2)⟩ : vec3 ℝ)
            ⟨draws (4 * i), draws (4 * i + 1), draws (4 * i + 2)⟩ < 1e-6
          then (⟨1, 0, 0⟩ : vec3 ℝ)
          else ⟨draws (4 * i), draws (4 * i + 1), draws (4 * i + 2)⟩) ∧
      Real.sqrt (glm_dot d d) = 1 ∧
      (glm_dot (⟨draws (4 * i), draws (4 * i + 1), draws (4 * i + 2)⟩ : vec3 ℝ)
          ⟨draws (4 * i), draws (4 * i + 1), draws (4 * i + 2)⟩ < 1e-6 → d = ⟨1, 0, 0⟩) ∧
      (state.particle_spawn_from_origin = true →
        p = d * Real.sqrt (glm_dot p p) ∧
        1e-5 ≤ Real.sqrt (glm_dot p p) ∧
        Real.sqrt (glm_dot p p) ≤ 2 * max state.particle_origin_jitter 1e-4) ∧
      (state.particle_spawn_from_origin = false → 0 ≤ state.particle_spawn_radius →
        p = d * Real.sqrt (glm_dot p p) ∧
        Real.sqrt (glm_dot p p)
          = (|draws (4 * i + 3)| * 0.5 + 0.5) * state.particle_spawn_radius ∧
        0.5 * state.particle_spawn_radius ≤ Real.sqrt (glm_dot p p)) := by
  obtain ⟨hunit, horigin, hshell⟩ := spawn_position_real m state (draws (4 * i))
    (draws (4 * i + 1)) (draws (4 * i + 2)) (draws (4 * i + 3))
  refine ⟨_, _, initialize_particle_field_position _ draws state i hi, rfl,
    by rw [hunit, Real.sqrt_one], fun hc => ?_, fun ho => ?_, fun ho hR => ?_⟩
  · rw [if_pos hc]
    exact glm_normalize_x_axis m
  · obtain ⟨h1, h2⟩ := horigin ho
    rw [h2]
    refine ⟨h1, ?_⟩
    have hj : (1e-4 : ℝ) ≤ max state.particle_origin_jitter 1e-4 := le_max_right _ _
    generalize max state.particle_origin_jitter 1e-4 = J at *
    have h4 : (1e-4 : ℝ) = 1 / 10000 := by norm_num
    have h5 : (1e-5 : ℝ) = 1 / 100000 := by norm_num
    rw [h4] at hj
    refine ⟨le_min (le_max_right _ _) (by rw [h5]; linarith), ?_⟩
    exact le_trans (min_le_right _ _) (by linarith)
  · obtain ⟨h1, h2⟩ := hshell ho hR
    rw [h2]
    refine ⟨h1, rfl, ?_⟩
    have : 0 ≤ |draws (4 * i + 3)| := abs_nonneg _
    nlinarith

/-- Witness of C21: the first particle of an ensemble seeded from the default state of the
Lorenz system with all draws equal to 1. -/
theorem spawn_positions_radius_witness :
    ∃ p : vec3 ℝ,
      (initialize_particle_field
          ⟨Real.sqrt, fun y x => Complex.arg ⟨x, y⟩, Real.arccos, fun _ => true, 2 * Real.pi⟩
          (fun _ => 1) { system := make_lorenz_system {} }).particle_positions[0]? = some p ∧
      Real.sqrt (glm_dot p p) = 3 / 2 :=
  let ⟨p, _, h1, _, _, _, _, h6⟩ := spawn_positions_radius
    ⟨Real.sqrt, fun y x => Complex.arg ⟨x, y⟩, Real.arccos, fun _ => true, 2 * Real.pi⟩
    (fun _ => 1) { system := make_lorenz_system {} } 0
    (by rw [(initialize_particle_field_spec _ _ _).1]; norm_num)
  ⟨p, h1, by rw [(h6 rfl (by norm_num)).2.1]; norm_num⟩

end SpawnPositionsClaim

/-! ## Bounds of the ensemble -/

section BoundsLemmas

variable {α : Type}

/-- Each component of the folded pair of bounds is the fold of that component alone. -/
theorem bounds_fold_components (lt : α → α → Bool) (positions : List (vec3 α)) :
    ∀ acc : vec3 α × vec3 α,
      ((positions.foldl
          (fun (acc : vec3 α × vec3 α) position =>
            (vec3_min lt acc.1 position, vec3_max lt acc.2 position)) acc).1.x
        = (positions.map vec3.x).foldl (fun m v => if lt v m then v else m) acc.1.x ∧
       (positions.foldl
          (fun (acc : vec3 α × vec3 α) position =>
            (vec3_min lt acc.1 position, vec3_max lt acc.2 position)) acc).1.y
        = (positions.map vec3.y).foldl (fun m v => if lt v m then v else m) acc.1.y ∧
       (positions.foldl
          (fun (acc : vec3 α × vec3 α) position =>
            (vec3_min lt acc.1 position, vec3_max lt acc.2 position)) acc).1.z
        = (positions.map vec3.z).foldl (fun m v => if lt v m then v else m) acc.1.z) ∧
      ((positions.foldl
          (fun (acc : vec3 α × vec3 α) position =>
            (vec3_min lt acc.1 position, vec3_max lt acc.2 position)) acc).2.x
        = (positions.map vec3.x).foldl (fun m v => if lt m v then v else m) acc.2.x ∧
       (positions.foldl
          (fun (acc : vec3 α × vec3 α) position =>
            (vec3_min lt acc.1 position, vec3_max lt acc.2 position)) acc).2.y
        = (positions.map vec3.y).foldl (fun m v => if lt m v then v else m) acc.2.y ∧
       (positions.foldl
          (fun (acc : vec3 α × vec3 α) position =>
            (vec3_min lt acc.1 position, vec3_max lt acc.2 position)) acc).2.z
        = (positions.map vec3.z).foldl (fun m v => if lt m v then v else m) acc.2.z) := by
  induction positions with
  | nil =>
    intro acc
    exact ⟨⟨rfl, rfl, rfl⟩, rfl, rfl, rfl⟩
  | cons p ps ih =>
    intro acc
    simp only [List.foldl_cons, List.map_cons]
    exact ih _

end BoundsLemmas

section BoundsOrdered

variable {F : Type} [LinearOrder F]

theorem fold_min_spec (vs : List F) :
    ∀ m0 : F,
      vs.foldl (fun m v => if decide (v < m) then v else m) m0 ≤ m0 ∧
      (∀ v ∈ vs, vs.foldl (fun m v => if decide (v < m) then v else m) m0 ≤ v) ∧
      (vs.foldl (fun m v => if decide (v < m) then v else m) m0 = m0 ∨
        vs.foldl (fun m v => if decide (v < m) then v else m) m0 ∈ vs) := by
  induction vs with
  | nil =>
    intro m0
    simp
  | cons w ws ih =>
    intro m0
    simp only [List.foldl_cons]
    obtain ⟨h1, h2, h3⟩ := ih (if decide (w < m0) then w else m0)
    have hle : (if decide (w < m0) then w else m0) ≤ m0 ∧
        (if decide (w < m0) then w else m0) ≤ w := by
      split_ifs with hc
      · exact ⟨(of_decide_eq_true hc).le, le_refl _⟩
      · exact ⟨le_refl _, not_lt.mp (fun h => hc (decide_eq_true h))⟩
    refine ⟨h1.trans hle.1, ?_, ?_⟩
    · intro v hv
      rcases List.mem_cons.mp hv with rfl | hv
      · exact h1.trans hle.2
      · exact h2 v hv
    · rcases h3 with h3 | h3
      · rw [h3]
        split_ifs
        · exact Or.inr (List.mem_cons_self _ _)
        · exact Or.inl rfl
      · exact Or.inr (List.mem_cons_of_mem _ h3)

theorem fold_max_spec (vs : List F) :
    ∀ m0 : F,
      m0 ≤ vs.foldl (fun m v => if decide (m < v) then v else m) m0 ∧
      (∀ v ∈ vs, v ≤ vs.foldl (fun m v => if decide (m < v) then v else m) m0) ∧
      (vs.foldl (fun m v => if decide (m < v) then v else m) m0 = m0 ∨
        vs.foldl (fun m v => if decide (m < v) then v else m) m0 ∈ vs) := by
  induction vs with
  | nil =>
    intro m0
    simp
  | cons w ws ih =>
    intro m0
    simp only [List.foldl_cons]
    obtain ⟨h1, h2, h3⟩ := ih (if decide (m0 < w) then w else m0)
    have hle : m0 ≤ (if decide (m0 < w) then w else m0) ∧
        w ≤ (if decide (m0 < w) then w else m0) := by
      split_ifs with hc
      · exact ⟨(of_decide_eq_true hc).le, le_refl _⟩
      · exact ⟨le_refl _, not_lt.mp (fun h => hc (decide_eq_true h))⟩
    refine ⟨hle.1.trans h1, ?_, ?_⟩
    · intro v hv
      rcases List.mem_cons.mp hv with rfl | hv
      · exact hle.2.trans h1
      · exact h2 v hv
    · rcases h3 with h3 | h3
      · rw [h3]
        split_ifs
        · exact Or.inr (List.mem_cons_self _ _)
        · exact Or.inl rfl
      · exact Or.inr (List.mem_cons_of_mem _ h3)

end BoundsOrdered

section BoundsClaim

/-- On a non-empty ensemble the bounds are the componentwise folds from the first particle. -/
theorem compute_particle_bounds_cons {α : Type} (lt : α → α → Bool) (front : vec3 α)
    (rest : List (vec3 α)) (out_min out_max : vec3 α) :
    (compute_particle_bounds_of lt (front :: rest) out_min out_max).1 = true ∧
    ((compute_particle_bounds_of lt (front :: rest) out_min out_max).2.1.x
        = ((front :: rest).map vec3.x).foldl (fun m v => if lt v m then v else m) front.x ∧
     (compute_particle_bounds_of lt (front :: rest) out_min out_max).2.1.y
        = ((front :: rest).map vec3.y).foldl (fun m v => if lt v m then v else m) front.y ∧
     (compute_particle_bounds_of lt (front :: rest) out_min out_max).2.1.z
        = ((front :: rest).map vec3.z).foldl (fun m v => if lt v m then v else m) front.z) ∧
    ((compute_particle_bounds_of lt (front :: rest) out_min out_max).2.2.x
        = ((front :: rest).map vec3.x).foldl (fun m v => if lt m v then v else m) front.x ∧
     (compute_particle_bounds_of lt (front :: rest) out_min out_max).2.2.y
        = ((front :: rest).map vec3.y).foldl (fun m v => if lt m v then v else m) front.y ∧
     (compute_particle_bounds_of lt (front :: rest) out_min out_max).2.2.z
        = ((front :: rest).map vec3.z).foldl (fun m v => if lt m v then v else m) front.z) :=
  ⟨rfl, bounds_fold_components lt (front :: rest) (front, front)⟩

variable {F : Type} [LinearOrder F]

/-- The fold of one component from the first particle is that component's minimum. -/
theorem fold_min_component (c : vec3 F → F) (front : vec3 F) (rest : List (vec3 F)) :
    (∀ p ∈ front :: rest,
      ((front :: rest).map c).foldl (fun m v => if decide (v < m) then v else m) (c front) ≤ c p) ∧
    ∃ p ∈ front :: rest,
      c p = ((front :: rest).map c).foldl (fun m v => if decide (v < m) then v else m) (c front) := by
  obtain ⟨_, h2, h3⟩ := fold_min_spec ((front :: rest).map c) (c front)
  refine ⟨fun p hp => h2 (c p) (List.mem_map_of_mem c hp), ?_⟩
  rcases h3 with h3 | h3
  · exact ⟨front, List.mem_cons_self _ _, h3.symm⟩
  · obtain ⟨p, hp, e⟩ := List.mem_map.mp h3
    exact ⟨p, hp, e⟩

/-- The fold of one component from the first particle is that component's maximum. -/
theorem fold_max_component (c : vec3 F → F) (front : vec3 F) (rest : List (vec3 F)) :
    (∀ p ∈ front :: rest,
      c p ≤ ((front :: rest).map c).foldl (fun m v => if decide (m < v) then v else m) (c front)) ∧
    ∃ p ∈ front :: rest,
      c p = ((front :: rest).map c).foldl (fun m v => if decide (m < v) then v else m) (c front) := by
  obtain ⟨_, h2, h3⟩ := fold_max_spec ((front :: rest).map c) (c front)
  refine ⟨fun p hp => h2 (c p) (List.mem_map_of_mem c hp), ?_⟩
  rcases h3 with h3 | h3
  · exact ⟨front, List.mem_cons_self _ _, h3.symm⟩
  · obtain ⟨p, hp, e⟩ := List.mem_map.mp h3
    exact ⟨p, hp, e⟩

end BoundsClaim

section BoundsClaimField

variable {F : Type} [LinearOrderedField F]

/-- Claim C22: `compute_particle_bounds` returns false, leaving `out_min` and `out_max`
as they were, exactly when the ensemble is empty; on a non-empty ensemble it returns true,
every position lies componentwise between `out_min` and `out_max`, and each of the six
bounds is the coordinate of some particle, so each component of `out_min` is the minimum
and each component of `out_max` the maximum of that component over all positions. -/
theorem compute_particle_bounds_spec (state : simulation_state F) (out_min out_max : vec3 F) :
    ((compute_particle_bounds state out_min out_max).1 = false ↔
      state.particle_positions = []) ∧
    (state.particle_positions = [] →
      compute_particle_bounds state out_min out_max = (false, out_min, out_max)) ∧
    (state.particle_positions ≠ [] →
      (compute_particle_bounds state out_min out_max).1 = true ∧
      (∀ p ∈ state.particle_positions,
        ((compute_particle_bounds state out_min out_max).2.1.x ≤ p.x ∧
          p.x ≤ (compute_particle_bounds state out_min out_max).2.2.x) ∧
        ((compute_particle_bounds state out_min out_max).2.1.y ≤ p.y ∧
          p.y ≤ (compute_particle_bounds state out_min out_max).2.2.y) ∧
        ((compute_particle_bounds state out_min out_max).2.1.z ≤ p.z ∧
          p.z ≤ (compute_particle_bounds state out_min out_max).2.2.z)) ∧
      ((∃ p ∈ state.particle_positions,
          p.x = (compute_particle_bounds state out_min out_max).2.1.x) ∧
       (∃ p ∈ state.particle_positions,
          p.y = (compute_particle_bounds state out_min out_max).2.1.y) ∧
       (∃ p ∈ state.particle_positions,
          p.z = (compute_particle_bounds state out_min out_max).2.1.z)) ∧
      ((∃ p ∈ state.particle_positions,
          p.x = (compute_particle_bounds state out_min out_max).2.2.x) ∧
       (∃ p ∈ state.particle_positions,
          p.y = (compute_particle_bounds state out_min out_max).2.2.y) ∧
       (∃ p ∈ state.particle_positions,
          p.z = (compute_particle_bounds state out_min out_max).2.2.z))) := by
  unfold compute_particle_bounds
  rcases h : state.particle_positions with _ | ⟨front, rest⟩
  · refine ⟨⟨fun _ => rfl, fun _ => rfl⟩, fun _ => rfl, fun hne => absurd rfl hne⟩
  · obtain ⟨hb, ⟨ex, ey, ez⟩, ⟨fx, fy, fz⟩⟩ :=
      compute_particle_bounds_cons (fun a b : F => decide (a < b)) front rest out_min out_max
    refine ⟨⟨fun hf => ?_, fun hn => absurd hn (List.cons_ne_nil _ _)⟩,
      fun hn => absurd hn (List.cons_ne_nil _ _), fun _ => ⟨hb, ?_, ?_, ?_⟩⟩
    · rw [hb] at hf
      exact absurd hf (by decide)
    · intro p hp
      rw [ex, ey, ez, fx, fy, fz]
      exact ⟨⟨(fold_min_component vec3.x front rest).1 p hp,
          (fold_max_component vec3.x front rest).1 p hp⟩,
        ⟨(fold_min_component vec3.y front rest).1 p hp,
          (fold_max_component vec3.y front rest).1 p hp⟩,
        ⟨(fold_min_component vec3.z front rest).1 p hp,
          (fold_max_component vec3.z front rest).1 p hp⟩⟩
    · rw [ex, ey, ez]
      exact ⟨(fold_min_component vec3.x front rest).2, (fold_min_component vec3.y front rest).2,
        (fold_min_component vec3.z front rest).2⟩
    · rw [fx, fy, fz]
      exact ⟨(fold_max_component vec3.x front rest).2, (fold_max_component vec3.y front rest).2,
        (fold_max_component vec3.z front rest).2⟩

end BoundsClaimField

/-! ## Bounds with non-finite coordinates -/

section BoundsNonFinite

variable {F : Type} [LinearOrder F]

theorem float_value_lt_nan_right (v : float_value F) :
    float_value.lt v float_value.nan = false := by
  cases v <;> rfl

theorem float_value_lt_nan_left (v : float_value F) :
    float_value.lt float_value.nan v = false := by
  cases v <;> rfl

theorem float_value_lt_ne_nan (a b : float_value F) (h : float_value.lt a b = true) :
    a ≠ float_value.nan ∧ b ≠ float_value.nan := by
  constructor
  · rintro rfl
    rw [float_value_lt_nan_left] at h
    exact absurd h (by decide)
  · rintro rfl
    rw [float_value_lt_nan_right] at h
    exact absurd h (by decide)

/-- A minimum that starts at NaN stays NaN. -/
theorem fold_min_nan (vs : List (float_value F)) :
    vs.foldl (fun m v => if float_value.lt v m then v else m) float_value.nan
      = float_value.nan := by
  induction vs with
  | nil => rfl
  | cons w ws ih =>
    simp only [List.foldl_cons, float_value_lt_nan_right]
    exact ih

/-- A maximum that starts at NaN stays NaN. -/
theorem fold_max_nan (vs : List (float_value F)) :
    vs.foldl (fun m v => if float_value.lt m v then v else m) float_value.nan
      = float_value.nan := by
  induction vs with
  | nil => rfl
  | cons w ws ih =>
    simp only [List.foldl_cons, float_value_lt_nan_left]
    exact ih

/-- A minimum that starts at a number never becomes NaN. -/
theorem fold_min_ne_nan (vs : List (float_value F)) :
    ∀ m0 : float_value F, m0 ≠ float_value.nan →
      vs.foldl (fun m v => if float_value.lt v m then v else m) m0 ≠ float_value.nan := by
  induction vs with
  | nil => exact fun m0 h => h
  | cons w ws ih =>
    intro m0 h
    simp only [List.foldl_cons]
    apply ih
    split_ifs with hc
    · exact (float_value_lt_ne_nan _ _ hc).1
    · exact h

/-- A maximum that starts at a number never becomes NaN. -/
theorem fold_max_ne_nan (vs : List (float_value F)) :
    ∀ m0 : float_value F, m0 ≠ float_value.nan →
      vs.foldl (fun m v => if float_value.lt m v then v else m) m0 ≠ float_value.nan := by
  induction vs with
  | nil => exact fun m0 h => h
  | cons w ws ih =>
    intro m0 h
    simp only [List.foldl_cons]
    apply ih
    split_ifs with hc
    · exact (float_value_lt_ne_nan _ _ hc).2
    · exact h

theorem fold_max_of_infinity (vs : List (float_value F)) :
    vs.foldl (fun m v => if float_value.lt m v then v else m) float_value.infinity
      = float_value.infinity := by
  induction vs with
  | nil => rfl
  | cons w ws ih =>
    have e : float_value.lt float_value.infinity w = false := by cases w <;> rfl
    simp only [List.foldl_cons, e]
    exact ih

theorem fold_min_of_neg_infinity (vs : List (float_value F)) :
    vs.foldl (fun m v => if float_value.lt v m then v else m) float_value.neg_infinity
      = float_value.neg_infinity := by
  induction vs with
  | nil => rfl
  | cons w ws ih =>
    have e : float_value.lt w float_value.neg_infinity = false := by cases w <;> rfl
    simp only [List.foldl_cons, e]
    exact ih

/-- A maximum that starts at a number and meets +infinity is +infinity. -/
theorem fold_max_infinity (vs : List (float_value F)) :
    ∀ m0 : float_value F, m0 ≠ float_value.nan → float_value.infinity ∈ vs →
      vs.foldl (fun m v => if float_value.lt m v then v else m) m0 = float_value.infinity := by
  induction vs with
  | nil => exact fun m0 _ h => absurd h (List.not_mem_nil _)
  | cons w ws ih =>
    intro m0 h hm
    simp only [List.foldl_cons]
    rcases List.mem_cons.mp hm with e | hm
    · subst e
      have e1 : (if float_value.lt m0 float_value.infinity then float_value.infinity else m0)
          = float_value.infinity := by
        cases m0 with
        | nan => exact absurd rfl h
        | neg_infinity => rfl
        | finite x => rfl
        | infinity => rfl
      rw [e1]
      exact fold_max_of_infinity ws
    · apply ih _ _ hm
      split_ifs with hc
      · exact (float_value_lt_ne_nan _ _ hc).2
      · exact h

/-- A minimum that starts at a number and meets -infinity is -infinity. -/
theorem fold_min_neg_infinity (vs : List (float_value F)) :
    ∀ m0 : float_value F, m0 ≠ float_value.nan → float_value.neg_infinity ∈ vs →
      vs.foldl (fun m v => if float_value.lt v m then v else m) m0
        = float_value.neg_infinity := by
  induction vs with
  | nil => exact fun m0 _ h => absurd h (List.not_mem_nil _)
  | cons w ws ih =>
    intro m0 h hm
    simp only [List.foldl_cons]
    rcases List.mem_cons.mp hm with e | hm
    · subst e
      have e1 : (if float_value.lt float_value.neg_infinity m0 then float_value.neg_infinity
          else m0) = float_value.neg_infinity := by
        cases m0 with
        | nan => exact absurd rfl h
        | neg_infinity => rfl
        | finite x => rfl
        | infinity => rfl
      rw [e1]
      exact fold_min_of_neg_infinity ws
    · apply ih _ _ hm
      split_ifs with hc
      · exact (float_value_lt_ne_nan _ _ hc).1
      · exact h

/-- The non-finite behaviour of one component of the bounds of a non-empty ensemble. -/
theorem fold_component_non_finite (c : vec3 (float_value F) → float_value F)
    (front : vec3 (float_value F)) (rest : List (vec3 (float_value F))) :
    (c front = float_value.nan →
      ((front :: rest).map c).foldl (fun m v => if float_value.lt v m then v else m) (c front)
        = float_value.nan ∧
      ((front :: rest).map c).foldl (fun m v => if float_value.lt m v then v else m) (c front)
        = float_value.nan) ∧
    (c front ≠ float_value.nan →
      ((front :: rest).map c).foldl (fun m v => if float_value.lt v m then v else m) (c front)
        ≠ float_value.nan ∧
      ((front :: rest).map c).foldl (fun m v => if float_value.lt m v then v else m) (c front)
        ≠ float_value.nan ∧
      ((∃ p ∈ front :: rest, c p = float_value.infinity) →
        ((front :: rest).map c).foldl (fun m v => if float_value.lt m v then v else m) (c front)
          = float_value.infinity) ∧
      ((∃ p ∈ front :: rest, c p = float_value.neg_infinity) →
        ((front :: rest).map c).foldl (fun m v => if float_value.lt v m then v else m) (c front)
          = float_value.neg_infinity)) := by
  refine ⟨fun h => ?_, fun h => ⟨fold_min_ne_nan _ _ h, fold_max_ne_nan _ _ h, ?_, ?_⟩⟩
  · rw [h]
    exact ⟨fold_min_nan _, fold_max_nan _⟩
  · rintro ⟨p, hp, e⟩
    exact fold_max_infinity _ _ h (e ▸ List.mem_map_of_mem c hp)
  · rintro ⟨p, hp, e⟩
    exact fold_min_neg_infinity _ _ h (e ▸ List.mem_map_of_mem c hp)

end BoundsNonFinite

section BoundsNonFiniteClaim

/-- Claim C23, counterexample: the second particle of a two-particle ensemble has a NaN in
its x component, yet `compute_particle_bounds` returns true with `out_min.x = out_max.x = 0`:
the comparison of the running bound with NaN is false, so the NaN is skipped. -/
theorem compute_particle_bounds_nan_counterexample :
    (∃ p ∈ [(⟨.finite 0, .finite 0, .finite 0⟩ : vec3 (float_value ℚ)),
              ⟨.nan, .finite 0, .finite 0⟩], p.x = float_value.nan) ∧
    compute_particle_bounds_of float_value.lt
        [(⟨.finite 0, .finite 0, .finite 0⟩ : vec3 (float_value ℚ)),
          ⟨.nan, .finite 0, .finite 0⟩]
        ⟨.finite 7, .finite 7, .finite 7⟩ ⟨.finite 7, .finite 7, .finite 7⟩
      = (true, ⟨.finite 0, .finite 0, .finite 0⟩, ⟨.finite 0, .finite 0, .finite 0⟩) ∧
    (float_value.finite 0 : float_value ℚ) ≠ float_value.nan := by
  refine ⟨⟨_, List.mem_cons_of_mem _ (List.mem_cons_self _ _), rfl⟩, ?_, by simp⟩
  simp [compute_particle_bounds_of, vec3_min, vec3_max, float_value.lt]

variable {F : Type} [LinearOrder F]

/-- Claim C23, amended: on a non-empty ensemble, with `glm::min(a,b) = (b < a) ? b : a`,
`glm::max(a,b) = (a < b) ? b : a` and every comparison against NaN false, a NaN in a
component of the FIRST particle makes `out_min` and `out_max` NaN in that component; when
the first particle's component is not NaN the two bounds of that component are not NaN
(a NaN at a later index is skipped), a +infinity coordinate of any particle is `out_max`
and a -infinity coordinate of any particle is `out_min` in that component. -/
theorem compute_particle_bounds_non_finite (front : vec3 (float_value F))
    (rest : List (vec3 (float_value F))) (out_min out_max : vec3 (float_value F)) :
    (compute_particle_bounds_of float_value.lt (front :: rest) out_min out_max).1 = true ∧
    ((front.x = float_value.nan →
        (compute_particle_bounds_of float_value.lt (front :: rest) out_min out_max).2.1.x
          = float_value.nan ∧
        (compute_particle_bounds_of float_value.lt (front :: rest) out_min out_max).2.2.x
          = float_value.nan) ∧
      (front.x ≠ float_value.nan →
        (compute_particle_bounds_of float_value.lt (front :: rest) out_min out_max).2.1.x
          ≠ float_value.nan ∧
        (compute_particle_bounds_of float_value.lt (front :: rest) out_min out_max).2.2.x
          ≠ float_value.nan ∧
        ((∃ p ∈ front :: rest, p.x = float_value.infinity) →
          (compute_particle_bounds_of float_value.lt (front :: rest) out_min out_max).2.2.x
            = float_value.infinity) ∧
        ((∃ p ∈ front :: rest, p.x = float_value.neg_infinity) →
          (compute_particle_bounds_of float_value.lt (front :: rest) out_min out_max).2.1.x
            = float_value.neg_infinity))) ∧
    ((front.y = float_value.nan →
        (compute_particle_bounds_of float_value.lt (front :: rest) out_min out_max).2.1.y
          = float_value.nan ∧
        (compute_particle_bounds_of float_value.lt (front :: rest) out_min out_max).2.2.y
          = float_value.nan) ∧
      (front.y ≠ float_value.nan →
        (compute_particle_bounds_of float_value.lt (front :: rest) out_min out_max).2.1.y
          ≠ float_value.nan ∧
        (compute_particle_bounds_of float_value.lt (front :: rest) out_min out_max).2.2.y
          ≠ float_value.nan ∧
        ((∃ p ∈ front :: rest, p.y = float_value.infinity) →
          (compute_particle_bounds_of float_value.lt (front :: rest) out_min out_max).2.2.y
            = float_value.infinity) ∧
        ((∃ p ∈ front :: rest, p.y = float_value.neg_infinity) →
          (compute_particle_bounds_of float_value.lt (front :: rest) out_min out_max).2.1.y
            = float_value.neg_infinity))) ∧
    ((front.z = float_value.nan →
        (compute_particle_bounds_of float_value.lt (front :: rest) out_min out_max).2.1.z
          = float_value.nan ∧
        (compute_particle_bounds_of float_value.lt (front :: rest) out_min out_max).2.2.z
          = float_value.nan) ∧
      (front.z ≠ float_value.nan →
        (compute_particle_bounds_of float_value.lt (front :: rest) out_min out_max).2.1.z
          ≠ float_value.nan ∧
        (compute_particle_bounds_of float_value.lt (front :: rest) out_min out_max).2.2.z
          ≠ float_value.nan ∧
        ((∃ p ∈ front :: rest, p.z = float_value.infinity) →
          (compute_particle_bounds_of float_value.lt (front :: rest) out_min out_max).2.2.z
            = float_value.infinity) ∧
        ((∃ p ∈ front :: rest, p.z = float_value.neg_infinity) →
          (compute_particle_bounds_of float_value.lt (front :: rest) out_min out_max).2.1.z
            = float_value.neg_infinity))) := by
  obtain ⟨hb, ⟨ex, ey, ez⟩, ⟨fx, fy, fz⟩⟩ :=
    compute_particle_bounds_cons float_value.lt front rest out_min out_max
  rw [ex, ey, ez, fx, fy, fz]
  exact ⟨hb, fold_component_non_finite vec3.x front rest,
    fold_component_non_finite vec3.y front rest, fold_component_non_finite vec3.z front rest⟩

end BoundsNonFiniteClaim

/-! ## The scratch vectors of the integrator -/

section Scratch

variable {F : Type} [LinearOrderedField F]

/-- Claim C28: the result of `IntegratorRK4::step` does not depend on the values in the
integrator's scratch buffers.  For every system whose callable computes a function `f` of
the state on vectors of length `dim` (writing all `dim` components), every state of length
`dim`, every `t` and `dt`, a step with an integrator whose five scratch vectors hold
arbitrary stale values of any common length (the buffers are private and only resized
together) produces the same new state as a step with a freshly constructed integrator,
and leaves the five scratch vectors with the common length `dim` again. -/
theorem IntegratorRK4_step_scratch_independent (sys : ODESystem F)
    (f : List F → F → List F) (stale : IntegratorRK4 F) (state : List F) (t dt : F)
    (hf : ∀ (st out : List F) (t' : F), st.length = sys.dim → out.length = sys.dim →
      sys.deriv st out t' = f st t' ∧ (f st t').length = sys.dim)
    (hstate : state.length = sys.dim)
    (hstale : stale.k2.length = stale.k1.length ∧ stale.k3.length = stale.k1.length ∧
      stale.k4.length = stale.k1.length ∧ stale.tmp.length = stale.k1.length) :
    (stale.step sys state t dt).2 = (({} : IntegratorRK4 F).step sys state t dt).2 ∧
    ((stale.step sys state t dt).1.k1.length = sys.dim ∧
      (stale.step sys state t dt).1.k2.length = sys.dim ∧
      (stale.step sys state t dt).1.k3.length = sys.dim ∧
      (stale.step sys state t dt).1.k4.length = sys.dim ∧
      (stale.step sys state t dt).1.tmp.length = sys.dim) := by
  obtain ⟨h1, _, h3⟩ := IntegratorRK4_step_eq sys f stale state t dt hf hstate hstale
  obtain ⟨g1, _⟩ := IntegratorRK4_step_eq sys f {} state t dt hf hstate ⟨rfl, rfl, rfl, rfl⟩
  exact ⟨h1.trans g1.symm, h3⟩

/-- Witness of C28: the Lorenz field with default parameters, the state
`(1, 1, 1)` and an integrator holding stale values of length 3. -/
theorem IntegratorRK4_step_scratch_independent_witness :
    (({ k1 := [9, 9, 9], k2 := [8, 8, 8], k3 := [7, 7, 7], k4 := [1, 2, 3],
        tmp := [4, 5, 6] } : IntegratorRK4 ℚ).step (make_lorenz_system {}) [1, 1, 1] 0
        (1 / 100)).2
      = (({} : IntegratorRK4 ℚ).step (make_lorenz_system {}) [1, 1, 1] 0 (1 / 100)).2 :=
  (IntegratorRK4_step_scratch_independent (F := ℚ) (make_lorenz_system {})
    (fun st _ =>
      [(deriv_lorenz {} ⟨st.getD 0 0, st.getD 1 0, st.getD 2 0⟩).x,
       (deriv_lorenz {} ⟨st.getD 0 0, st.getD 1 0, st.getD 2 0⟩).y,
       (deriv_lorenz {} ⟨st.getD 0 0, st.getD 1 0, st.getD 2 0⟩).z])
    { k1 := [9, 9, 9], k2 := [8, 8, 8], k3 := [7, 7, 7], k4 := [1, 2, 3], tmp := [4, 5, 6] }
    [1, 1, 1] 0 (1 / 100)
    (fun st out _ _ _ => ⟨bound_deriv_eq _ st out, rfl⟩) rfl ⟨rfl, rfl, rfl, rfl⟩).1

end Scratch

/-! ## The configuration widgets -/

section WidgetLemmas

/-- A slider that reports no change leaves its value alone. -/
theorem slider_float_unchanged {F : Type} (io : imgui F) (label : String) (v v_min v_max : F)
    (h : (slider_float io label v v_min v_max).2 = false) :
    (slider_float io label v v_min v_max).1 = v := by
  unfold slider_float at h ⊢
  split at h
  · exact absurd h (by simp)
  · rfl

variable {F : Type} [LinearOrderedField F]

/-- The parameter sliders leave everything but the parameter records and the bound field
alone. -/
theorem draw_ui_switch_frame (sin : F → F) (io : imgui F) (s : simulation_state F) :
    (draw_ui_switch sin io s).1.current_system = s.current_system ∧
    (draw_ui_switch sin io s).1.state = s.state ∧
    (draw_ui_switch sin io s).1.t = s.t ∧
    (draw_ui_switch sin io s).1.time_accumulator = s.time_accumulator ∧
    (draw_ui_switch sin io s).1.integrator = s.integrator ∧
    (draw_ui_switch sin io s).1.particle_positions = s.particle_positions ∧
    (draw_ui_switch sin io s).1.particle_phases = s.particle_phases ∧
    (draw_ui_switch sin io s).1.paused = s.paused ∧
    (draw_ui_switch sin io s).1.base_dt = s.base_dt := by
  unfold draw_ui_switch
  split <;> simp only [] <;> split_ifs <;> exact ⟨rfl, rfl, rfl, rfl, rfl, rfl, rfl, rfl, rfl⟩

/-- When a parameter slider reports a change the field is bound again from the records. -/
theorem draw_ui_switch_changed (sin : F → F) (io : imgui F) (s : simulation_state F)
    (h : (draw_ui_switch sin io s).2 = true) :
    (draw_ui_switch sin io s).1.system
      = (reset_simulation_switch sin (draw_ui_switch sin io s).1).1 := by
  unfold draw_ui_switch at h ⊢
  unfold reset_simulation_switch
  split at h <;> rename_i hc <;> simp only [] at h ⊢ <;> rw [if_pos h] <;> simp only [hc]

/-- When no parameter slider reports a change the state is as it was. -/
theorem draw_ui_switch_unchanged (sin : F → F) (io : imgui F) (s : simulation_state F)
    (h : (draw_ui_switch sin io s).2 = false) :
    (draw_ui_switch sin io s).1 = s := by
  unfold draw_ui_switch at h ⊢
  split at h <;> simp only [] at h ⊢ <;>
    simp only [Bool.false_or, Bool.or_eq_false_iff] at h <;>
    simp only [h, Bool.or_self, Bool.false_eq_true, if_false] <;>
    simp (disch := simp only [h]) only [slider_float_unchanged]

/-- The parameter part of `draw_ui`: what it leaves alone, and what it does when a slider
reports a change and when none does. -/
theorem draw_ui_parameters_spec (sin : F → F) (io : imgui F) (s : simulation_state F) :
    ((draw_ui_parameters sin io s).1.current_system = s.current_system ∧
      (draw_ui_parameters sin io s).1.state = s.state ∧
      (draw_ui_parameters sin io s).1.t = s.t ∧
      (draw_ui_parameters sin io s).1.particle_positions = s.particle_positions ∧
      (draw_ui_parameters sin io s).1.particle_phases = s.particle_phases) ∧
    ((draw_ui_parameters sin io s).2 = true →
      (draw_ui_parameters sin io s).1.system
        = (reset_simulation_switch sin (draw_ui_parameters sin io s).1).1 ∧
      (draw_ui_parameters sin io s).1.integrator = {} ∧
      (draw_ui_parameters sin io s).1.time_accumulator = 0) ∧
    ((draw_ui_parameters sin io s).2 = false → (draw_ui_parameters sin io s).1 = s) := by
  have e0 : (0.0 : F) = 0 := by norm_num
  obtain ⟨f1, f2, f3, -, -, f6, f7, -, -⟩ := draw_ui_switch_frame sin io s
  rcases Bool.eq_false_or_eq_true (draw_ui_switch sin io s).2 with hc | hc
  · have hb := draw_ui_switch_changed sin io s hc
    have e : draw_ui_parameters sin io s
        = ({ ({ (draw_ui_switch sin io s).1 with integrator := {} } : simulation_state F) with
              time_accumulator := 0.0 }, true) := by
      unfold draw_ui_parameters
      simp only [hc, if_true]
    rw [e]
    exact ⟨⟨f1, f2, f3, f6, f7⟩, fun _ => ⟨hb, rfl, e0⟩, fun h => by simp at h⟩
  · have e : draw_ui_parameters sin io s = ((draw_ui_switch sin io s).1, false) := by
      unfold draw_ui_parameters
      simp only [hc, Bool.false_eq_true, if_false]
    rw [e]
    exact ⟨⟨f1, f2, f3, f6, f7⟩, fun h => by simp at h,
      fun _ => draw_ui_switch_unchanged sin io s hc⟩

end WidgetLemmas

section DrawUi

variable {F : Type} [LinearOrderedField F] [FloorRing F]

/-- A property that `reset_simulation` establishes and that the parameter sliders, the
pause checkbox, the step-size slider and every reseed of the ensemble preserve is
preserved by `draw_ui`. -/
theorem draw_ui_induction (sin : F → F) (m : cmath F) (io : imgui F) (rng : Nat → Nat → F)
    (P : simulation_state F → Prop)
    (hreset : ∀ draws s, P (reset_simulation sin m draws s).1)
    (hparams : ∀ s, P s → P (draw_ui_parameters sin io s).1)
    (hpaused : ∀ s b, P s → P { s with paused := b })
    (hdt : ∀ s v, P s → P (draw_ui_dt_slider s v))
    (hcount : ∀ draws s n, P s → P (initialize_particle_field m draws { s with particle_count := n }))
    (horigin : ∀ draws s b,
      P s → P (initialize_particle_field m draws { s with particle_spawn_from_origin := b }))
    (hjitter : ∀ draws s v,
      P s → P (initialize_particle_field m draws { s with particle_origin_jitter := v }))
    (hradius : ∀ draws s v,
      P s → P (initialize_particle_field m draws { s with particle_spawn_radius := v }))
    (hreseed : ∀ draws s, P s → P (initialize_particle_field m draws s))
    (s : simulation_state F) (h : P s) : P (draw_ui sin m io rng s) := by
  have k1 : ∀ s, P s → P (match io.Combo "System" s.current_system.index with
      | some system_index =>
        (reset_simulation sin m (rng 0)
          { s with current_system := system_type_of_index system_index }).1
      | none => s) := by
    intro s hs
    split
    · exact hreset _ _
    · exact hs
  have k3 : ∀ s, P s → P (if io.Button "Reset Args / Initial State" then
      (reset_simulation sin m (rng 1) s).1 else s) := by
    intro s hs
    split_ifs
    · exact hreset _ _
    · exact hs
  have k4 : ∀ s, P s → P (match io.Checkbox "Paused" s.paused with
      | some b => { s with paused := b }
      | none => s) := by
    intro s hs
    split
    · exact hpaused _ _ hs
    · exact hs
  have k5 : ∀ s, P s → P (match io.SliderFloat "dt (sim step)" s.base_dt 0.0001 0.2 with
      | some base_dt => draw_ui_dt_slider s base_dt
      | none => s) := by
    intro s hs
    split
    · exact hdt _ _ hs
    · exact hs
  have k6 : ∀ s, P s →
      P (match io.SliderInt "Particle Count" (int_of_size_t s.particle_count) 1000 500000 with
      | some particle_count =>
        initialize_particle_field m (rng 2)
          { s with particle_count := size_t_of_int particle_count }
      | none => s) := by
    intro s hs
    split
    · exact hcount _ _ _ hs
    · exact hs
  have k7 : ∀ s, P s →
      P (match io.Checkbox "Spawn From Origin" s.particle_spawn_from_origin with
      | some b =>
        initialize_particle_field m (rng 3) { s with particle_spawn_from_origin := b }
      | none => s) := by
    intro s hs
    split
    · exact horigin _ _ _ hs
    · exact hs
  have k8 : ∀ s, P s →
      P (if s.particle_spawn_from_origin then
        match io.SliderFloat "Origin Jitter" s.particle_origin_jitter 0.0001 0.5 with
        | some v =>
          initialize_particle_field m (rng 4)
            { s with particle_origin_jitter := glm_clamp v 1e-5 1.0 }
        | none => s
      else
        match io.SliderFloat "Spawn Radius" s.particle_spawn_radius 0.1 10.0 with
        | some v => initialize_particle_field m (rng 4) { s with particle_spawn_radius := v }
        | none => s) := by
    intro s hs
    split_ifs
    · split
      · exact hjitter _ _ _ hs
      · exact hs
    · split
      · exact hradius _ _ _ hs
      · exact hs
  have k9 : ∀ s, P s →
      P (if io.Button "Reseed Particles" then initialize_particle_field m (rng 5) s else s) := by
    intro s hs
    split_ifs
    · exact hreseed _ _ hs
    · exact hs
  exact k9 _ (k8 _ (k7 _ (k6 _ (k5 _ (k4 _ (k3 _ (hparams _ (k1 s h))))))))

end DrawUi

/-! ## The bound field and the parameter records -/

section Bound

variable {F : Type} [LinearOrderedField F]

/-- The field that the `switch` of `reset_simulation` binds from the current records
has dimension 3 and computes `evaluate_derivative`. -/
theorem reset_simulation_switch_deriv (sin : F → F) (s : simulation_state F) (x y z : F)
    (rest out : List F) (t : F) :
    (reset_simulation_switch sin s).1.dim = 3 ∧
    (reset_simulation_switch sin s).1.deriv (x :: y :: z :: rest) out t
      = [(evaluate_derivative sin s ⟨x, y, z⟩).x, (evaluate_derivative sin s ⟨x, y, z⟩).y,
          (evaluate_derivative sin s ⟨x, y, z⟩).z] := by
  unfold reset_simulation_switch evaluate_derivative
  cases s.current_system <;> exact ⟨rfl, bound_deriv_eq _ _ _⟩

/-- The updates of `draw_ui` outside the parameter block keep the bound field and the
records it is bound from. -/
theorem draw_ui_dt_slider_config (sin : F → F) (s : simulation_state F) (v : F) :
    (draw_ui_dt_slider s v).system = s.system ∧
    reset_simulation_switch sin (draw_ui_dt_slider s v) = reset_simulation_switch sin s :=
  ⟨rfl, rfl⟩

variable [FloorRing F]

/-- After `reset_simulation` the bound field is the one of the current records. -/
theorem reset_simulation_bound (sin : F → F) (m : cmath F) (draws : Nat → F)
    (s : simulation_state F) :
    (reset_simulation sin m draws s).1.system
      = (reset_simulation_switch sin (reset_simulation sin m draws s).1).1 := by
  unfold reset_simulation
  simp only []
  obtain ⟨-, -, -, f4, -, -, -, -, f9⟩ := initialize_particle_field_frame sin m draws
    ({ ({ ({ ({ ({ s with system := (reset_simulation_switch sin s).1 } :
      simulation_state F) with state := (reset_simulation_switch sin s).2 } :
      simulation_state F) with t := 0.0 } : simulation_state F) with
      time_accumulator := 0.0 } : simulation_state F) with integrator := {} } :
      simulation_state F)
  rw [f4, f9]
  rfl

/-- The function `draw_ui` keeps the bound field equal to the one of the current records. -/
theorem draw_ui_bound (sin : F → F) (m : cmath F) (io : imgui F) (rng : Nat → Nat → F)
    (s : simulation_state F) (h : s.system = (reset_simulation_switch sin s).1) :
    (draw_ui sin m io rng s).system
      = (reset_simulation_switch sin (draw_ui sin m io rng s)).1 := by
  have hinit : ∀ draws (s0 s1 : simulation_state F),
      s0.system = (reset_simulation_switch sin s0).1 →
      s1.system = s0.system → reset_simulation_switch sin s1 = reset_simulation_switch sin s0 →
      (initialize_particle_field m draws s1).system
        = (reset_simulation_switch sin (initialize_particle_field m draws s1)).1 := by
    intro draws s0 s1 h0 h1 h2
    obtain ⟨-, -, -, f4, -, -, -, -, f9⟩ := initialize_particle_field_frame sin m draws s1
    rw [f4, f9, h1, h2]
    exact h0
  refine draw_ui_induction sin m io rng
    (fun s => s.system = (reset_simulation_switch sin s).1)
    (fun draws s => reset_simulation_bound sin m draws s) ?_
    (fun s b hs => hs) (fun s v hs => hs)
    (fun draws s n hs => hinit draws s _ hs rfl rfl)
    (fun draws s b hs => hinit draws s _ hs rfl rfl)
    (fun draws s v hs => hinit draws s _ hs rfl rfl)
    (fun draws s v hs => hinit draws s _ hs rfl rfl)
    (fun draws s hs => hinit draws s _ hs rfl rfl) s h
  intro s hs
  obtain ⟨-, hc, hu⟩ := draw_ui_parameters_spec sin io s
  rcases Bool.eq_false_or_eq_true (draw_ui_parameters sin io s).2 with hb | hb
  · exact (hc hb).1
  · rw [hu hb]
    exact hs

/-- In every state of a run the bound field is the one of the current records. -/
theorem reachable_bound (sin : F → F) (m : cmath F) (s : simulation_state F)
    (h : reachable sin m s) : s.system = (reset_simulation_switch sin s).1 := by
  induction h with
  | reset draws state => exact reset_simulation_bound sin m draws state
  | step hw frame_dt state _ ih =>
    obtain ⟨-, -, f3, f4⟩ := step_simulation_config sin hw state frame_dt
    rw [f3, f4]
    exact ih
  | ui io rng state _ ih => exact draw_ui_bound sin m io rng state ih

/-- Claim C29: in every state reachable from `reset_simulation` through `step_simulation`
and `draw_ui` (system selection, parameter sliders, reset button, pause, step size, the
particle widgets and the reseed button, with any widget reports and any random draws),
the bound field `state.system` is the field that `reset_simulation` would bind from the
current parameter record of `current_system`; it has dimension 3 and, evaluated at any
state vector starting with `(x, y, z)`, writes the three components of
`evaluate_derivative(state, (x, y, z))`, whatever the time and the previous content of
the output vector. -/
theorem reachable_same_field (sin : F → F) (m : cmath F) (s : simulation_state F)
    (h : reachable sin m s) (x y z : F) (rest out : List F) (t : F) :
    s.system = (reset_simulation_switch sin s).1 ∧
    s.system.dim = 3 ∧
    s.system.deriv (x :: y :: z :: rest) out t
      = [(evaluate_derivative sin s ⟨x, y, z⟩).x, (evaluate_derivative sin s ⟨x, y, z⟩).y,
          (evaluate_derivative sin s ⟨x, y, z⟩).z] := by
  have hb := reachable_bound sin m s h
  refine ⟨hb, ?_⟩
  rw [hb]
  exact reset_simulation_switch_deriv sin s x y z rest out t

end Bound

section QuietFrames

variable {F : Type} [LinearOrderedField F]

/-- When no slider reports, `args_changed` stays false. -/
theorem draw_ui_switch_silent (sin : F → F) (io : imgui F) (s : simulation_state F)
    (h : ∀ label v v_min v_max, io.SliderFloat label v v_min v_max = none) :
    (draw_ui_switch sin io s).2 = false := by
  unfold draw_ui_switch
  split <;> simp [slider_float, h]

variable [FloorRing F]

/-- A frame in which only the parameter sliders and the reset button may report: `draw_ui`
is the parameter block followed by the reset button. -/
theorem draw_ui_quiet (sin : F → F) (m : cmath F) (io : imgui F) (rng : Nat → Nat → F)
    (s : simulation_state F)
    (hcombo : ∀ i, io.Combo "System" i = none)
    (hcheck : ∀ label b, io.Checkbox label b = none)
    (hint : ∀ label v v_min v_max, io.SliderInt label v v_min v_max = none)
    (hdt : ∀ v v_min v_max, io.SliderFloat "dt (sim step)" v v_min v_max = none)
    (hjitter : ∀ v v_min v_max, io.SliderFloat "Origin Jitter" v v_min v_max = none)
    (hradius : ∀ v v_min v_max, io.SliderFloat "Spawn Radius" v v_min v_max = none)
    (hreseed : io.Button "Reseed Particles" = false) :
    draw_ui sin m io rng s
      = if io.Button "Reset Args / Initial State" then
          (reset_simulation sin m (rng 1) (draw_ui_parameters sin io s).1).1
        else (draw_ui_parameters sin io s).1 := by
  unfold draw_ui
  simp only [hcombo, hcheck, hint, hdt, hjitter, hradius, hreseed, Bool.false_eq_true, if_false,
    ite_self]

end QuietFrames

section ResetFrame

variable {F : Type} [LinearOrderedField F] [FloorRing F]

/-- What `reset_simulation` does to the clock and the reference state, and the parameter
records, which it leaves as they are. -/
theorem reset_simulation_frame (sin : F → F) (m : cmath F) (draws : Nat → F)
    (s : simulation_state F) :
    ((reset_simulation sin m draws s).1.t = 0 ∧
      (reset_simulation sin m draws s).1.state = (reset_simulation_switch sin s).2 ∧
      (reset_simulation sin m draws s).1.current_system = s.current_system) ∧
    ((reset_simulation sin m draws s).1.lorenz_args = s.lorenz_args ∧
      (reset_simulation sin m draws s).1.rossler_args = s.rossler_args ∧
      (reset_simulation sin m draws s).1.thomas_args = s.thomas_args ∧
      (reset_simulation sin m draws s).1.aizawa_args = s.aizawa_args ∧
      (reset_simulation sin m draws s).1.dadras_args = s.dadras_args ∧
      (reset_simulation sin m draws s).1.chen_args = s.chen_args) ∧
    ((reset_simulation sin m draws s).1.lorenz83_args = s.lorenz83_args ∧
      (reset_simulation sin m draws s).1.halvorsen_args = s.halvorsen_args ∧
      (reset_simulation sin m draws s).1.rabinovich_args = s.rabinovich_args ∧
      (reset_simulation sin m draws s).1.three_scroll_args = s.three_scroll_args ∧
      (reset_simulation sin m draws s).1.sprott_args = s.sprott_args ∧
      (reset_simulation sin m draws s).1.four_wing_args = s.four_wing_args) := by
  have e0 : (0.0 : F) = 0 := by norm_num
  unfold reset_simulation initialize_particle_field
  simp only []
  split_ifs <;>
    exact ⟨⟨e0, rfl, rfl⟩, ⟨rfl, rfl, rfl, rfl, rfl, rfl⟩, ⟨rfl, rfl, rfl, rfl, rfl, rfl⟩⟩

end ResetFrame

section ParameterChange

/-- Claim C25, counterexample: the Lorenz state at `t = 5` with reference state
`(2, 3, 4)` and one particle at `(1, 1, 1)`, in a frame where the `sigma` slider reports
the new value 20 and no other widget reports.  `args_changed` is true and the record holds
`sigma = 20`, but `t` is still 5, the reference state is still `(2, 3, 4)` and the ensemble
is the same, whereas `reset_simulation` on that state gives `t = 0` and `(1, 1, 1)`. -/
theorem draw_ui_parameter_change_counterexample :
    (draw_ui_parameters (fun x : ℚ => x)
        ⟨fun _ _ => none, fun label _ _ _ => if label = "sigma" then some 20 else none,
          fun _ _ _ _ => none, fun _ _ => none, fun _ => false⟩
        { lorenz_example with t := 5, state := [2, 3, 4] }).2 = true ∧
    (draw_ui (fun x : ℚ => x) ⟨fun x => x, fun _ _ => 0, fun _ => 0, fun _ => true, 6⟩
        ⟨fun _ _ => none, fun label _ _ _ => if label = "sigma" then some 20 else none,
          fun _ _ _ _ => none, fun _ _ => none, fun _ => false⟩
        (fun _ _ => 1) { lorenz_example with t := 5, state := [2, 3, 4] }).lorenz_args.sigma
      = 20 ∧
    (draw_ui (fun x : ℚ => x) ⟨fun x => x, fun _ _ => 0, fun _ => 0, fun _ => true, 6⟩
        ⟨fun _ _ => none, fun label _ _ _ => if label = "sigma" then some 20 else none,
          fun _ _ _ _ => none, fun _ _ => none, fun _ => false⟩
        (fun _ _ => 1) { lorenz_example with t := 5, state := [2, 3, 4] }).t = 5 ∧
    (draw_ui (fun x : ℚ => x) ⟨fun x => x, fun _ _ => 0, fun _ => 0, fun _ => true, 6⟩
        ⟨fun _ _ => none, fun label _ _ _ => if label = "sigma" then some 20 else none,
          fun _ _ _ _ => none, fun _ _ => none, fun _ => false⟩
        (fun _ _ => 1) { lorenz_example with t := 5, state := [2, 3, 4] }).state = [2, 3, 4] ∧
    (draw_ui (fun x : ℚ => x) ⟨fun x => x, fun _ _ => 0, fun _ => 0, fun _ => true, 6⟩
        ⟨fun _ _ => none, fun label _ _ _ => if label = "sigma" then some 20 else none,
          fun _ _ _ _ => none, fun _ _ => none, fun _ => false⟩
        (fun _ _ => 1) { lorenz_example with t := 5, state := [2, 3, 4] }).particle_positions
      = [⟨1, 1, 1⟩] ∧
    (reset_simulation (fun x : ℚ => x) ⟨fun x => x, fun _ _ => 0, fun _ => 0, fun _ => true, 6⟩
        (fun _ => 1) { lorenz_example with t := 5, state := [2, 3, 4] }).1.t = 0 ∧
    (reset_simulation (fun x : ℚ => x) ⟨fun x => x, fun _ _ => 0, fun _ => 0, fun _ => true, 6⟩
        (fun _ => 1) { lorenz_example with t := 5, state := [2, 3, 4] }).1.state = [1, 1, 1] := by
  have hq : _ := draw_ui_quiet (fun x : ℚ => x)
    ⟨fun x => x, fun _ _ => 0, fun _ => 0, fun _ => true, 6⟩
    ⟨fun _ _ => none, fun label _ _ _ => if label = "sigma" then some 20 else none,
      fun _ _ _ _ => none, fun _ _ => none, fun _ => false⟩
    (fun _ _ => 1) { lorenz_example with t := 5, state := [2, 3, 4] }
    (fun _ => rfl) (fun _ _ => rfl) (fun _ _ _ _ => rfl) (fun _ _ _ => by simp)
    (fun _ _ _ => by simp) (fun _ _ _ => by simp) rfl
  simp only [Bool.false_eq_true, if_false] at hq
  rw [hq]
  have hp : draw_ui_parameters (fun x : ℚ => x)
      ⟨fun _ _ => none, fun label _ _ _ => if label = "sigma" then some 20 else none,
        fun _ _ _ _ => none, fun _ _ => none, fun _ => false⟩
      { lorenz_example with t := 5, state := [2, 3, 4] }
      = ({ lorenz_example with
            t := 5, state := [2, 3, 4], lorenz_args := { sigma := 20 },
            system := make_lorenz_system { sigma := 20 }, time_accumulator := 0 }, true) := by
    simp [draw_ui_parameters, draw_ui_switch, slider_float, lorenz_example]
    norm_num
  rw [hp]
  obtain ⟨⟨r1, r2, -⟩, -, -⟩ := reset_simulation_frame (fun x : ℚ => x)
    ⟨fun x => x, fun _ _ => 0, fun _ => 0, fun _ => true, 6⟩ (fun _ => 1)
    { lorenz_example with t := 5, state := [2, 3, 4] }
  refine ⟨rfl, rfl, rfl, rfl, rfl, r1, r2.trans ?_⟩
  norm_num [reset_simulation_switch, lorenz_example]

end ParameterChange

section ParameterChangeClaim

variable {F : Type} [LinearOrderedField F] [FloorRing F]

/-- Claim C25, amended: in a frame of `draw_ui` where a parameter slider of the active system
reports a change and no other widget reports, the field is bound again from the current
parameter record, the integrator is a fresh one and the accumulator is zero, while the
reference state, the simulation time `t`, the ensemble (positions and phases) and the
current system are left as they were: a parameter change does not run `reset_simulation`. -/
theorem draw_ui_parameter_change (sin : F → F) (m : cmath F) (io : imgui F)
    (rng : Nat → Nat → F) (s : simulation_state F)
    (hcombo : ∀ i, io.Combo "System" i = none)
    (hbutton : ∀ label, io.Button label = false)
    (hcheck : ∀ label b, io.Checkbox label b = none)
    (hint : ∀ label v v_min v_max, io.SliderInt label v v_min v_max = none)
    (hdt : ∀ v v_min v_max, io.SliderFloat "dt (sim step)" v v_min v_max = none)
    (hjitter : ∀ v v_min v_max, io.SliderFloat "Origin Jitter" v v_min v_max = none)
    (hradius : ∀ v v_min v_max, io.SliderFloat "Spawn Radius" v v_min v_max = none)
    (hchanged : (draw_ui_parameters sin io s).2 = true) :
    ((draw_ui sin m io rng s).system
        = (reset_simulation_switch sin (draw_ui sin m io rng s)).1 ∧
      (draw_ui sin m io rng s).integrator = {} ∧
      (draw_ui sin m io rng s).time_accumulator = 0) ∧
    ((draw_ui sin m io rng s).state = s.state ∧
      (draw_ui sin m io rng s).t = s.t ∧
      (draw_ui sin m io rng s).particle_positions = s.particle_positions ∧
      (draw_ui sin m io rng s).particle_phases = s.particle_phases ∧
      (draw_ui sin m io rng s).current_system = s.current_system) := by
  have hq := draw_ui_quiet sin m io rng s hcombo hcheck hint hdt hjitter hradius (hbutton _)
  rw [hbutton] at hq
  simp only [Bool.false_eq_true, if_false] at hq
  rw [hq]
  obtain ⟨⟨f1, f2, f3, f4, f5⟩, hc, -⟩ := draw_ui_parameters_spec sin io s
  exact ⟨hc hchanged, f2, f3, f4, f5, f1⟩

/-- Witness of C25 (amended): the Lorenz state at `t = 5` with reference state `(2, 3, 4)`,
in a frame where only the `sigma` slider reports, with the new value 20. -/
theorem draw_ui_parameter_change_witness :
    (draw_ui (fun x : ℚ => x) ⟨fun x => x, fun _ _ => 0, fun _ => 0, fun _ => true, 6⟩
        ⟨fun _ _ => none, fun label _ _ _ => if label = "sigma" then some 20 else none,
          fun _ _ _ _ => none, fun _ _ => none, fun _ => false⟩
        (fun _ _ => 1) { lorenz_example with t := 5, state := [2, 3, 4] }).state = [2, 3, 4] ∧
    (draw_ui (fun x : ℚ => x) ⟨fun x => x, fun _ _ => 0, fun _ => 0, fun _ => true, 6⟩
        ⟨fun _ _ => none, fun label _ _ _ => if label = "sigma" then some 20 else none,
          fun _ _ _ _ => none, fun _ _ => none, fun _ => false⟩
        (fun _ _ => 1) { lorenz_example with t := 5, state := [2, 3, 4] }).t = 5 :=
  ⟨(draw_ui_parameter_change (fun x : ℚ => x)
      ⟨fun x => x, fun _ _ => 0, fun _ => 0, fun _ => true, 6⟩
      ⟨fun _ _ => none, fun label _ _ _ => if label = "sigma" then some 20 else none,
        fun _ _ _ _ => none, fun _ _ => none, fun _ => false⟩
      (fun _ _ => 1) { lorenz_example with t := 5, state := [2, 3, 4] }
      (fun _ => rfl) (fun _ => rfl) (fun _ _ => rfl) (fun _ _ _ _ => rfl)
      (fun _ _ _ => by simp) (fun _ _ _ => by simp) (fun _ _ _ => by simp)
      (by simp [draw_ui_parameters, draw_ui_switch, slider_float, lorenz_example])).2.1,
    (draw_ui_parameter_change (fun x : ℚ => x)
      ⟨fun x => x, fun _ _ => 0, fun _ => 0, fun _ => true, 6⟩
      ⟨fun _ _ => none, fun label _ _ _ => if label = "sigma" then some 20 else none,
        fun _ _ _ _ => none, fun _ _ => none, fun _ => false⟩
      (fun _ _ => 1) { lorenz_example with t := 5, state := [2, 3, 4] }
      (fun _ => rfl) (fun _ => rfl) (fun _ _ => rfl) (fun _ _ _ _ => rfl)
      (fun _ _ _ => by simp) (fun _ _ _ => by simp) (fun _ _ _ => by simp)
      (by simp [draw_ui_parameters, draw_ui_switch, slider_float, lorenz_example])).2.2.1⟩

/-- Claim C27: pressing the button labelled "Reset Args / Initial State" (in a frame where
no other widget reports) runs `reset_simulation` only: the reference state becomes the
initial condition of the current system and `t = 0`, but the twelve parameter records
are the ones from before the press and are not set to their compiled-in defaults. -/
theorem draw_ui_reset_button (sin : F → F) (m : cmath F) (io : imgui F)
    (rng : Nat → Nat → F) (s : simulation_state F)
    (hcombo : ∀ i, io.Combo "System" i = none)
    (hcheck : ∀ label b, io.Checkbox label b = none)
    (hint : ∀ label v v_min v_max, io.SliderInt label v v_min v_max = none)
    (hfloat : ∀ label v v_min v_max, io.SliderFloat label v v_min v_max = none)
    (hpress : io.Button "Reset Args / Initial State" = true)
    (hreseed : io.Button "Reseed Particles" = false) :
    ((draw_ui sin m io rng s).t = 0 ∧
      (draw_ui sin m io rng s).state = (reset_simulation_switch sin s).2 ∧
      (draw_ui sin m io rng s).current_system = s.current_system) ∧
    ((draw_ui sin m io rng s).lorenz_args = s.lorenz_args ∧
      (draw_ui sin m io rng s).rossler_args = s.rossler_args ∧
      (draw_ui sin m io rng s).thomas_args = s.thomas_args ∧
      (draw_ui sin m io rng s).aizawa_args = s.aizawa_args ∧
      (draw_ui sin m io rng s).dadras_args = s.dadras_args ∧
      (draw_ui sin m io rng s).chen_args = s.chen_args) ∧
    ((draw_ui sin m io rng s).lorenz83_args = s.lorenz83_args ∧
      (draw_ui sin m io rng s).halvorsen_args = s.halvorsen_args ∧
      (draw_ui sin m io rng s).rabinovich_args = s.rabinovich_args ∧
      (draw_ui sin m io rng s).three_scroll_args = s.three_scroll_args ∧
      (draw_ui sin m io rng s).sprott_args = s.sprott_args ∧
      (draw_ui sin m io rng s).four_wing_args = s.four_wing_args) := by
  have hq := draw_ui_quiet sin m io rng s hcombo hcheck hint (hfloat _) (hfloat _) (hfloat _)
    hreseed
  rw [hpress] at hq
  simp only [if_true] at hq
  have hu := (draw_ui_parameters_spec sin io s).2.2
    (by
      unfold draw_ui_parameters
      exact draw_ui_switch_silent sin io s hfloat)
  rw [hu] at hq
  rw [hq]
  exact reset_simulation_frame sin m (rng 1) s

/-- Witness of C27: the Lorenz state with `sigma = 20`, reference state `(2, 3, 4)` and
`t = 5`; after the press `sigma` is still 20, not the default 10, while the reference
state is `(1, 1, 1)` and `t = 0`. -/
theorem draw_ui_reset_button_witness :
    (draw_ui (fun x : ℚ => x) ⟨fun x => x, fun _ _ => 0, fun _ => 0, fun _ => true, 6⟩
        ⟨fun _ _ => none, fun _ _ _ _ => none, fun _ _ _ _ => none, fun _ _ => none,
          fun label => decide (label = "Reset Args / Initial State")⟩
        (fun _ _ => 1)
        { lorenz_example with
          lorenz_args := { sigma := 20 }, system := make_lorenz_system { sigma := 20 },
          t := 5, state := [2, 3, 4] }).lorenz_args.sigma = 20 ∧
    ({} : LorenzArgs ℚ).sigma = 10 ∧
    (draw_ui (fun x : ℚ => x) ⟨fun x => x, fun _ _ => 0, fun _ => 0, fun _ => true, 6⟩
        ⟨fun _ _ => none, fun _ _ _ _ => none, fun _ _ _ _ => none, fun _ _ => none,
          fun label => decide (label = "Reset Args / Initial State")⟩
        (fun _ _ => 1)
        { lorenz_example with
          lorenz_args := { sigma := 20 }, system := make_lorenz_system { sigma := 20 },
          t := 5, state := [2, 3, 4] }).t = 0 :=
  ⟨congrArg LorenzArgs.sigma
      (draw_ui_reset_button (fun x : ℚ => x)
        ⟨fun x => x, fun _ _ => 0, fun _ => 0, fun _ => true, 6⟩
        ⟨fun _ _ => none, fun _ _ _ _ => none, fun _ _ _ _ => none, fun _ _ => none,
          fun label => decide (label = "Reset Args / Initial State")⟩
        (fun _ _ => 1)
        { lorenz_example with
          lorenz_args := { sigma := 20 }, system := make_lorenz_system { sigma := 20 },
          t := 5, state := [2, 3, 4] }
        (fun _ => rfl) (fun _ _ => rfl) (fun _ _ _ _ => rfl) (fun _ _ _ _ => rfl)
        (by simp) (by simp)).2.1.1,
    by norm_num,
    (draw_ui_reset_button (fun x : ℚ => x)
        ⟨fun x => x, fun _ _ => 0, fun _ => 0, fun _ => true, 6⟩
        ⟨fun _ _ => none, fun _ _ _ _ => none, fun _ _ _ _ => none, fun _ _ => none,
          fun label => decide (label = "Reset Args / Initial State")⟩
        (fun _ _ => 1)
        { lorenz_example with
          lorenz_args := { sigma := 20 }, system := make_lorenz_system { sigma := 20 },
          t := 5, state := [2, 3, 4] }
        (fun _ => rfl) (fun _ _ => rfl) (fun _ _ _ _ => rfl) (fun _ _ _ _ => rfl)
        (by simp) (by simp)).1.1⟩

/-- Witness of C29: the state after `reset_simulation` on the Lorenz example followed by a
frame of `draw_ui` in which the `sigma` slider reports 20 is reachable, and its bound field
at `(1, 2, 3)` is `evaluate_derivative` there. -/
theorem reachable_same_field_witness :
    (draw_ui (fun x : ℚ => x) ⟨fun x => x, fun _ _ => 0, fun _ => 0, fun _ => true, 6⟩
        ⟨fun _ _ => none, fun label _ _ _ => if label = "sigma" then some 20 else none,
          fun _ _ _ _ => none, fun _ _ => none, fun _ => false⟩
        (fun _ _ => 1)
        (reset_simulation (fun x : ℚ => x)
          ⟨fun x => x, fun _ _ => 0, fun _ => 0, fun _ => true, 6⟩ (fun _ => 1)
          lorenz_example).1).system.deriv [1, 2, 3] [] 0
      = [(evaluate_derivative (fun x : ℚ => x)
            (draw_ui (fun x : ℚ => x) ⟨fun x => x, fun _ _ => 0, fun _ => 0, fun _ => true, 6⟩
              ⟨fun _ _ => none, fun label _ _ _ => if label = "sigma" then some 20 else none,
                fun _ _ _ _ => none, fun _ _ => none, fun _ => false⟩
              (fun _ _ => 1)
              (reset_simulation (fun x : ℚ => x)
                ⟨fun x => x, fun _ _ => 0, fun _ => 0, fun _ => true, 6⟩ (fun _ => 1)
                lorenz_example).1) ⟨1, 2, 3⟩).x,
         (evaluate_derivative (fun x : ℚ => x)
            (draw_ui (fun x : ℚ => x) ⟨fun x => x, fun _ _ => 0, fun _ => 0, fun _ => true, 6⟩
              ⟨fun _ _ => none, fun label _ _ _ => if label = "sigma" then some 20 else none,
                fun _ _ _ _ => none, fun _ _ => none, fun _ => false⟩
              (fun _ _ => 1)
              (reset_simulation (fun x : ℚ => x)
                ⟨fun x => x, fun _ _ => 0, fun _ => 0, fun _ => true, 6⟩ (fun _ => 1)
                lorenz_example).1) ⟨1, 2, 3⟩).y,
         (evaluate_derivative (fun x : ℚ => x)
            (draw_ui (fun x : ℚ => x) ⟨fun x => x, fun _ _ => 0, fun _ => 0, fun _ => true, 6⟩
              ⟨fun _ _ => none, fun label _ _ _ => if label = "sigma" then some 20 else none,
                fun _ _ _ _ => none, fun _ _ => none, fun _ => false⟩
              (fun _ _ => 1)
              (reset_simulation (fun x : ℚ => x)
                ⟨fun x => x, fun _ _ => 0, fun _ => 0, fun _ => true, 6⟩ (fun _ => 1)
                lorenz_example).1) ⟨1, 2, 3⟩).z] :=
  (reachable_same_field (fun x : ℚ => x) ⟨fun x => x, fun _ _ => 0, fun _ => 0, fun _ => true, 6⟩
    _ (reachable.ui _ _ _ (reachable.reset (fun _ => 1) lorenz_example)) 1 2 3 [] [] 0).2.2

end ParameterChangeClaim

/-! ## The clock in single precision -/

section Float32

/-- The rounding of a positive rational in the normal range: with `q = 2^(e-23)` the
quantum of the binade `[2^e, 2^(e+1))` of `x`, and `k` the integer within a half of
`x / q`, the result is `k * q`. -/
theorem float32_round_eq (x : ℚ) (e k : ℤ) (q : ℚ) (he : -126 ≤ e) (hq : q = 2 ^ (e - 23))
    (h1 : 2 ^ 23 * q ≤ x) (h2 : x < 2 ^ 24 * q)
    (hk1 : (k - 1 / 2) * q < x) (hk2 : x < (k + 1 / 2) * q) :
    float32_round x = k * q := by
  have hqpos : 0 < q := by rw [hq]; positivity
  have hxpos : 0 < x := lt_of_lt_of_le (by positivity) h1
  have hlog : Int.log 2 |x| = e := by
    rw [abs_of_pos hxpos]
    have e23 : (2 : ℚ) ^ e = 2 ^ 23 * q := by
      rw [hq, ← zpow_natCast, ← zpow_add₀ (by norm_num : (2 : ℚ) ≠ 0)]
      norm_num
    have e24 : (2 : ℚ) ^ (e + 1) = 2 ^ 24 * q := by
      rw [hq, ← zpow_natCast, ← zpow_add₀ (by norm_num : (2 : ℚ) ≠ 0)]
      congr 1
      push_cast
      ring
    apply le_antisymm
    · have := (Int.lt_zpow_iff_log_lt (b := 2) (by norm_num) hxpos (x := e + 1)).mp
        (by rw [show ((2 : ℕ) : ℚ) = 2 by norm_num, e24]; exact h2)
      omega
    · exact (Int.zpow_le_iff_le_log (b := 2) (by norm_num) hxpos).mp
        (by rw [show ((2 : ℕ) : ℚ) = 2 by norm_num, e23]; exact h1)
  unfold float32_round
  rw [if_neg hxpos.ne']
  simp only [hlog, max_eq_left he, ← hq]
  have hn1 : (k : ℚ) - 1 / 2 < x / q := by rw [lt_div_iff₀ hqpos]; exact hk1
  have hn2 : x / q < k + 1 / 2 := by rw [div_lt_iff₀ hqpos]; exact hk2
  generalize x / q = n at hn1 hn2
  have hf1 : (⌊n⌋ : ℚ) ≤ n := Int.floor_le n
  have hf2 : n < ⌊n⌋ + 1 := Int.lt_floor_add_one n
  congr 1
  split_ifs with c1 c2 c3
  · have a1 : (⌊n⌋ : ℚ) < k + 1 := by linarith
    have a2 : (k : ℚ) < ⌊n⌋ + 1 := by linarith
    have a1' : ⌊n⌋ < k + 1 := by exact_mod_cast a1
    have a2' : k < ⌊n⌋ + 1 := by exact_mod_cast a2
    have : ⌊n⌋ = k := by omega
    exact_mod_cast this
  · have a1 : (⌊n⌋ : ℚ) + 1 < k + 1 := by linarith
    have a2 : (k : ℚ) < ⌊n⌋ + 1 + 1 := by linarith
    have a1' : ⌊n⌋ + 1 < k + 1 := by exact_mod_cast a1
    have a2' : k < ⌊n⌋ + 1 + 1 := by exact_mod_cast a2
    have : ⌊n⌋ + 1 = k := by omega
    exact_mod_cast this
  · exfalso
    have hh : n - ⌊n⌋ = 1 / 2 := le_antisymm (not_lt.mp c2) (not_lt.mp c1)
    have a1 : (k : ℚ) < ⌊n⌋ + 1 := by linarith
    have a2 : (⌊n⌋ : ℚ) < k := by linarith
    have a1' : k < ⌊n⌋ + 1 := by exact_mod_cast a1
    have a2' : ⌊n⌋ < k := by exact_mod_cast a2
    omega
  · exfalso
    have hh : n - ⌊n⌋ = 1 / 2 := le_antisymm (not_lt.mp c2) (not_lt.mp c1)
    have a1 : (k : ℚ) < ⌊n⌋ + 1 := by linarith
    have a2 : (⌊n⌋ : ℚ) < k := by linarith
    have a1' : k < ⌊n⌋ + 1 := by exact_mod_cast a1
    have a2' : ⌊n⌋ < k := by exact_mod_cast a2
    omega

/-- The rounding of a positive rational in the normal range that lies half-way between two
neighbouring values `f * q` and `(f + 1) * q`: the one with the even multiplier. -/
theorem float32_round_tie (x : ℚ) (e f : ℤ) (q : ℚ) (he : -126 ≤ e) (hq : q = 2 ^ (e - 23))
    (h1 : 2 ^ 23 * q ≤ x) (h2 : x < 2 ^ 24 * q) (hx : x = (f + 1 / 2) * q) :
    float32_round x = (if f % 2 = 0 then f else f + 1 : ℤ) * q := by
  have hqpos : 0 < q := by rw [hq]; positivity
  have hxpos : 0 < x := lt_of_lt_of_le (by positivity) h1
  have hlog : Int.log 2 |x| = e := by
    rw [abs_of_pos hxpos]
    have e23 : (2 : ℚ) ^ e = 2 ^ 23 * q := by
      rw [hq, ← zpow_natCast, ← zpow_add₀ (by norm_num : (2 : ℚ) ≠ 0)]
      norm_num
    have e24 : (2 : ℚ) ^ (e + 1) = 2 ^ 24 * q := by
      rw [hq, ← zpow_natCast, ← zpow_add₀ (by norm_num : (2 : ℚ) ≠ 0)]
      congr 1
      push_cast
      ring
    apply le_antisymm
    · have := (Int.lt_zpow_iff_log_lt (b := 2) (by norm_num) hxpos (x := e + 1)).mp
        (by rw [show ((2 : ℕ) : ℚ) = 2 by norm_num, e24]; exact h2)
      omega
    · exact (Int.zpow_le_iff_le_log (b := 2) (by norm_num) hxpos).mp
        (by rw [show ((2 : ℕ) : ℚ) = 2 by norm_num, e23]; exact h1)
  have hn : x / q = f + 1 / 2 := by rw [hx, mul_div_assoc, div_self hqpos.ne', mul_one]
  have hfl : ⌊((f : ℚ) + 1 / 2)⌋ = f := by
    rw [Int.floor_eq_iff]
    constructor <;> norm_num
  unfold float32_round
  rw [if_neg hxpos.ne']
  simp only [hlog, max_eq_left he, ← hq, hn, hfl]
  norm_num

end Float32

section RoundedClockLemmas

variable {F : Type} [LinearOrderedField F]

/-- The rounded loop never counts beyond `max_iterations`. -/
theorem step_simulation_rounded_loop_count (rnd : F → F) (h : F) :
    ∀ (fuel : Nat) (acc : F) (it : Nat), it ≤ max_iterations →
      (step_simulation_rounded_loop rnd h fuel acc it).2 ≤ max_iterations := by
  intro fuel
  induction fuel with
  | zero => exact fun acc it hit => hit
  | succ fuel ih =>
    intro acc it hit
    unfold step_simulation_rounded_loop
    split_ifs with hc
    · exact ih _ _ hc.2
    · exact hit

/-- Without rounding, the rounded loop is the loop of `step_simulation` on the clock. -/
theorem step_simulation_rounded_loop_exact (sin : F → F) (hw : Nat) (h : F) :
    ∀ (fuel : Nat) (s : simulation_state F) (it : Nat),
      step_simulation_rounded_loop (fun x => x) h fuel s.time_accumulator it
        = ((step_simulation_loop sin hw h fuel s it).1.time_accumulator,
            (step_simulation_loop sin hw h fuel s it).2) := by
  intro fuel
  induction fuel with
  | zero => exact fun s it => rfl
  | succ fuel ih =>
    intro s it
    rw [step_simulation_loop_succ]
    unfold step_simulation_rounded_loop
    split_ifs with hc
    · rw [← ih, step_simulation_body_time_accumulator]
    · rfl

/-- Without rounding, `step_simulation_rounded` is the clock of `step_simulation`. -/
theorem step_simulation_rounded_exact (sin : F → F) (hw : Nat) (s : simulation_state F)
    (frame_dt : F) :
    step_simulation_rounded (fun x => x) s frame_dt
      = ((step_simulation sin hw s frame_dt).1.time_accumulator,
          (step_simulation sin hw s frame_dt).2) := by
  rcases Bool.eq_false_or_eq_true s.paused with hp | hp
  · rw [step_simulation_of_paused sin hw s frame_dt hp]
    unfold step_simulation_rounded
    rw [if_pos hp]
  · rw [step_simulation_running sin hw s frame_dt hp]
    have h2 : (max_accumulator : F) = 2 := by unfold max_accumulator; norm_num
    have h0 : (0.0 : F) = 0 := by norm_num
    have hr : step_simulation_rounded (fun x => x) s frame_dt
        = if (step_simulation_rounded_loop (fun x => x) (step_dt s) max_iterations
              (min (s.time_accumulator + frame_dt) 2) 0).2 = max_iterations then
            (0, (step_simulation_rounded_loop (fun x => x) (step_dt s) max_iterations
              (min (s.time_accumulator + frame_dt) 2) 0).2)
          else step_simulation_rounded_loop (fun x => x) (step_dt s) max_iterations
              (min (s.time_accumulator + frame_dt) 2) 0 := by
      unfold step_simulation_rounded step_dt
      simp only [hp, Bool.false_eq_true, if_false, h2, h0]
      by_cases hc : (2 : F) < s.time_accumulator + frame_dt
      · simp only [if_pos hc, min_eq_right hc.le]
      · simp only [if_neg hc, min_eq_left (not_lt.mp hc)]
    have hl := step_simulation_rounded_loop_exact sin hw (step_dt s) max_iterations
      { s with time_accumulator := min (s.time_accumulator + frame_dt) 2 } 0
    simp only [] at hl
    rw [hr, hl]
    generalize step_simulation_loop sin hw (step_dt s) max_iterations
      { s with time_accumulator := min (s.time_accumulator + frame_dt) 2 } 0 = r
    split_ifs <;> rfl

/-- A run of the rounded loop along a given trace of accumulator values: each value is at
least `h` and is followed by the rounded difference, and the last one is below `h`. -/
theorem step_simulation_rounded_loop_trace (rnd : F → F) (h : F) :
    ∀ (tr : List F) (acc last : F) (it fuel : Nat), tr.length < fuel →
      it + tr.length ≤ max_iterations →
      List.Chain (fun a b => h ≤ a ∧ b = rnd (a - h)) acc tr →
      (acc :: tr).getLast? = some last → last < h →
      step_simulation_rounded_loop rnd h fuel acc it = (last, it + tr.length) := by
  intro tr
  induction tr with
  | nil =>
    intro acc last it fuel hfuel _ _ hlast hstop
    obtain ⟨f, rfl⟩ : ∃ f, fuel = f + 1 := ⟨fuel - 1, by simp at hfuel; omega⟩
    simp only [List.getLast?_singleton, Option.some.injEq] at hlast
    subst hlast
    unfold step_simulation_rounded_loop
    rw [if_neg (fun hc => absurd hc.1 (not_le.mpr hstop))]
    rfl
  | cons b tr ih =>
    intro acc last it fuel hfuel hcap hchain hlast hstop
    obtain ⟨f, rfl⟩ : ∃ f, fuel = f + 1 := ⟨fuel - 1, by simp at hfuel; omega⟩
    rw [List.chain_cons] at hchain
    obtain ⟨⟨hge, hb⟩, hrest⟩ := hchain
    simp only [List.length_cons] at hfuel hcap
    unfold step_simulation_rounded_loop
    rw [if_pos ⟨hge, by omega⟩, ← hb]
    rw [List.getLast?_cons_cons] at hlast
    rw [ih b last (it + 1) f (by omega) (by omega) hrest hlast hstop]
    simp only [List.length_cons]
    congr 1
    omega

end RoundedClockLemmas

section RoundedClockRun

variable {F : Type} [LinearOrderedField F]

/-- A non-paused call of the rounded clock, from the clamped accumulator `A`, the step `h`
and the result `r` of the loop, when the loop stops below the cap. -/
theorem step_simulation_rounded_of_loop (rnd : F → F) (s : simulation_state F)
    (frame_dt A h : F) (r : F × Nat) (hp : s.paused = false)
    (hA : (if max_accumulator < rnd (s.time_accumulator + frame_dt) then max_accumulator
      else rnd (s.time_accumulator + frame_dt)) = A)
    (hh : glm_clamp s.base_dt (rnd 1e-6) (rnd 0.2) = h)
    (hr : step_simulation_rounded_loop rnd h max_iterations A 0 = r)
    (hn : r.2 ≠ max_iterations) :
    step_simulation_rounded rnd s frame_dt = r := by
  unfold step_simulation_rounded
  simp only [hp, Bool.false_eq_true, if_false, hA, hh, hr, if_neg hn]

end RoundedClockRun

section ClockCounterexample

/-- Claim C3, counterexample: the clock of `step_simulation` in single precision, from a
zero accumulator with `frame_dt = 2`.  With `base_dt = 0.05f` (the `float` nearest to
`0.05`, which the clamp leaves as it is) every subtraction `time_accumulator -= step_dt`
is rounded, the loop runs 40 times and leaves the accumulator `105 / 134217728`, while
`2.0 / step_dt < 40`.  With `base_dt` the `float` nearest to `2 / 13` the loop runs 13
times, while `2.0 / step_dt < 13` and also the single-precision quotient
`2.0f / step_dt` is below 13. -/
theorem step_simulation_bounded_counterexample :
    (float32_round 0.05 = 13421773 / 268435456 ∧
      step_simulation_rounded float32_round
          { lorenz_example with base_dt := 13421773 / 268435456 } 2
        = (105 / 134217728, 40) ∧
      (2 : ℚ) / glm_clamp (13421773 / 268435456) (float32_round 1e-6) (float32_round 0.2) < 40) ∧
    (float32_round (2 / 13) = 10324441 / 67108864 ∧
      step_simulation_rounded float32_round
          { lorenz_example with base_dt := 10324441 / 67108864 } 2
        = (3 / 33554432, 13) ∧
      (2 : ℚ) / glm_clamp (10324441 / 67108864) (float32_round 1e-6) (float32_round 0.2) < 13 ∧
      float32_round
        (2 / glm_clamp (10324441 / 67108864) (float32_round 1e-6) (float32_round 0.2)) < 13) := by
  have r005 : float32_round (0.05) = 13421773 / 268435456 :=
    (float32_round_eq (0.05) (-5) 13421773 (1 / 268435456) (by norm_num) (by norm_num)
      (by norm_num) (by norm_num) (by norm_num) (by norm_num)).trans (by norm_num)
  have r213 : float32_round (2 / 13) = 10324441 / 67108864 :=
    (float32_round_eq (2 / 13) (-3) 10324441 (1 / 67108864) (by norm_num) (by norm_num)
      (by norm_num) (by norm_num) (by norm_num) (by norm_num)).trans (by norm_num)
  have rlo : float32_round (1e-6) = 8796093 / 8796093022208 :=
    (float32_round_eq (1e-6) (-20) 8796093 (1 / 8796093022208) (by norm_num) (by norm_num)
      (by norm_num) (by norm_num) (by norm_num) (by norm_num)).trans (by norm_num)
  have rhi : float32_round (0.2) = 13421773 / 67108864 :=
    (float32_round_eq (0.2) (-3) 13421773 (1 / 67108864) (by norm_num) (by norm_num)
      (by norm_num) (by norm_num) (by norm_num) (by norm_num)).trans (by norm_num)
  have r2 : float32_round (2) = 2 :=
    (float32_round_eq (2) 1 8388608 (1 / 4194304) (by norm_num) (by norm_num)
      (by norm_num) (by norm_num) (by norm_num) (by norm_num)).trans (by norm_num)
  have rdiv : float32_round (2 / (10324441 / 67108864)) = 13631487 / 1048576 :=
    (float32_round_eq (2 / (10324441 / 67108864)) 3 13631487 (1 / 1048576) (by norm_num) (by norm_num)
      (by norm_num) (by norm_num) (by norm_num) (by norm_num)).trans (by norm_num)
  have c1 : glm_clamp (13421773 / 268435456 : ℚ) (float32_round 1e-6) (float32_round 0.2)
      = 13421773 / 268435456 := by
    rw [rlo, rhi, glm_clamp_eq]
    norm_num
  have c2 : glm_clamp (10324441 / 67108864 : ℚ) (float32_round 1e-6) (float32_round 0.2)
      = 10324441 / 67108864 := by
    rw [rlo, rhi, glm_clamp_eq]
    norm_num
  have hacc : ∀ b : ℚ,
      (if (max_accumulator : ℚ)
            < float32_round (({ lorenz_example with base_dt := b } :
                simulation_state ℚ).time_accumulator + 2) then
          max_accumulator
        else float32_round (({ lorenz_example with base_dt := b } :
                simulation_state ℚ).time_accumulator + 2)) = 2 := by
    intro b
    have e : (({ lorenz_example with base_dt := b } : simulation_state ℚ).time_accumulator + 2)
        = 2 := by
      show (0.0 : ℚ) + 2 = 2
      norm_num
    rw [e, r2]
    norm_num [max_accumulator]
  have a0 : float32_round (2 - 13421773 / 268435456) = 8178893 / 4194304 :=
    (float32_round_eq (2 - 13421773 / 268435456) 0 16357786 (1 / 8388608) (by norm_num) (by norm_num)
      (by norm_num) (by norm_num) (by norm_num) (by norm_num)).trans (by norm_num)
  have a1 : float32_round (8178893 / 4194304 - 13421773 / 268435456) = 3984589 / 2097152 :=
    (float32_round_eq (8178893 / 4194304 - 13421773 / 268435456) 0 15938356 (1 / 8388608) (by norm_num) (by norm_num)
      (by norm_num) (by norm_num) (by norm_num) (by norm_num)).trans (by norm_num)
  have a2 : float32_round (3984589 / 2097152 - 13421773 / 268435456) = 7759463 / 4194304 :=
    (float32_round_eq (3984589 / 2097152 - 13421773 / 268435456) 0 15518926 (1 / 8388608) (by norm_num) (by norm_num)
      (by norm_num) (by norm_num) (by norm_num) (by norm_num)).trans (by norm_num)
  have a3 : float32_round (7759463 / 4194304 - 13421773 / 268435456) = 1887437 / 1048576 :=
    (float32_round_eq (7759463 / 4194304 - 13421773 / 268435456) 0 15099496 (1 / 8388608) (by norm_num) (by norm_num)
      (by norm_num) (by norm_num) (by norm_num) (by norm_num)).trans (by norm_num)
  have a4 : float32_round (1887437 / 1048576 - 13421773 / 268435456) = 7340033 / 4194304 :=
    (float32_round_eq (1887437 / 1048576 - 13421773 / 268435456) 0 14680066 (1 / 8388608) (by norm_num) (by norm_num)
      (by norm_num) (by norm_num) (by norm_num) (by norm_num)).trans (by norm_num)
  have a5 : float32_round (7340033 / 4194304 - 13421773 / 268435456) = 3565159 / 2097152 :=
    (float32_round_eq (7340033 / 4194304 - 13421773 / 268435456) 0 14260636 (1 / 8388608) (by norm_num) (by norm_num)
      (by norm_num) (by norm_num) (by norm_num) (by norm_num)).trans (by norm_num)
  have a6 : float32_round (3565159 / 2097152 - 13421773 / 268435456) = 6920603 / 4194304 :=
    (float32_round_eq (3565159 / 2097152 - 13421773 / 268435456) 0 13841206 (1 / 8388608) (by norm_num) (by norm_num)
      (by norm_num) (by norm_num) (by norm_num) (by norm_num)).trans (by norm_num)
  have a7 : float32_round (6920603 / 4194304 - 13421773 / 268435456) = 838861 / 524288 :=
    (float32_round_eq (6920603 / 4194304 - 13421773 / 268435456) 0 13421776 (1 / 8388608) (by norm_num) (by norm_num)
      (by norm_num) (by norm_num) (by norm_num) (by norm_num)).trans (by norm_num)
  have a8 : float32_round (838861 / 524288 - 13421773 / 268435456) = 6501173 / 4194304 :=
    (float32_round_eq (838861 / 524288 - 13421773 / 268435456) 0 13002346 (1 / 8388608) (by norm_num) (by norm_num)
      (by norm_num) (by norm_num) (by norm_num) (by norm_num)).trans (by norm_num)
  have a9 : float32_round (6501173 / 4194304 - 13421773 / 268435456) = 3145729 / 2097152 :=
    (float32_round_eq (6501173 / 4194304 - 13421773 / 268435456) 0 12582916 (1 / 8388608) (by norm_num) (by norm_num)
      (by norm_num) (by norm_num) (by norm_num) (by norm_num)).trans (by norm_num)
  have a10 : float32_round (3145729 / 2097152 - 13421773 / 268435456) = 6081743 / 4194304 :=
    (float32_round_eq (3145729 / 2097152 - 13421773 / 268435456) 0 12163486 (1 / 8388608) (by norm_num) (by norm_num)
      (by norm_num) (by norm_num) (by norm_num) (by norm_num)).trans (by norm_num)
  have a11 : float32_round (6081743 / 4194304 - 13421773 / 268435456) = 1468007 / 1048576 :=
    (float32_round_eq (6081743 / 4194304 - 13421773 / 268435456) 0 11744056 (1 / 8388608) (by norm_num) (by norm_num)
      (by norm_num) (by norm_num) (by norm_num) (by norm_num)).trans (by norm_num)
  have a12 : float32_round (1468007 / 1048576 - 13421773 / 268435456) = 5662313 / 4194304 :=
    (float32_round_eq (1468007 / 1048576 - 13421773 / 268435456) 0 11324626 (1 / 8388608) (by norm_num) (by norm_num)
      (by norm_num) (by norm_num) (by norm_num) (by norm_num)).trans (by norm_num)
  have a13 : float32_round (5662313 / 4194304 - 13421773 / 268435456) = 2726299 / 2097152 :=
    (float32_round_eq (5662313 / 4194304 - 13421773 / 268435456) 0 10905196 (1 / 8388608) (by norm_num) (by norm_num)
      (by norm_num) (by norm_num) (by norm_num) (by norm_num)).trans (by norm_num)
  have a14 : float32_round (2726299 / 2097152 - 13421773 / 268435456) = 5242883 / 4194304 :=
    (float32_round_eq (2726299 / 2097152 - 13421773 / 268435456) 0 10485766 (1 / 8388608) (by norm_num) (by norm_num)
      (by norm_num) (by norm_num) (by norm_num) (by norm_num)).trans (by norm_num)
  have a15 : float32_round (5242883 / 4194304 - 13421773 / 268435456) = 314573 / 262144 :=
    (float32_round_eq (5242883 / 4194304 - 13421773 / 268435456) 0 10066336 (1 / 8388608) (by norm_num) (by norm_num)
      (by norm_num) (by norm_num) (by norm_num) (by norm_num)).trans (by norm_num)
  have a16 : float32_round (314573 / 262144 - 13421773 / 268435456) = 4823453 / 4194304 :=
    (float32_round_eq (314573 / 262144 - 13421773 / 268435456) 0 9646906 (1 / 8388608) (by norm_num) (by norm_num)
      (by norm_num) (by norm_num) (by norm_num) (by norm_num)).trans (by norm_num)
  have a17 : float32_round (4823453 / 4194304 - 13421773 / 268435456) = 2306869 / 2097152 :=
    (float32_round_eq (4823453 / 4194304 - 13421773 / 268435456) 0 9227476 (1 / 8388608) (by norm_num) (by norm_num)
      (by norm_num) (by norm_num) (by norm_num) (by norm_num)).trans (by norm_num)
  have a18 : float32_round (2306869 / 2097152 - 13421773 / 268435456) = 4404023 / 4194304 :=
    (float32_round_eq (2306869 / 2097152 - 13421773 / 268435456) 0 8808046 (1 / 8388608) (by norm_num) (by norm_num)
      (by norm_num) (by norm_num) (by norm_num) (by norm_num)).trans (by norm_num)
  have a19 : float32_round (4404023 / 4194304 - 13421773 / 268435456) = 1048577 / 1048576 :=
    (float32_round_eq (4404023 / 4194304 - 13421773 / 268435456) 0 8388616 (1 / 8388608) (by norm_num) (by norm_num)
      (by norm_num) (by norm_num) (by norm_num) (by norm_num)).trans (by norm_num)
  have a20 : float32_round (1048577 / 1048576 - 13421773 / 268435456) = 15938371 / 16777216 :=
    (float32_round_eq (1048577 / 1048576 - 13421773 / 268435456) (-1) 15938371 (1 / 16777216) (by norm_num) (by norm_num)
      (by norm_num) (by norm_num) (by norm_num) (by norm_num)).trans (by norm_num)
  have a21 : float32_round (15938371 / 16777216 - 13421773 / 268435456) = 7549755 / 8388608 :=
    (float32_round_eq (15938371 / 16777216 - 13421773 / 268435456) (-1) 15099510 (1 / 16777216) (by norm_num) (by norm_num)
      (by norm_num) (by norm_num) (by norm_num) (by norm_num)).trans (by norm_num)
  have a22 : float32_round (7549755 / 8388608 - 13421773 / 268435456) = 14260649 / 16777216 :=
    (float32_round_eq (7549755 / 8388608 - 13421773 / 268435456) (-1) 14260649 (1 / 16777216) (by norm_num) (by norm_num)
      (by norm_num) (by norm_num) (by norm_num) (by norm_num)).trans (by norm_num)
  have a23 : float32_round (14260649 / 16777216 - 13421773 / 268435456) = 3355447 / 4194304 :=
    (float32_round_eq (14260649 / 16777216 - 13421773 / 268435456) (-1) 13421788 (1 / 16777216) (by norm_num) (by norm_num)
      (by norm_num) (by norm_num) (by norm_num) (by norm_num)).trans (by norm_num)
  have a24 : float32_round (3355447 / 4194304 - 13421773 / 268435456) = 12582927 / 16777216 :=
    (float32_round_eq (3355447 / 4194304 - 13421773 / 268435456) (-1) 12582927 (1 / 16777216) (by norm_num) (by norm_num)
      (by norm_num) (by norm_num) (by norm_num) (by norm_num)).trans (by norm_num)
  have a25 : float32_round (12582927 / 16777216 - 13421773 / 268435456) = 5872033 / 8388608 :=
    (float32_round_eq (12582927 / 16777216 - 13421773 / 268435456) (-1) 11744066 (1 / 16777216) (by norm_num) (by norm_num)
      (by norm_num) (by norm_num) (by norm_num) (by norm_num)).trans (by norm_num)
  have a26 : float32_round (5872033 / 8388608 - 13421773 / 268435456) = 10905205 / 16777216 :=
    (float32_round_eq (5872033 / 8388608 - 13421773 / 268435456) (-1) 10905205 (1 / 16777216) (by norm_num) (by norm_num)
      (by norm_num) (by norm_num) (by norm_num) (by norm_num)).trans (by norm_num)
  have a27 : float32_round (10905205 / 16777216 - 13421773 / 268435456) = 1258293 / 2097152 :=
    (float32_round_eq (10905205 / 16777216 - 13421773 / 268435456) (-1) 10066344 (1 / 16777216) (by norm_num) (by norm_num)
      (by norm_num) (by norm_num) (by norm_num) (by norm_num)).trans (by norm_num)
  have a28 : float32_round (1258293 / 2097152 - 13421773 / 268435456) = 9227483 / 16777216 :=
    (float32_round_eq (1258293 / 2097152 - 13421773 / 268435456) (-1) 9227483 (1 / 16777216) (by norm_num) (by norm_num)
      (by norm_num) (by norm_num) (by norm_num) (by norm_num)).trans (by norm_num)
  have a29 : float32_round (9227483 / 16777216 - 13421773 / 268435456) = 4194311 / 8388608 :=
    (float32_round_eq (9227483 / 16777216 - 13421773 / 268435456) (-1) 8388622 (1 / 16777216) (by norm_num) (by norm_num)
      (by norm_num) (by norm_num) (by norm_num) (by norm_num)).trans (by norm_num)
  have a30 : float32_round (4194311 / 8388608 - 13421773 / 268435456) = 7549761 / 16777216 :=
    (float32_round_eq (4194311 / 8388608 - 13421773 / 268435456) (-2) 15099522 (1 / 33554432) (by norm_num) (by norm_num)
      (by norm_num) (by norm_num) (by norm_num) (by norm_num)).trans (by norm_num)
  have a31 : float32_round (7549761 / 16777216 - 13421773 / 268435456) = 1677725 / 4194304 :=
    (float32_round_eq (7549761 / 16777216 - 13421773 / 268435456) (-2) 13421800 (1 / 33554432) (by norm_num) (by norm_num)
      (by norm_num) (by norm_num) (by norm_num) (by norm_num)).trans (by norm_num)
  have a32 : float32_round (1677725 / 4194304 - 13421773 / 268435456) = 5872039 / 16777216 :=
    (float32_round_eq (1677725 / 4194304 - 13421773 / 268435456) (-2) 11744078 (1 / 33554432) (by norm_num) (by norm_num)
      (by norm_num) (by norm_num) (by norm_num) (by norm_num)).trans (by norm_num)
  have a33 : float32_round (5872039 / 16777216 - 13421773 / 268435456) = 2516589 / 8388608 :=
    (float32_round_eq (5872039 / 16777216 - 13421773 / 268435456) (-2) 10066356 (1 / 33554432) (by norm_num) (by norm_num)
      (by norm_num) (by norm_num) (by norm_num) (by norm_num)).trans (by norm_num)
  have a34 : float32_round (2516589 / 8388608 - 13421773 / 268435456) = 4194317 / 16777216 :=
    (float32_round_eq (2516589 / 8388608 - 13421773 / 268435456) (-2) 8388634 (1 / 33554432) (by norm_num) (by norm_num)
      (by norm_num) (by norm_num) (by norm_num) (by norm_num)).trans (by norm_num)
  have a35 : float32_round (4194317 / 16777216 - 13421773 / 268435456) = 13421825 / 67108864 :=
    (float32_round_eq (4194317 / 16777216 - 13421773 / 268435456) (-3) 13421825 (1 / 67108864) (by norm_num) (by norm_num)
      (by norm_num) (by norm_num) (by norm_num) (by norm_num)).trans (by norm_num)
  have a36 : float32_round (13421825 / 67108864 - 13421773 / 268435456) = 5033191 / 33554432 :=
    (float32_round_eq (13421825 / 67108864 - 13421773 / 268435456) (-3) 10066382 (1 / 67108864) (by norm_num) (by norm_num)
      (by norm_num) (by norm_num) (by norm_num) (by norm_num)).trans (by norm_num)
  have a37 : float32_round (5033191 / 33554432 - 13421773 / 268435456) = 6710939 / 67108864 :=
    (float32_round_tie (5033191 / 33554432 - 13421773 / 268435456) (-4) 13421877 (1 / 134217728) (by norm_num) (by norm_num)
      (by norm_num) (by norm_num) (by norm_num)).trans (by norm_num)
  have a38 : float32_round (6710939 / 67108864 - 13421773 / 268435456) = 13421983 / 268435456 :=
    (float32_round_eq (6710939 / 67108864 - 13421773 / 268435456) (-5) 13421983 (1 / 268435456) (by norm_num) (by norm_num)
      (by norm_num) (by norm_num) (by norm_num) (by norm_num)).trans (by norm_num)
  have a39 : float32_round (13421983 / 268435456 - 13421773 / 268435456) = 105 / 134217728 :=
    (float32_round_eq (13421983 / 268435456 - 13421773 / 268435456) (-21) 13762560 (1 / 17592186044416) (by norm_num) (by norm_num)
      (by norm_num) (by norm_num) (by norm_num) (by norm_num)).trans (by norm_num)
  have a_loop : step_simulation_rounded_loop float32_round (13421773 / 268435456) max_iterations 2 0
      = (105 / 134217728, 40) := by
    have ht := step_simulation_rounded_loop_trace float32_round (13421773 / 268435456 : ℚ)
      [8178893 / 4194304, 3984589 / 2097152, 7759463 / 4194304, 1887437 / 1048576, 7340033 / 4194304, 3565159 / 2097152, 6920603 / 4194304, 838861 / 524288, 6501173 / 4194304, 3145729 / 2097152, 6081743 / 4194304, 1468007 / 1048576, 5662313 / 4194304, 2726299 / 2097152, 5242883 / 4194304, 314573 / 262144, 4823453 / 4194304, 2306869 / 2097152, 4404023 / 4194304, 1048577 / 1048576, 15938371 / 16777216, 7549755 / 8388608, 14260649 / 16777216, 3355447 / 4194304, 12582927 / 16777216, 5872033 / 8388608, 10905205 / 16777216, 1258293 / 2097152, 9227483 / 16777216, 4194311 / 8388608, 7549761 / 16777216, 1677725 / 4194304, 5872039 / 16777216, 2516589 / 8388608, 4194317 / 16777216, 13421825 / 67108864, 5033191 / 33554432, 6710939 / 67108864, 13421983 / 268435456, 105 / 134217728]
      2 (105 / 134217728) 0 max_iterations (by simp [max_iterations]) (by simp [max_iterations])
      (by
        simp only [List.chain_cons, List.Chain.nil, and_true]
        exact ⟨⟨by norm_num, a0.symm⟩,
          ⟨by norm_num, a1.symm⟩,
          ⟨by norm_num, a2.symm⟩,
          ⟨by norm_num, a3.symm⟩,
          ⟨by norm_num, a4.symm⟩,
          ⟨by norm_num, a5.symm⟩,
          ⟨by norm_num, a6.symm⟩,
          ⟨by norm_num, a7.symm⟩,
          ⟨by norm_num, a8.symm⟩,
          ⟨by norm_num, a9.symm⟩,
          ⟨by norm_num, a10.symm⟩,
          ⟨by norm_num, a11.symm⟩,
          ⟨by norm_num, a12.symm⟩,
          ⟨by norm_num, a13.symm⟩,
          ⟨by norm_num, a14.symm⟩,
          ⟨by norm_num, a15.symm⟩,
          ⟨by norm_num, a16.symm⟩,
          ⟨by norm_num, a17.symm⟩,
          ⟨by norm_num, a18.symm⟩,
          ⟨by norm_num, a19.symm⟩,
          ⟨by norm_num, a20.symm⟩,
          ⟨by norm_num, a21.symm⟩,
          ⟨by norm_num, a22.symm⟩,
          ⟨by norm_num, a23.symm⟩,
          ⟨by norm_num, a24.symm⟩,
          ⟨by norm_num, a25.symm⟩,
          ⟨by norm_num, a26.symm⟩,
          ⟨by norm_num, a27.symm⟩,
          ⟨by norm_num, a28.symm⟩,
          ⟨by norm_num, a29.symm⟩,
          ⟨by norm_num, a30.symm⟩,
          ⟨by norm_num, a31.symm⟩,
          ⟨by norm_num, a32.symm⟩,
          ⟨by norm_num, a33.symm⟩,
          ⟨by norm_num, a34.symm⟩,
          ⟨by norm_num, a35.symm⟩,
          ⟨by norm_num, a36.symm⟩,
          ⟨by norm_num, a37.symm⟩,
          ⟨by norm_num, a38.symm⟩,
          ⟨by norm_num, a39.symm⟩⟩)
      (by simp) (by norm_num)
    simpa using ht
  have b0 : float32_round (2 - 10324441 / 67108864) = 15486661 / 8388608 :=
    (float32_round_eq (2 - 10324441 / 67108864) 0 15486661 (1 / 8388608) (by norm_num) (by norm_num)
      (by norm_num) (by norm_num) (by norm_num) (by norm_num)).trans (by norm_num)
  have b1 : float32_round (15486661 / 8388608 - 10324441 / 67108864) = 7098053 / 4194304 :=
    (float32_round_eq (15486661 / 8388608 - 10324441 / 67108864) 0 14196106 (1 / 8388608) (by norm_num) (by norm_num)
      (by norm_num) (by norm_num) (by norm_num) (by norm_num)).trans (by norm_num)
  have b2 : float32_round (7098053 / 4194304 - 10324441 / 67108864) = 12905551 / 8388608 :=
    (float32_round_eq (7098053 / 4194304 - 10324441 / 67108864) 0 12905551 (1 / 8388608) (by norm_num) (by norm_num)
      (by norm_num) (by norm_num) (by norm_num) (by norm_num)).trans (by norm_num)
  have b3 : float32_round (12905551 / 8388608 - 10324441 / 67108864) = 2903749 / 2097152 :=
    (float32_round_eq (12905551 / 8388608 - 10324441 / 67108864) 0 11614996 (1 / 8388608) (by norm_num) (by norm_num)
      (by norm_num) (by norm_num) (by norm_num) (by norm_num)).trans (by norm_num)
  have b4 : float32_round (2903749 / 2097152 - 10324441 / 67108864) = 10324441 / 8388608 :=
    (float32_round_eq (2903749 / 2097152 - 10324441 / 67108864) 0 10324441 (1 / 8388608) (by norm_num) (by norm_num)
      (by norm_num) (by norm_num) (by norm_num) (by norm_num)).trans (by norm_num)
  have b5 : float32_round (10324441 / 8388608 - 10324441 / 67108864) = 4516943 / 4194304 :=
    (float32_round_eq (10324441 / 8388608 - 10324441 / 67108864) 0 9033886 (1 / 8388608) (by norm_num) (by norm_num)
      (by norm_num) (by norm_num) (by norm_num) (by norm_num)).trans (by norm_num)
  have b6 : float32_round (4516943 / 4194304 - 10324441 / 67108864) = 7743331 / 8388608 :=
    (float32_round_eq (4516943 / 4194304 - 10324441 / 67108864) (-1) 15486662 (1 / 16777216) (by norm_num) (by norm_num)
      (by norm_num) (by norm_num) (by norm_num) (by norm_num)).trans (by norm_num)
  have b7 : float32_round (7743331 / 8388608 - 10324441 / 67108864) = 806597 / 1048576 :=
    (float32_round_eq (7743331 / 8388608 - 10324441 / 67108864) (-1) 12905552 (1 / 16777216) (by norm_num) (by norm_num)
      (by norm_num) (by norm_num) (by norm_num) (by norm_num)).trans (by norm_num)
  have b8 : float32_round (806597 / 1048576 - 10324441 / 67108864) = 5162221 / 8388608 :=
    (float32_round_eq (806597 / 1048576 - 10324441 / 67108864) (-1) 10324442 (1 / 16777216) (by norm_num) (by norm_num)
      (by norm_num) (by norm_num) (by norm_num) (by norm_num)).trans (by norm_num)
  have b9 : float32_round (5162221 / 8388608 - 10324441 / 67108864) = 1935833 / 4194304 :=
    (float32_round_tie (5162221 / 8388608 - 10324441 / 67108864) (-2) 15486663 (1 / 33554432) (by norm_num) (by norm_num)
      (by norm_num) (by norm_num) (by norm_num)).trans (by norm_num)
  have b10 : float32_round (1935833 / 4194304 - 10324441 / 67108864) = 2581111 / 8388608 :=
    (float32_round_tie (1935833 / 4194304 - 10324441 / 67108864) (-2) 10324443 (1 / 33554432) (by norm_num) (by norm_num)
      (by norm_num) (by norm_num) (by norm_num)).trans (by norm_num)
  have b11 : float32_round (2581111 / 8388608 - 10324441 / 67108864) = 10324447 / 67108864 :=
    (float32_round_eq (2581111 / 8388608 - 10324441 / 67108864) (-3) 10324447 (1 / 67108864) (by norm_num) (by norm_num)
      (by norm_num) (by norm_num) (by norm_num) (by norm_num)).trans (by norm_num)
  have b12 : float32_round (10324447 / 67108864 - 10324441 / 67108864) = 3 / 33554432 :=
    (float32_round_eq (10324447 / 67108864 - 10324441 / 67108864) (-24) 12582912 (1 / 140737488355328) (by norm_num) (by norm_num)
      (by norm_num) (by norm_num) (by norm_num) (by norm_num)).trans (by norm_num)
  have b_loop : step_simulation_rounded_loop float32_round (10324441 / 67108864) max_iterations 2 0
      = (3 / 33554432, 13) := by
    have ht := step_simulation_rounded_loop_trace float32_round (10324441 / 67108864 : ℚ)
      [15486661 / 8388608, 7098053 / 4194304, 12905551 / 8388608, 2903749 / 2097152, 10324441 / 8388608, 4516943 / 4194304, 7743331 / 8388608, 806597 / 1048576, 5162221 / 8388608, 1935833 / 4194304, 2581111 / 8388608, 10324447 / 67108864, 3 / 33554432]
      2 (3 / 33554432) 0 max_iterations (by simp [max_iterations]) (by simp [max_iterations])
      (by
        simp only [List.chain_cons, List.Chain.nil, and_true]
        exact ⟨⟨by norm_num, b0.symm⟩,
          ⟨by norm_num, b1.symm⟩,
          ⟨by norm_num, b2.symm⟩,
          ⟨by norm_num, b3.symm⟩,
          ⟨by norm_num, b4.symm⟩,
          ⟨by norm_num, b5.symm⟩,
          ⟨by norm_num, b6.symm⟩,
          ⟨by norm_num, b7.symm⟩,
          ⟨by norm_num, b8.symm⟩,
          ⟨by norm_num, b9.symm⟩,
          ⟨by norm_num, b10.symm⟩,
          ⟨by norm_num, b11.symm⟩,
          ⟨by norm_num, b12.symm⟩⟩)
      (by simp) (by norm_num)
    simpa using ht
  refine ⟨⟨r005, ?_, ?_⟩, r213, ?_, ?_, ?_⟩
  · exact step_simulation_rounded_of_loop float32_round _ 2 2 _ _ rfl (hacc _) c1 a_loop
      (by simp [max_iterations])
  · rw [c1]
    norm_num
  · exact step_simulation_rounded_of_loop float32_round _ 2 2 _ _ rfl (hacc _) c2 b_loop
      (by simp [max_iterations])
  · rw [c2]
    norm_num
  · rw [c2, rdiv]
    norm_num

end ClockCounterexample

section RoundedClockFuel

variable {F : Type} [LinearOrderedField F]

/-- More fuel than `max_iterations` rounds changes nothing in the rounded loop. -/
theorem step_simulation_rounded_loop_fuel (rnd : F → F) (h : F) :
    ∀ (fuel extra : Nat) (acc : F) (it : Nat), max_iterations ≤ it + fuel →
      step_simulation_rounded_loop rnd h (fuel + extra) acc it
        = step_simulation_rounded_loop rnd h fuel acc it := by
  intro fuel
  induction fuel with
  | zero =>
    intro extra acc it hit
    cases extra with
    | zero => rfl
    | succ e =>
      rw [Nat.zero_add]
      unfold step_simulation_rounded_loop
      rw [if_neg (fun hc => absurd hc.2 (by omega))]
  | succ fuel ih =>
    intro extra acc it hit
    rw [show fuel + 1 + extra = (fuel + extra) + 1 by omega]
    unfold step_simulation_rounded_loop
    split_ifs with hc
    · exact ih extra _ _ (by omega)
    · rfl

end RoundedClockFuel

section ClockClaimBound

variable {F : Type} [LinearOrderedField F]

/-- Claim C3, amended: one call of `step_simulation` terminates, for every `frame_dt`,
accumulator and `base_dt`.  In exact arithmetic it performs at most
`min(2.0 / step_dt, 4096)` integration steps, `step_dt = clamp(base_dt, 1e-6, 0.2)`, a
bound that does not mention `frame_dt`.  Whatever the rounding `rnd` of the arithmetic, it
performs at most 4096 steps, and the loop stops by its own guard within `max_iterations`
rounds, so giving it more fuel changes nothing; the bound `2.0 / step_dt` itself is not
kept in single precision.  Without rounding the rounded clock is the clock of
`step_simulation`. -/
theorem step_simulation_bounded (sin : F → F) (hardware_concurrency : Nat)
    (state : simulation_state F) (frame_dt : F) :
    (((step_simulation sin hardware_concurrency state frame_dt).2 : Nat) : F)
      ≤ min (2 / glm_clamp state.base_dt 1e-6 0.2) 4096 ∧
    (∀ (extra : Nat) (h : F) (s0 : simulation_state F),
      step_simulation_loop sin hardware_concurrency h (max_iterations + extra) s0 0
        = step_simulation_loop sin hardware_concurrency h max_iterations s0 0) ∧
    (∀ (h : F) (s0 : simulation_state F),
      ¬ (h ≤ (step_simulation_loop sin hardware_concurrency h max_iterations s0 0).1.time_accumulator
          ∧ (step_simulation_loop sin hardware_concurrency h max_iterations s0 0).2
              < max_iterations)) ∧
    (∀ rnd : F → F,
      (step_simulation_rounded rnd state frame_dt).2 ≤ 4096 ∧
      ∀ (extra : Nat) (h a : F),
        step_simulation_rounded_loop rnd h (max_iterations + extra) a 0
          = step_simulation_rounded_loop rnd h max_iterations a 0) ∧
    step_simulation_rounded (fun x => x) state frame_dt
      = ((step_simulation sin hardware_concurrency state frame_dt).1.time_accumulator,
          (step_simulation sin hardware_concurrency state frame_dt).2) := by
  have hpos : (0 : F) < glm_clamp state.base_dt 1e-6 0.2 := step_dt_pos state
  refine ⟨?_, fun extra h s0 => step_simulation_loop_fuel sin hardware_concurrency h extra
    max_iterations s0 0 (by omega), ?_, fun rnd => ⟨?_, fun extra h a =>
      step_simulation_rounded_loop_fuel rnd h max_iterations extra a 0 (by omega)⟩,
    step_simulation_rounded_exact sin hardware_concurrency state frame_dt⟩
  · cases hp : state.paused with
    | true =>
      rw [step_simulation_of_paused sin hardware_concurrency state frame_dt hp]
      simp only [Nat.cast_zero]
      exact le_min (div_nonneg (by norm_num) hpos.le) (by norm_num)
    | false =>
      obtain ⟨hle, hall, -, -, -⟩ :=
        step_simulation_clock sin hardware_concurrency state frame_dt hp
      change ∀ j : Nat, j < _ → ((j : F) + 1) * glm_clamp state.base_dt 1e-6 0.2 ≤ _ at hall
      generalize (step_simulation sin hardware_concurrency state frame_dt).2 = n at *
      refine le_min ?_ (by exact_mod_cast hle)
      rw [le_div_iff₀ hpos]
      cases n with
      | zero => simp
      | succ m =>
        have h1 := hall m (by omega)
        have h2 : min (state.time_accumulator + frame_dt) 2 ≤ (2 : F) := min_le_right _ _
        push_cast
        linarith
  · intro h s0
    obtain ⟨k, hk, h2, -, hacc, -, hstop⟩ :=
      step_simulation_loop_spec sin hardware_concurrency h max_iterations s0 0
    rw [h2, hacc, Nat.zero_add]
    rcases hstop with hstop | hstop
    · intro hc
      omega
    · simpa using hstop
  · show _ ≤ max_iterations
    unfold step_simulation_rounded
    simp only []
    split_ifs
    all_goals
      first
        | exact Nat.zero_le _
        | exact step_simulation_rounded_loop_count rnd _ _ _ _ (Nat.zero_le _)

end ClockClaimBound

section ResetClaim

variable {F : Type} [LinearOrderedField F] [FloorRing F]

/-- The clock, the integrator, the bound field and the reference state after
`reset_simulation`, and the lengths of its ensemble. -/
theorem reset_simulation_fields (sin : F → F) (m : cmath F) (draws : Nat → F)
    (state : simulation_state F) :
    (reset_simulation sin m draws state).1.t = 0 ∧
    (reset_simulation sin m draws state).1.time_accumulator = 0 ∧
    (reset_simulation sin m draws state).1.integrator = {} ∧
    (reset_simulation sin m draws state).1.current_system = state.current_system ∧
    (reset_simulation sin m draws state).1.system =
      (match state.current_system with
        | system_type.lorenz => make_lorenz_system state.lorenz_args
        | system_type.rossler => make_rossler_system state.rossler_args
        | system_type.thomas => make_thomas_system sin state.thomas_args
        | system_type.aizawa => make_aizawa_system state.aizawa_args
        | system_type.dadras => make_dadras_system state.dadras_args
        | system_type.chen => make_chen_system state.chen_args
        | system_type.lorenz83 => make_lorenz83_system state.lorenz83_args
        | system_type.halvorsen => make_halvorsen_system state.halvorsen_args
        | system_type.rabinovich => make_rabinovich_system state.rabinovich_args
        | system_type.three_scroll => make_three_scroll_system state.three_scroll_args
        | system_type.sprott => make_sprott_system state.sprott_args
        | system_type.four_wing => make_four_wing_system state.four_wing_args) ∧
    (reset_simulation sin m draws state).1.system.dim = 3 ∧
    (reset_simulation sin m draws state).1.state =
      (match state.current_system with
        | system_type.lorenz => [1, 1, 1]
        | system_type.rossler => [0.1, 0, 0]
        | system_type.thomas => [0.2, 0, -0.2]
        | system_type.aizawa => [0.1, 0, 0]
        | system_type.dadras => [0.1, 0.1, 0.1]
        | system_type.chen => [0.1, 0, 0]
        | system_type.lorenz83 => [0.1, 0, 0]
        | system_type.halvorsen => [0.1, 0, 0]
        | system_type.rabinovich => [0.1, 0, 0]
        | system_type.three_scroll => [0.1, 0, 0]
        | system_type.sprott => [0.1, 0.1, 0.1]
        | system_type.four_wing => [0.1, 0.1, 0.1]) ∧
    (reset_simulation sin m draws state).1.state.length = 3 ∧
    (reset_simulation sin m draws state).1.particle_positions.length
      = (reset_simulation sin m draws state).1.particle_phases.length ∧
    (reset_simulation sin m draws state).1.particle_positions.length
      = (if state.particle_count = 0 then 1 else state.particle_count) ∧
    (reset_simulation sin m draws state).1.state
      = [(reset_simulation sin m draws state).2.x, (reset_simulation sin m draws state).2.y,
          (reset_simulation sin m draws state).2.z] := by
  have e1 : (1.0 : F) = 1 := by norm_num
  have e0 : (0.0 : F) = 0 := by norm_num
  unfold reset_simulation
  simp only []
  generalize hs1 : ({ ({ ({ ({ ({ state with system := (reset_simulation_switch sin state).1 } :
      simulation_state F) with state := (reset_simulation_switch sin state).2 } :
      simulation_state F) with t := 0.0 } : simulation_state F) with
      time_accumulator := 0.0 } : simulation_state F) with integrator := {} } :
      simulation_state F) = s1
  obtain ⟨f1, f2, f3, f4, f5, f6, -, -, -⟩ := initialize_particle_field_frame sin m draws s1
  obtain ⟨-, g2, g3, -⟩ := initialize_particle_field_spec m draws s1
  rw [f1, f2, f3, f4, f5, f6, g2, g3]
  subst hs1
  simp only [e0]
  refine ⟨trivial, trivial, trivial, trivial, ?_, ?_, ?_, ?_, trivial, trivial, ?_⟩
  · unfold reset_simulation_switch
    cases state.current_system <;> rfl
  · unfold reset_simulation_switch
    cases state.current_system <;> rfl
  · unfold reset_simulation_switch
    cases state.current_system <;> simp only [e1, e0]
  · unfold reset_simulation_switch
    cases state.current_system <;> rfl
  · unfold reset_simulation_switch
    cases state.current_system <;> rfl

/-- The ensemble that `initialize_particle_field` seeds, entry by entry: with `c` the
corrected count, entry `i < c` holds the spawn position of round `i`, computed from
the draws `4 i, ..., 4 i + 3`, and its phase. -/
theorem initialize_particle_field_entries (m : cmath F) (draws : Nat → F)
    (s : simulation_state F) :
    (initialize_particle_field m draws s).particle_count
      = (if s.particle_count = 0 then 1 else s.particle_count) ∧
    (initialize_particle_field m draws s).particle_positions.length
      = (if s.particle_count = 0 then 1 else s.particle_count) ∧
    (initialize_particle_field m draws s).particle_phases.length
      = (if s.particle_count = 0 then 1 else s.particle_count) ∧
    (∀ i : Nat, i < (if s.particle_count = 0 then 1 else s.particle_count) →
      (initialize_particle_field m draws s).particle_positions[i]?
        = some (spawn_position m s (draws (4 * i)) (draws (4 * i + 1))
            (draws (4 * i + 2)) (draws (4 * i + 3))) ∧
      (initialize_particle_field m draws s).particle_phases[i]?
        = some (compute_spawn_phase m (spawn_position m s (draws (4 * i))
            (draws (4 * i + 1)) (draws (4 * i + 2)) (draws (4 * i + 3))))) := by
  obtain ⟨g1, g2, g3, g4⟩ := initialize_particle_field_spec m draws s
  refine ⟨g1, g2, g3, fun i hi => ?_⟩
  have hp := initialize_particle_field_position m draws s i (by rw [g1]; exact hi)
  obtain ⟨p, hp1, hp2⟩ := g4 i hi
  rw [hp] at hp1
  have e : spawn_position m s (draws (4 * i)) (draws (4 * i + 1)) (draws (4 * i + 2))
      (draws (4 * i + 3)) = p := Option.some.inj hp1
  rw [e]
  exact ⟨hp.trans (congrArg some e), hp2⟩

/-- Two states with the same count and the same spawn policy are seeded alike. -/
theorem initialize_particle_field_congr (m : cmath F) (draws : Nat → F)
    (s s' : simulation_state F) (hc : s'.particle_count = s.particle_count)
    (h1 : s'.particle_spawn_from_origin = s.particle_spawn_from_origin)
    (h2 : s'.particle_origin_jitter = s.particle_origin_jitter)
    (h3 : s'.particle_spawn_radius = s.particle_spawn_radius) :
    (initialize_particle_field m draws s').particle_positions
      = (initialize_particle_field m draws s).particle_positions ∧
    (initialize_particle_field m draws s').particle_phases
      = (initialize_particle_field m draws s).particle_phases := by
  obtain ⟨-, a2, a3, a4⟩ := initialize_particle_field_entries m draws s
  obtain ⟨-, b2, b3, b4⟩ := initialize_particle_field_entries m draws s'
  rw [hc] at b2 b3 b4
  rw [spawn_position_congr m s s' h1 h2 h3] at b4
  constructor
  · apply List.ext_getElem?
    intro i
    by_cases hi : i < (if s.particle_count = 0 then 1 else s.particle_count)
    · rw [(a4 i hi).1, (b4 i hi).1]
    · rw [List.getElem?_eq_none (by omega), List.getElem?_eq_none (by omega)]
  · apply List.ext_getElem?
    intro i
    by_cases hi : i < (if s.particle_count = 0 then 1 else s.particle_count)
    · rw [(a4 i hi).2, (b4 i hi).2]
    · rw [List.getElem?_eq_none (by omega), List.getElem?_eq_none (by omega)]

/-- The ensemble after `reset_simulation` is the one `initialize_particle_field` seeds from
the given state with the same draws. -/
theorem reset_simulation_ensemble (sin : F → F) (m : cmath F) (draws : Nat → F)
    (state : simulation_state F) :
    (reset_simulation sin m draws state).1.particle_count
      = (initialize_particle_field m draws state).particle_count ∧
    (reset_simulation sin m draws state).1.particle_positions
      = (initialize_particle_field m draws state).particle_positions ∧
    (reset_simulation sin m draws state).1.particle_phases
      = (initialize_particle_field m draws state).particle_phases := by
  unfold reset_simulation
  simp only []
  refine ⟨?_, initialize_particle_field_congr m draws state _ rfl rfl rfl rfl⟩
  rw [(initialize_particle_field_entries m draws _).1,
    (initialize_particle_field_entries m draws state).1]

/-- C24. After `reset_simulation`, for every state and every outcome of the draws:
`t = 0`, `time_accumulator = 0`, the integrator is fresh, the bound field is the
factory of the current system applied to its current parameters and has
`dim = 3`, the reference state has length 3 and is the initial condition of the
system, and the returned vector holds the three components of the new reference
state.  The ensemble is reseeded: the count is the corrected count `c` (1 when it
was 0), the position and phase sequences both have length `c`, entry `i < c` of the
positions is the spawn position computed from the draws `4 i, ..., 4 i + 3` under the
spawn policy of the state and entry `i` of the phases is `compute_spawn_phase` of
that position, so both sequences are the ones `initialize_particle_field` seeds from
these draws, whatever they held before. -/
theorem reset_simulation_spec (sin : F → F) (m : cmath F) (draws : Nat → F)
    (state : simulation_state F) :
    (reset_simulation sin m draws state).1.t = 0 ∧
    (reset_simulation sin m draws state).1.time_accumulator = 0 ∧
    (reset_simulation sin m draws state).1.integrator = {} ∧
    (reset_simulation sin m draws state).1.current_system = state.current_system ∧
    (reset_simulation sin m draws state).1.system =
      (match state.current_system with
        | system_type.lorenz => make_lorenz_system state.lorenz_args
        | system_type.rossler => make_rossler_system state.rossler_args
        | system_type.thomas => make_thomas_system sin state.thomas_args
        | system_type.aizawa => make_aizawa_system state.aizawa_args
        | system_type.dadras => make_dadras_system state.dadras_args
        | system_type.chen => make_chen_system state.chen_args
        | system_type.lorenz83 => make_lorenz83_system state.lorenz83_args
        | system_type.halvorsen => make_halvorsen_system state.halvorsen_args
        | system_type.rabinovich => make_rabinovich_system state.rabinovich_args
        | system_type.three_scroll => make_three_scroll_system state.three_scroll_args
        | system_type.sprott => make_sprott_system state.sprott_args
        | system_type.four_wing => make_four_wing_system state.four_wing_args) ∧
    (reset_simulation sin m draws state).1.system.dim = 3 ∧
    (reset_simulation sin m draws state).1.state =
      (match state.current_system with
        | system_type.lorenz => [1, 1, 1]
        | system_type.rossler => [0.1, 0, 0]
        | system_type.thomas => [0.2, 0, -0.2]
        | system_type.aizawa => [0.1, 0, 0]
        | system_type.dadras => [0.1, 0.1, 0.1]
        | system_type.chen => [0.1, 0, 0]
        | system_type.lorenz83 => [0.1, 0, 0]
        | system_type.halvorsen => [0.1, 0, 0]
        | system_type.rabinovich => [0.1, 0, 0]
        | system_type.three_scroll => [0.1, 0, 0]
        | system_type.sprott => [0.1, 0.1, 0.1]
        | system_type.four_wing => [0.1, 0.1, 0.1]) ∧
    (reset_simulation sin m draws state).1.state.length = 3 ∧
    (reset_simulation sin m draws state).1.particle_positions.length
      = (reset_simulation sin m draws state).1.particle_phases.length ∧
    (reset_simulation sin m draws state).1.particle_positions.length
      = (if state.particle_count = 0 then 1 else state.particle_count) ∧
    (reset_simulation sin m draws state).1.state
      = [(reset_simulation sin m draws state).2.x, (reset_simulation sin m draws state).2.y,
          (reset_simulation sin m draws state).2.z] ∧
    (reset_simulation sin m draws state).1.particle_count
      = (if state.particle_count = 0 then 1 else state.particle_count) ∧
    (∀ i : Nat, i < (if state.particle_count = 0 then 1 else state.particle_count) →
      (reset_simulation sin m draws state).1.particle_positions[i]?
        = some (spawn_position m state (draws (4 * i)) (draws (4 * i + 1))
            (draws (4 * i + 2)) (draws (4 * i + 3))) ∧
      (reset_simulation sin m draws state).1.particle_phases[i]?
        = some (compute_spawn_phase m (spawn_position m state (draws (4 * i))
            (draws (4 * i + 1)) (draws (4 * i + 2)) (draws (4 * i + 3))))) ∧
    (reset_simulation sin m draws state).1.particle_positions
      = (initialize_particle_field m draws state).particle_positions ∧
    (reset_simulation sin m draws state).1.particle_phases
      = (initialize_particle_field m draws state).particle_phases := by
  obtain ⟨a1, a2, a3, a4, a5, a6, a7, a8, a9, a10, a11⟩ :=
    reset_simulation_fields sin m draws state
  obtain ⟨e1, e2, e3⟩ := reset_simulation_ensemble sin m draws state
  obtain ⟨b1, -, -, b4⟩ := initialize_particle_field_entries m draws state
  refine ⟨a1, a2, a3, a4, a5, a6, a7, a8, a9, a10, a11, e1.trans b1, fun i hi => ?_, e2, e3⟩
  rw [e2, e3]
  exact b4 i hi

end ResetClaim

end Chaoseq
